import Mathlib

/-!
# SH-4 core (`src/hw/sh4/sh4.cc`): interrupt controller, control registers, peripherals

A shallow embedding of the interrupt controller (`ReprioritizeInterrupts`,
`UpdatePendingInterrupts`, `RequestInterrupt`, `UnrequestInterrupt`,
`CheckPendingInterrupts`), of the status-register hook (`SRUpdated`,
`SwapRegisterBank`), of the control-register access (`ReadRegister`, `WriteRegister` and
the register delegates), of the timer unit (`UpdateTimerStart`, `UpdateTimerControl`,
`UpdateTimerCount`, `TimerCount`, `RescheduleTimer`, `ExpireTimer`), of the DMA
controller (`DDT`, `CheckDMA`), of the store queues (`Prefetch`, `ReadSQ`, `WriteSQ`), of
the cache RAM (`ReadCache`, `WriteCache`), of the breakpoints (`AddBreakpoint`,
`RemoveBreakpoint`) and of the driver (`Run`) of the SH-4 core.

Machine words are natural numbers; 64-bit and 32-bit wrap-around is written out
with `% 2 ^ 64` and `% 2 ^ 32`.  C arrays are functions from the index to the
element, an assignment `a[i] = v` is `arraySet a i v`.
-/

set_option maxRecDepth 100000

namespace SH4

/-! ## Data model -/

/-- One row of the static table `interrupts[NUM_INTERRUPTS]` (`InterruptInfo`). -/
structure InterruptInfo where
  intevt : Nat
  default_priority : Nat
  ipr : Nat
  ipr_shift : Nat
deriving DecidableEq

/-- One slot of the control-register table `regs_` (`Register`): access flags and value. -/
structure Register where
  flags : Nat
  value : Nat
deriving DecidableEq

/-- The execution context `SH4Context` (`ctx_`). -/
structure SH4Context where
  r : Nat → Nat
  ralt : Nat → Nat
  fr : Nat → Nat
  xf : Nat → Nat
  sq : Nat → Nat → Nat
  pc : Nat
  pr : Nat
  sr : Nat
  ssr : Nat
  spc : Nat
  sgr : Nat
  gbr : Nat
  vbr : Nat
  mach : Nat
  macl : Nat
  fpul : Nat
  fpscr : Nat
  num_cycles : Int
  num_instrs : Nat

/-- The part of the `SH4` object the interrupt controller works on. -/
structure SH4State where
  ctx : SH4Context
  regs : Nat → Register
  requested_interrupts : Nat
  pending_interrupts : Nat
  sort_id : Nat → Nat
  sorted_interrupts : Nat → Nat
  priority_mask : Nat → Nat

/-- The constants of the build that `sh4.cc` takes from included files: the rows of
`hw/sh4/sh4_int.inc` (the table `interrupts[]`) and the offset of `INTEVT` in `regs_`
(from `hw/sh4/sh4_regs.inc`).  Both are parameters of the development. -/
structure Config where
  interrupts : List InterruptInfo
  INTEVT_OFFSET : Nat

/-- The constant `NUM_INTERRUPTS`: the number of rows of `interrupts[]`. -/
def Config.NUM_INTERRUPTS (cfg : Config) : Nat := cfg.interrupts.length

/-- The row `interrupts[j]`. -/
def Config.intInfo (cfg : Config) (j : Nat) : InterruptInfo :=
  cfg.interrupts.getD j ⟨0, 0, 0, 0⟩

/-- Modelled from the spec: the status-register field `I` (declared in the context header,
which is not under src/): the 4-bit interrupt mask level, `min_priority = (SR & 0xf0) >> 4`. -/
def I : Nat := 0xf0

/-- Modelled from the spec: the status-register bit `BL` (declared in the context header,
which is not under src/): block-interrupts, bit 28 of SR. -/
def BL : Nat := 0x10000000

/-- Modelled from the spec: the status-register bit `RB` (declared in the context header,
which is not under src/): general-register-bank select, bit 29 of SR. -/
def RB : Nat := 0x20000000

/-- Modelled from the spec: the status-register bit `MD` (declared in the context header,
which is not under src/): privilege mode, bit 30 of SR (scenario S3: `SR = 0x40000000`
has RB, BL and I clear). -/
def MD : Nat := 0x40000000

/-! ## Machine arithmetic -/

/-- The assignment `a[i] = v` on an array. -/
def arraySet {α : Type} (a : Nat → α) (i : Nat) (v : α) : Nat → α :=
  fun k => if k = i then v else a k

/-- The value `(uint64_t)1 << n`. -/
def shl64 (n : Nat) : Nat := (1 <<< n) % 2 ^ 64

/-- Subtraction of `uint64_t` values. -/
def sub64 (a b : Nat) : Nat := (a % 2 ^ 64 + 2 ^ 64 - b % 2 ^ 64) % 2 ^ 64

/-- The complement `~x` of a `uint64_t`. -/
def not64 (x : Nat) : Nat := (x % 2 ^ 64) ^^^ (2 ^ 64 - 1)

/-- Leading zeros among the `k` low bits of `x`, scanning down from bit `k - 1`. -/
def clzFrom : Nat → Nat → Nat
  | 0, _ => 0
  | k + 1, x => if x.testBit k then 0 else 1 + clzFrom k x

/-- Modelled from the spec: `re::clz` on a 64-bit word (declared in `core/math.h`, which is
not under src/), the count of leading zero bits, so that `63 - clz(x)` is the highest set
bit of a non-zero `x`. -/
def clz (x : Nat) : Nat := clzFrom 64 x

/-! ## The interrupt controller -/

/-- The current priority of interrupt `j`, as computed at the head of the inner loop of
`ReprioritizeInterrupts`: the default priority, or the nibble of the IPR register. -/
def currentPriority (cfg : Config) (regs : Nat → Register) (j : Nat) : Nat :=
  let int_info := cfg.intInfo j
  if int_info.ipr ≠ 0 then
    (((regs int_info.ipr).value &&& 0xffff) >>> int_info.ipr_shift) &&& 0xf
  else
    int_info.default_priority

/-- The function `SH4::UpdatePendingInterrupts`. -/
def UpdatePendingInterrupts (s : SH4State) : SH4State :=
  let min_priority := (s.ctx.sr &&& I) >>> 4
  let priority_mask := if s.ctx.sr &&& BL ≠ 0 then 0 else not64 (s.priority_mask min_priority)
  { s with pending_interrupts := s.requested_interrupts &&& priority_mask }

/-- The body of the inner loop (`for j`) of `ReprioritizeInterrupts`, on the object state
paired with the loop counter `n`; `old` is the saved `requested_interrupts_`. -/
def reprioritizeBody (cfg : Config) (old i j : Nat) (st : SH4State × Nat) : SH4State × Nat :=
  let priority := currentPriority cfg st.1.regs j
  if priority ≠ i then st
  else
    let was_requested : Bool := decide (old &&& st.1.sort_id j ≠ 0)
    let s1 : SH4State :=
      { st.1 with
        sorted_interrupts := arraySet st.1.sorted_interrupts st.2 j
        sort_id := arraySet st.1.sort_id j (shl64 st.2) }
    let s2 : SH4State :=
      if was_requested then
        { s1 with requested_interrupts := s1.requested_interrupts ||| s1.sort_id j }
      else s1
    (s2, st.2 + 1)

/-- The inner loop `for (int j = m - 1; j >= 0; j--)` of `ReprioritizeInterrupts`. -/
def reprioritizeInner (cfg : Config) (old i : Nat) : Nat → SH4State × Nat → SH4State × Nat
  | 0, st => st
  | j + 1, st => reprioritizeInner cfg old i j (reprioritizeBody cfg old i j st)

/-- One pass of the outer loop (`for i`) of `ReprioritizeInterrupts`: the inner loop, then
the store to `priority_mask_[i]`. -/
def reprioritizeLevel (cfg : Config) (old : Nat) (st : SH4State × Nat) (i : Nat) :
    SH4State × Nat :=
  let st1 := reprioritizeInner cfg old i cfg.NUM_INTERRUPTS st
  ({ st1.1 with priority_mask := arraySet st1.1.priority_mask i (sub64 (shl64 st1.2) 1) }, st1.2)

/-- The first `k` passes of the outer loop of `ReprioritizeInterrupts`. -/
def reprioritizeLevels (cfg : Config) (old k : Nat) (st : SH4State × Nat) : SH4State × Nat :=
  (List.range k).foldl (reprioritizeLevel cfg old) st

/-- The function `SH4::ReprioritizeInterrupts`. -/
def ReprioritizeInterrupts (cfg : Config) (s : SH4State) : SH4State :=
  let old := s.requested_interrupts
  let s0 : SH4State := { s with requested_interrupts := 0 }
  UpdatePendingInterrupts (reprioritizeLevels cfg old 16 (s0, 0)).1

/-- The function `SH4::RequestInterrupt`. -/
def RequestInterrupt (s : SH4State) (intr : Nat) : SH4State :=
  UpdatePendingInterrupts
    { s with requested_interrupts := s.requested_interrupts ||| s.sort_id intr }

/-- The function `SH4::UnrequestInterrupt`. -/
def UnrequestInterrupt (s : SH4State) (intr : Nat) : SH4State :=
  UpdatePendingInterrupts
    { s with requested_interrupts := s.requested_interrupts &&& not64 (s.sort_id intr) }

/-! ## The status-register hook -/

/-- The body of the loop of `SH4::SwapRegisterBank`, on the context. -/
def swapRegisterBody (c : SH4Context) (i : Nat) : SH4Context :=
  let tmp := c.r i
  let c1 : SH4Context := { c with r := arraySet c.r i (c.ralt i) }
  { c1 with ralt := arraySet c1.ralt i tmp }

/-- The function `SH4::SwapRegisterBank`. -/
def SwapRegisterBank (s : SH4State) : SH4State :=
  { s with ctx := (List.range 8).foldl swapRegisterBody s.ctx }

/-- The function `SH4::SRUpdated`. -/
def SRUpdated (s : SH4State) (old_sr : Nat) : SH4State :=
  let s1 := if s.ctx.sr &&& RB ≠ old_sr &&& RB then SwapRegisterBank s else s
  if s1.ctx.sr &&& I ≠ old_sr &&& I ∨ s1.ctx.sr &&& BL ≠ old_sr &&& BL then
    UpdatePendingInterrupts s1
  else s1

/-! ## Interrupt delivery, register writes and initialisation -/

/-- The function `SH4::CheckPendingInterrupts`. -/
def CheckPendingInterrupts (cfg : Config) (s : SH4State) : SH4State :=
  if s.pending_interrupts = 0 then s
  else
    let n := 63 - clz s.pending_interrupts
    let intr := s.sorted_interrupts n
    let int_info := cfg.intInfo intr
    let regs1 := arraySet s.regs cfg.INTEVT_OFFSET
      { s.regs cfg.INTEVT_OFFSET with value := int_info.intevt }
    let c1 : SH4Context := { s.ctx with ssr := s.ctx.sr }
    let c2 : SH4Context := { c1 with spc := c1.pc }
    let c3 : SH4Context := { c2 with sgr := c2.r 15 }
    let c4 : SH4Context := { c3 with sr := c3.sr ||| (BL ||| MD ||| RB) }
    let c5 : SH4Context := { c4 with pc := (c4.vbr + 0x600) % 2 ^ 32 }
    SRUpdated { s with regs := regs1, ctx := c5 } c5.ssr

/-- The write path of `SH4::WriteRegister<uint32_t>` for a writable register whose write
delegate is `ReprioritizeInterrupts` (IPRA, IPRB, IPRC): store the value, run the delegate. -/
def WriteIPR (cfg : Config) (s : SH4State) (offset value : Nat) : SH4State :=
  ReprioritizeInterrupts cfg
    { s with regs := arraySet s.regs offset { s.regs offset with value := value % 2 ^ 32 } }

/-- The context after the `memset` and the assignments of `SH4::Init`. -/
def initContext : SH4Context :=
  { r := fun _ => 0, ralt := fun _ => 0, fr := fun _ => 0, xf := fun _ => 0,
    sq := fun _ _ => 0, pc := 0xa0000000, pr := 0, sr := 0x700000f0, ssr := 0, spc := 0,
    sgr := 0, gbr := 0, vbr := 0, mach := 0, macl := 0, fpul := 0, fpscr := 0x00040001,
    num_cycles := 0, num_instrs := 0 }

/-- The interrupt-controller part of the constructor followed by `SH4::Init`: the masks
`requested_interrupts_` and `pending_interrupts_` are zero, the register table holds its
declared defaults `regs0`, the three sort arrays hold whatever they held (`sort0`,
`sorted0`, `mask0`), and `ReprioritizeInterrupts` runs. -/
def Init (cfg : Config) (regs0 : Nat → Register) (sort0 sorted0 mask0 : Nat → Nat) :
    SH4State :=
  ReprioritizeInterrupts cfg
    { ctx := initContext, regs := regs0, requested_interrupts := 0, pending_interrupts := 0,
      sort_id := sort0, sorted_interrupts := sorted0, priority_mask := mask0 }

/-- The states the core reaches from `Init` by interrupt requests, IPR writes, SR writes
(each followed by the hook `SRUpdated` with the old SR), interrupt delivery, and translated
code changing context fields other than SR. -/
inductive Reachable (cfg : Config) : SH4State → Prop
  | init (regs0 : Nat → Register) (sort0 sorted0 mask0 : Nat → Nat) :
      Reachable cfg (Init cfg regs0 sort0 sorted0 mask0)
  | reprioritize (s : SH4State) :
      Reachable cfg s → Reachable cfg (ReprioritizeInterrupts cfg s)
  | writeIPR (s : SH4State) (offset value : Nat) :
      Reachable cfg s → Reachable cfg (WriteIPR cfg s offset value)
  | request (s : SH4State) (intr : Nat) :
      Reachable cfg s → intr < cfg.NUM_INTERRUPTS → Reachable cfg (RequestInterrupt s intr)
  | unrequest (s : SH4State) (intr : Nat) :
      Reachable cfg s → intr < cfg.NUM_INTERRUPTS → Reachable cfg (UnrequestInterrupt s intr)
  | writeSR (s : SH4State) (sr : Nat) :
      Reachable cfg s →
      Reachable cfg (SRUpdated { s with ctx := { s.ctx with sr := sr } } s.ctx.sr)
  | check (s : SH4State) :
      Reachable cfg s → Reachable cfg (CheckPendingInterrupts cfg s)
  | exec (s : SH4State) (ctx : SH4Context) :
      Reachable cfg s → ctx.sr = s.ctx.sr → Reachable cfg { s with ctx := ctx }

/-! ## Specification vocabulary -/

/-- Kind `a` comes before kind `b` in the sort order: lower priority, or equal priority and
higher kind id. -/
def Before (cfg : Config) (regs : Nat → Register) (a b : Nat) : Prop :=
  currentPriority cfg regs a < currentPriority cfg regs b ∨
    (currentPriority cfg regs a = currentPriority cfg regs b ∧ b < a)

instance (cfg : Config) (regs : Nat → Register) (a b : Nat) : Decidable (Before cfg regs a b) := by
  unfold Before; infer_instance

/-- The number of kinds that come before kind `j` in the sort order. -/
def rank (cfg : Config) (regs : Nat → Register) (j : Nat) : Nat :=
  (List.range cfg.NUM_INTERRUPTS).countP (fun k => decide (Before cfg regs k j))

/-- The number of kinds whose current priority is at most `i`. -/
def countLE (cfg : Config) (regs : Nat → Register) (i : Nat) : Nat :=
  (List.range cfg.NUM_INTERRUPTS).countP (fun k => decide (currentPriority cfg regs k ≤ i))

/-- The number of set bits of a 64-bit word. -/
def popcount64 (x : Nat) : Nat := (List.range 64).countP (fun b => x.testBit b)

/-- The interrupt table is well formed: at most 63 kinds (one bit each in a 64-bit mask,
and `1 << NUM_INTERRUPTS` representable), default priorities in 0..15, shifts inside the
16-bit IPR registers, and no kind takes its priority from the `INTEVT` register. -/
def Config.WF (cfg : Config) : Prop :=
  cfg.NUM_INTERRUPTS < 64 ∧
  ∀ j, j < cfg.NUM_INTERRUPTS →
    (cfg.intInfo j).default_priority ≤ 15 ∧ (cfg.intInfo j).ipr_shift < 16 ∧
    ((cfg.intInfo j).ipr ≠ 0 → (cfg.intInfo j).ipr ≠ cfg.INTEVT_OFFSET)

instance (cfg : Config) : Decidable cfg.WF := by
  unfold Config.WF; infer_instance

/-! ## Loop positions and invariants -/

/-- Kind `k` has been given its sorted id when the outer loop is at level `i` and the inner
loop has handled the ids `≥ m`. -/
def Processed (cfg : Config) (regs : Nat → Register) (i m k : Nat) : Prop :=
  currentPriority cfg regs k < i ∨ (currentPriority cfg regs k = i ∧ m ≤ k)

instance (cfg : Config) (regs : Nat → Register) (i m k : Nat) :
    Decidable (Processed cfg regs i m k) := by
  unfold Processed; infer_instance

/-- The number of kinds processed at loop position `(i, m)`. -/
def processedCount (cfg : Config) (regs : Nat → Register) (i m : Nat) : Nat :=
  (List.range cfg.NUM_INTERRUPTS).countP (fun k => decide (Processed cfg regs i m k))

/-- The invariant of the loops of `ReprioritizeInterrupts`, at loop position `(i, m)`, for a
run started in `s0` with saved mask `old`. -/
structure LoopInv (cfg : Config) (s0 : SH4State) (old i m : Nat) (st : SH4State × Nat) :
    Prop where
  ctx : st.1.ctx = s0.ctx
  regs : st.1.regs = s0.regs
  pending : st.1.pending_interrupts = s0.pending_interrupts
  count : st.2 = processedCount cfg s0.regs i m
  sort_done : ∀ k, k < cfg.NUM_INTERRUPTS → Processed cfg s0.regs i m k →
    st.1.sort_id k = 2 ^ rank cfg s0.regs k ∧ st.1.sorted_interrupts (rank cfg s0.regs k) = k
  sort_rest : ∀ k, ¬ (k < cfg.NUM_INTERRUPTS ∧ Processed cfg s0.regs i m k) →
    st.1.sort_id k = s0.sort_id k
  req : ∀ b, st.1.requested_interrupts.testBit b = true ↔
    ∃ k, k < cfg.NUM_INTERRUPTS ∧ Processed cfg s0.regs i m k ∧ rank cfg s0.regs k = b ∧
      old &&& s0.sort_id k ≠ 0
  mask : ∀ i', i' < i → st.1.priority_mask i' = 2 ^ countLE cfg s0.regs i' - 1

/-- What `ReprioritizeInterrupts` leaves in the object, in closed form. -/
structure Sorted (cfg : Config) (s : SH4State) : Prop where
  sort_id : ∀ k, k < cfg.NUM_INTERRUPTS → s.sort_id k = 2 ^ rank cfg s.regs k
  sorted : ∀ k, k < cfg.NUM_INTERRUPTS → s.sorted_interrupts (rank cfg s.regs k) = k
  mask : ∀ i, i < 16 → s.priority_mask i = 2 ^ countLE cfg s.regs i - 1

/-- The invariant every reachable state satisfies: the sort arrays are those
`ReprioritizeInterrupts` computes from the current registers, `requested_interrupts_` holds
only bits of kinds, and `pending_interrupts_` is what `UpdatePendingInterrupts` computes. -/
structure Canonical (cfg : Config) (s : SH4State) : Prop where
  sorted : Sorted cfg s
  req : s.requested_interrupts < 2 ^ cfg.NUM_INTERRUPTS
  pend : s.pending_interrupts = (UpdatePendingInterrupts s).pending_interrupts

/-- The state `CheckPendingInterrupts` hands to `SRUpdated` when an interrupt is pending. -/
def entryState (cfg : Config) (s : SH4State) : SH4State :=
  let intr := s.sorted_interrupts (63 - clz s.pending_interrupts)
  { s with
    regs := arraySet s.regs cfg.INTEVT_OFFSET
      { s.regs cfg.INTEVT_OFFSET with value := (cfg.intInfo intr).intevt }
    ctx := { s.ctx with
      ssr := s.ctx.sr, spc := s.ctx.pc, sgr := s.ctx.r 15,
      sr := s.ctx.sr ||| (BL ||| MD ||| RB), pc := (s.ctx.vbr + 0x600) % 2 ^ 32 } }

/-- Invariant B, first half: `sort_id` and `sorted_interrupts` are mutual inverses. -/
def SortInv (cfg : Config) (s : SH4State) : Prop :=
  (∀ j, j < cfg.NUM_INTERRUPTS →
    ∃ n, n < cfg.NUM_INTERRUPTS ∧ s.sort_id j = 1 <<< n ∧ s.sorted_interrupts n = j) ∧
  (∀ n, n < cfg.NUM_INTERRUPTS →
    s.sorted_interrupts n < cfg.NUM_INTERRUPTS ∧ s.sort_id (s.sorted_interrupts n) = 1 <<< n)

/-- The bit order follows the current priorities: a kind that comes before another in the
sort order (lower priority, or equal priority and higher id) has the lower bit. -/
def OrderInv (cfg : Config) (s : SH4State) : Prop :=
  ∀ a, a < cfg.NUM_INTERRUPTS → ∀ b, b < cfg.NUM_INTERRUPTS →
    Before cfg s.regs a b → s.sort_id a < s.sort_id b

/-! ## A small instance, for evaluation -/

/-- A four-row interrupt table: two kinds of fixed priority, two under an IPR register. -/
def exampleConfig : Config :=
  { interrupts := [⟨0x200, 15, 0, 0⟩, ⟨0x320, 6, 0, 0⟩, ⟨0x400, 0, 0xd0, 12⟩, ⟨0x420, 0, 0xd0, 8⟩],
    INTEVT_OFFSET := 0x28 }

/-- A register table with every value zero. -/
def exampleRegs : Nat → Register := fun _ => ⟨3, 0⟩

/-- The state after `Init` on the small instance. -/
def exampleInit : SH4State :=
  Init exampleConfig exampleRegs (fun _ => 0) (fun _ => 0) (fun _ => 0)

/-- A state the small instance reaches: request kind 2, write `0xf000` to its IPR register,
then write `0x40000000` to SR. -/
def examplePending : SH4State :=
  SRUpdated
    { WriteIPR exampleConfig (RequestInterrupt exampleInit 2) 0xd0 0xf000 with
      ctx := { (WriteIPR exampleConfig (RequestInterrupt exampleInit 2) 0xd0 0xf000).ctx with
        sr := 0x40000000 } }
    (WriteIPR exampleConfig (RequestInterrupt exampleInit 2) 0xd0 0xf000).ctx.sr

/-- A state of the small instance with three kinds pending: request the kinds 1, 2 and 3,
write `0x6300` to the IPR register (kind 2 gets priority 6, kind 3 priority 3), then write
`0x40000000` to SR (`BL` clear, level 0). -/
def exampleMulti : SH4State :=
  SRUpdated
    { WriteIPR exampleConfig
        (RequestInterrupt (RequestInterrupt (RequestInterrupt exampleInit 1) 2) 3)
        0xd0 0x6300 with
      ctx := { (WriteIPR exampleConfig
          (RequestInterrupt (RequestInterrupt (RequestInterrupt exampleInit 1) 2) 3)
          0xd0 0x6300).ctx with
        sr := 0x40000000 } }
    (WriteIPR exampleConfig
      (RequestInterrupt (RequestInterrupt (RequestInterrupt exampleInit 1) 2) 3)
      0xd0 0x6300).ctx.sr

/-! ## Registers by name -/

/-- The constants `sh4.cc` takes from `hw/sh4/sh4_regs.inc`, `hw/sh4/sh4_int.inc` and the
register types, none of which is under src/: the access flags `R` and `W`, the macro
`SH4_REG_OFFSET` from an address to an index of `regs_`, the index of each named register,
the bit positions of the bit fields used, and the interrupt kinds of the timers and the DMA
channels.  All are parameters of the development. -/
structure Layout where
  R : Nat
  W : Nat
  SH4_REG_OFFSET : Nat → Nat
  PCTRA_OFFSET : Nat
  PDTRA_OFFSET : Nat
  QACR0_OFFSET : Nat
  QACR1_OFFSET : Nat
  MMUCR_OFFSET : Nat
  CCR_OFFSET : Nat
  DMAOR_OFFSET : Nat
  IPRA_OFFSET : Nat
  IPRB_OFFSET : Nat
  IPRC_OFFSET : Nat
  SAR0_OFFSET : Nat
  SAR1_OFFSET : Nat
  SAR2_OFFSET : Nat
  SAR3_OFFSET : Nat
  DAR0_OFFSET : Nat
  DAR1_OFFSET : Nat
  DAR2_OFFSET : Nat
  DAR3_OFFSET : Nat
  DMATCR0_OFFSET : Nat
  DMATCR1_OFFSET : Nat
  DMATCR2_OFFSET : Nat
  DMATCR3_OFFSET : Nat
  CHCR0_OFFSET : Nat
  CHCR1_OFFSET : Nat
  CHCR2_OFFSET : Nat
  CHCR3_OFFSET : Nat
  TSTR_OFFSET : Nat
  TCOR0_OFFSET : Nat
  TCOR1_OFFSET : Nat
  TCOR2_OFFSET : Nat
  TCNT0_OFFSET : Nat
  TCNT1_OFFSET : Nat
  TCNT2_OFFSET : Nat
  TCR0_OFFSET : Nat
  TCR1_OFFSET : Nat
  TCR2_OFFSET : Nat
  CCR_ICI_BIT : Nat
  CCR_ORA_BIT : Nat
  CCR_OIX_BIT : Nat
  CHCR_DE_BIT : Nat
  CHCR_TE_BIT : Nat
  CHCR_IE_BIT : Nat
  DMAOR_DME_BIT : Nat
  DMAOR_DDT_BIT : Nat
  SH4_INTC_DMTE0 : Nat
  SH4_INTC_DMTE1 : Nat
  SH4_INTC_DMTE2 : Nat
  SH4_INTC_DMTE3 : Nat
  SH4_INTC_TUNI0 : Nat
  SH4_INTC_TUNI1 : Nat
  SH4_INTC_TUNI2 : Nat

/-- The indices of the named registers, in the order of `Layout`. -/
def Layout.offsets (lay : Layout) : List Nat :=
  [lay.PCTRA_OFFSET, lay.PDTRA_OFFSET, lay.QACR0_OFFSET, lay.QACR1_OFFSET, lay.MMUCR_OFFSET,
   lay.CCR_OFFSET, lay.DMAOR_OFFSET, lay.IPRA_OFFSET, lay.IPRB_OFFSET, lay.IPRC_OFFSET,
   lay.SAR0_OFFSET, lay.SAR1_OFFSET, lay.SAR2_OFFSET, lay.SAR3_OFFSET,
   lay.DAR0_OFFSET, lay.DAR1_OFFSET, lay.DAR2_OFFSET, lay.DAR3_OFFSET,
   lay.DMATCR0_OFFSET, lay.DMATCR1_OFFSET, lay.DMATCR2_OFFSET, lay.DMATCR3_OFFSET,
   lay.CHCR0_OFFSET, lay.CHCR1_OFFSET, lay.CHCR2_OFFSET, lay.CHCR3_OFFSET,
   lay.TSTR_OFFSET, lay.TCOR0_OFFSET, lay.TCOR1_OFFSET, lay.TCOR2_OFFSET,
   lay.TCNT0_OFFSET, lay.TCNT1_OFFSET, lay.TCNT2_OFFSET,
   lay.TCR0_OFFSET, lay.TCR1_OFFSET, lay.TCR2_OFFSET]

/-- The layout is well formed: the named registers have pairwise different indices, and
the bit fields `TE` and `IE` of a `CHCR` register are different bits of a 32-bit word. -/
def Layout.WF (lay : Layout) : Prop :=
  lay.offsets.Nodup ∧ lay.CHCR_TE_BIT ≠ lay.CHCR_IE_BIT ∧
    lay.CHCR_TE_BIT < 32 ∧ lay.CHCR_IE_BIT < 32

instance (lay : Layout) : Decidable lay.WF := by
  unfold Layout.WF; infer_instance

/-! ## The collaborators -/

/-- Modelled from the spec: the sentinel `INVALID_TIMER` of the scheduler (`hw/scheduler.h`
is not under src/), "a null handle sentinel means not scheduled". -/
def INVALID_TIMER : Nat := 0

/-- Modelled from the spec: a timer held by the scheduler (`hw/scheduler.h` is not under
src/): its handle, the delegate it fires (`tmu_delegates_[n]` is `n`) and the nanoseconds
that remain. -/
structure Timer where
  handle : Nat
  delegate : Nat
  remaining : Int
deriving DecidableEq

/-- Modelled from the spec: a request made of the scheduler (`hw/scheduler.h` is not under
src/). -/
inductive SchedulerOp where
  | schedule (delegate : Nat) (remaining : Int)
  | cancel (handle : Nat)
deriving DecidableEq

/-- Modelled from the spec: the scheduler (`hw/scheduler.h` is not under src/): the timers
it holds, the number of handles it has issued and the requests it has received. -/
structure Scheduler where
  timers : List Timer
  issued : Nat
  log : List SchedulerOp

/-- Modelled from the spec: `ScheduleTimer(callback, nanoseconds) → handle` of the scheduler
(`hw/scheduler.h` is not under src/).  The handle returned is never the null handle. -/
def Scheduler.ScheduleTimer (sc : Scheduler) (delegate : Nat) (remaining : Int) :
    Scheduler × Nat :=
  ({ timers := ⟨sc.issued + 1, delegate, remaining⟩ :: sc.timers
     issued := sc.issued + 1
     log := sc.log ++ [SchedulerOp.schedule delegate remaining] }, sc.issued + 1)

/-- Modelled from the spec: `CancelTimer(handle)` of the scheduler (`hw/scheduler.h` is not
under src/). -/
def Scheduler.CancelTimer (sc : Scheduler) (handle : Nat) : Scheduler :=
  { sc with
    timers := sc.timers.filter (fun t => decide (t.handle ≠ handle))
    log := sc.log ++ [SchedulerOp.cancel handle] }

/-- Modelled from the spec: `RemainingTime(handle) → nanoseconds` of the scheduler
(`hw/scheduler.h` is not under src/), with no time elapsed since the timer was scheduled. -/
def Scheduler.RemainingTime (sc : Scheduler) (handle : Nat) : Int :=
  match sc.timers.find? (fun t => decide (t.handle = handle)) with
  | some t => t.remaining
  | none => 0

/-- Modelled from the spec: the constant `NS_PER_SEC` behind the conversion macros
(`10^9`; the macros are not under src/). -/
def NS_PER_SEC : Int := 1000000000

/-- Modelled from the spec: the macro `NANO_TO_CYCLES` (not under src/):
`floor(ns * hz / 10^9)`. -/
def NANO_TO_CYCLES (ns hz : Int) : Int := ns * hz / NS_PER_SEC

/-- Modelled from the spec: the macro `CYCLES_TO_NANO` (not under src/):
`floor(cycles * 10^9 / hz)`. -/
def CYCLES_TO_NANO (cycles hz : Int) : Int := cycles * NS_PER_SEC / hz

/-- Modelled from the spec: an operation asked of the memory bus (`hw/memory.h` is not under
src/): a 16-bit or 32-bit write, a copy between guest addresses, a copy from or to a host
buffer. -/
inductive BusOp where
  | W16 (addr value : Nat)
  | W32 (addr value : Nat)
  | Memcpy (dst src size : Nat)
  | MemcpyFromHost (dst size : Nat)
  | MemcpyToHost (src size : Nat)
deriving DecidableEq

/-- Modelled from the spec: the memory bus (`hw/memory.h` is not under src/) as plain
little-endian RAM over the 32-bit guest address space, together with the operations it has
been asked to do. -/
structure Memory where
  bytes : Nat → Nat
  log : List BusOp

/-- Modelled from the spec: `R16(addr)` of the memory bus (`hw/memory.h` is not under
src/). -/
def Memory.R16 (mem : Memory) (addr : Nat) : Nat :=
  mem.bytes addr % 256 + 256 * (mem.bytes ((addr + 1) % 2 ^ 32) % 256)

/-- Modelled from the spec: `W16(addr, value)` of the memory bus (`hw/memory.h` is not under
src/). -/
def Memory.W16 (mem : Memory) (addr value : Nat) : Memory :=
  { bytes := arraySet (arraySet mem.bytes addr (value % 256))
      ((addr + 1) % 2 ^ 32) (value / 256 % 256)
    log := mem.log ++ [BusOp.W16 addr value] }

/-- Modelled from the spec: `W32(addr, value)` of the memory bus (`hw/memory.h` is not under
src/). -/
def Memory.W32 (mem : Memory) (addr value : Nat) : Memory :=
  { bytes := arraySet (arraySet (arraySet (arraySet mem.bytes addr (value % 256))
      ((addr + 1) % 2 ^ 32) (value / 2 ^ 8 % 256))
      ((addr + 2) % 2 ^ 32) (value / 2 ^ 16 % 256))
      ((addr + 3) % 2 ^ 32) (value / 2 ^ 24 % 256)
    log := mem.log ++ [BusOp.W32 addr value] }

/-- Modelled from the spec: `Memcpy(dst, src, size)` of the memory bus between two guest
addresses (`hw/memory.h` is not under src/). -/
def Memory.Memcpy (mem : Memory) (dst src size : Nat) : Memory :=
  { bytes := fun a =>
      if (a + 2 ^ 32 - dst % 2 ^ 32) % 2 ^ 32 < size then
        mem.bytes ((src + (a + 2 ^ 32 - dst % 2 ^ 32) % 2 ^ 32) % 2 ^ 32)
      else mem.bytes a
    log := mem.log ++ [BusOp.Memcpy dst src size] }

/-- Modelled from the spec: `Memcpy(dst, data, size)` of the memory bus from a host buffer
to a guest address (`hw/memory.h` is not under src/). -/
def Memory.MemcpyFromHost (mem : Memory) (dst : Nat) (data : Nat → Nat) (size : Nat) :
    Memory :=
  { bytes := fun a =>
      if (a + 2 ^ 32 - dst % 2 ^ 32) % 2 ^ 32 < size then
        data ((a + 2 ^ 32 - dst % 2 ^ 32) % 2 ^ 32) % 256
      else mem.bytes a
    log := mem.log ++ [BusOp.MemcpyFromHost dst size] }

/-- Modelled from the spec: `Memcpy(data, src, size)` of the memory bus from a guest address
to a host buffer (`hw/memory.h` is not under src/); guest memory is not changed. -/
def Memory.MemcpyToHost (mem : Memory) (src size : Nat) : Memory :=
  { mem with log := mem.log ++ [BusOp.MemcpyToHost src size] }

/-- Modelled from the spec: a request made of the code cache (not under src/). -/
inductive CacheOp where
  | RemoveBlocks (addr : Nat)
  | UnlinkBlocks
deriving DecidableEq

/-! ## The whole object -/

/-- The `SH4` object: the part the interrupt controller works on (`sh4`), the timer handles
`tmu_timers_`, the cache RAM `cache_`, the breakpoint table `breakpoints_`, and the
collaborators the object calls (scheduler, memory bus, code cache). -/
structure Machine where
  sh4 : SH4State
  tmu_timers : Nat → Nat
  cache : Nat → Nat
  breakpoints : Nat → Option Nat
  scheduler : Scheduler
  memory : Memory
  code_cache : List CacheOp

/-- The value of the register at index `offset` of `regs_`. -/
def Machine.regValue (m : Machine) (offset : Nat) : Nat := (m.sh4.regs offset).value

/-- An assignment to the value of the register at index `offset` of `regs_`. -/
def Machine.setRegValue (m : Machine) (offset value : Nat) : Machine :=
  { m with sh4 := { m.sh4 with
      regs := arraySet m.sh4.regs offset { m.sh4.regs offset with value := value } } }

/-- The type of `Register::read`, a read delegate. -/
abbrev ReadDelegate := Machine → Nat

/-- The type of `Register::write`, a write delegate; it receives the old value, and `none`
is a fatal error (`LOG_FATAL`, a failed `CHECK`). -/
abbrev WriteDelegate := Machine → Nat → Option Machine

/-! ## Control-register access -/

/-- The function `SH4::ReadRegister<T>`, for `T` of `width` bits, over the read delegates
`rd` installed in `regs_`. -/
def ReadRegister (lay : Layout) (rd : Nat → Option ReadDelegate) (width : Nat) (m : Machine)
    (addr : Nat) : Nat :=
  let offset := lay.SH4_REG_OFFSET addr
  let reg := m.sh4.regs offset
  if reg.flags &&& lay.R = 0 then 0
  else
    match rd offset with
    | some read => read m % 2 ^ width
    | none => reg.value % 2 ^ width

/-- The function `SH4::WriteRegister<T>`, for `T` of `width` bits, over the write delegates
`wd` installed in `regs_`. -/
def WriteRegister (lay : Layout) (wd : Nat → Option WriteDelegate) (width : Nat)
    (m : Machine) (addr value : Nat) : Option Machine :=
  let offset := lay.SH4_REG_OFFSET addr
  let reg := m.sh4.regs offset
  if reg.flags &&& lay.W = 0 then some m
  else
    let old_value := reg.value
    let m1 := m.setRegValue offset (value % 2 ^ width)
    match wd offset with
    | some write => write m1 old_value
    | none => some m1

/-! ## TMU -/

/-- The constant `SH4_CLOCK_FREQ`. -/
def SH4_CLOCK_FREQ : Nat := 200000000

/-- The constant `PERIPHERAL_CLOCK_FREQ`. -/
def PERIPHERAL_CLOCK_FREQ : Nat := SH4_CLOCK_FREQ >>> 2

/-- The table `PERIPHERAL_SCALE[]`. -/
def PERIPHERAL_SCALE (i : Nat) : Nat := [2, 4, 6, 8, 10, 0, 0, 0].getD i 0

/-- The macro `TSTR(n)`. -/
def TSTR (lay : Layout) (m : Machine) (n : Nat) : Nat :=
  m.regValue lay.TSTR_OFFSET &&& (1 <<< n)

/-- The register the macro `TCOR(n)` names. -/
def TCOR_OFFSET (lay : Layout) (n : Nat) : Nat :=
  if n = 0 then lay.TCOR0_OFFSET else if n = 1 then lay.TCOR1_OFFSET else lay.TCOR2_OFFSET

/-- The register the macro `TCNT(n)` names. -/
def TCNT_OFFSET (lay : Layout) (n : Nat) : Nat :=
  if n = 0 then lay.TCNT0_OFFSET else if n = 1 then lay.TCNT1_OFFSET else lay.TCNT2_OFFSET

/-- The register the macro `TCR(n)` names. -/
def TCR_OFFSET (lay : Layout) (n : Nat) : Nat :=
  if n = 0 then lay.TCR0_OFFSET else if n = 1 then lay.TCR1_OFFSET else lay.TCR2_OFFSET

/-- The macro `TCOR(n)`, read. -/
def TCOR (lay : Layout) (m : Machine) (n : Nat) : Nat := m.regValue (TCOR_OFFSET lay n)

/-- The macro `TCNT(n)`, read. -/
def TCNT (lay : Layout) (m : Machine) (n : Nat) : Nat := m.regValue (TCNT_OFFSET lay n)

/-- The macro `TCR(n)`, read. -/
def TCR (lay : Layout) (m : Machine) (n : Nat) : Nat := m.regValue (TCR_OFFSET lay n)

/-- The macro `TUNI(n)`. -/
def TUNI (lay : Layout) (n : Nat) : Nat :=
  if n = 0 then lay.SH4_INTC_TUNI0 else if n = 1 then lay.SH4_INTC_TUNI1
  else lay.SH4_INTC_TUNI2

/-- The tick rate `PERIPHERAL_CLOCK_FREQ >> PERIPHERAL_SCALE[tcr & 7]` of a timer. -/
def timerFreq (tcr : Nat) : Nat := PERIPHERAL_CLOCK_FREQ >>> PERIPHERAL_SCALE (tcr &&& 7)

/-- The function `SH4::RescheduleTimer`. -/
def RescheduleTimer (m : Machine) (n tcnt tcr : Nat) : Machine :=
  let freq : Int := timerFreq tcr
  let cycles : Int := tcnt
  let remaining := CYCLES_TO_NANO cycles freq
  let m1 : Machine :=
    if m.tmu_timers n ≠ 0 then
      { m with
        scheduler := m.scheduler.CancelTimer (m.tmu_timers n)
        tmu_timers := arraySet m.tmu_timers n 0 }
    else m
  { m1 with
    scheduler := (m1.scheduler.ScheduleTimer n remaining).1
    tmu_timers := arraySet m1.tmu_timers n (m1.scheduler.ScheduleTimer n remaining).2 }

/-- The function `SH4::TimerCount`. -/
def TimerCount (lay : Layout) (m : Machine) (n : Nat) : Nat :=
  if TSTR lay m n = 0 then TCNT lay m n
  else
    let handle := m.tmu_timers n
    let tcr := TCR lay m n
    let freq : Int := timerFreq tcr
    let remaining := m.scheduler.RemainingTime handle
    let cycles := NANO_TO_CYCLES remaining freq
    (cycles % 2 ^ 32).toNat

/-- The body of the loop of `SH4::UpdateTimerStart`. -/
def updateTimerStartBody (lay : Layout) (m : Machine) (i : Nat) : Machine :=
  if TSTR lay m i ≠ 0 then
    if m.tmu_timers i = INVALID_TIMER then RescheduleTimer m i (TCNT lay m i) (TCR lay m i)
    else m
  else if m.tmu_timers i ≠ INVALID_TIMER then
    { m with
      scheduler := m.scheduler.CancelTimer (m.tmu_timers i)
      tmu_timers := arraySet m.tmu_timers i INVALID_TIMER }
  else m

/-- The function `SH4::UpdateTimerStart`. -/
def UpdateTimerStart (lay : Layout) (m : Machine) : Machine :=
  (List.range 3).foldl (updateTimerStartBody lay) m

/-- The function `SH4::UpdateTimerControl`. -/
def UpdateTimerControl (lay : Layout) (m : Machine) (n : Nat) : Machine :=
  let m1 :=
    if TSTR lay m n ≠ 0 then RescheduleTimer m n (TimerCount lay m n) (TCR lay m n) else m
  if TCR lay m1 n &&& 0x20 = 0 ∨ TCR lay m1 n &&& 0x100 = 0 then
    { m1 with sh4 := UnrequestInterrupt m1.sh4 (TUNI lay n) }
  else m1

/-- The function `SH4::UpdateTimerCount`. -/
def UpdateTimerCount (lay : Layout) (m : Machine) (n : Nat) : Machine :=
  if TSTR lay m n ≠ 0 then RescheduleTimer m n (TCNT lay m n) (TCR lay m n) else m

/-- The function `SH4::ExpireTimer<N>`. -/
def ExpireTimer (lay : Layout) (m : Machine) (n : Nat) : Machine :=
  let m1 := m.setRegValue (TCR_OFFSET lay n) (TCR lay m n ||| 0x100)
  let m2 : Machine :=
    if TCR lay m1 n &&& 0x20 ≠ 0 then { m1 with sh4 := RequestInterrupt m1.sh4 (TUNI lay n) }
    else m1
  let m3 := m2.setRegValue (TCNT_OFFSET lay n) (TCOR lay m2 n)
  RescheduleTimer m3 n (TCNT lay m3 n) (TCR lay m3 n)

/-! ## DMAC -/

/-- The register `chcr` points at after the `switch` of `SH4::DDT` and of `SH4::CheckDMA`. -/
def CHCR_OFFSET (lay : Layout) (channel : Nat) : Nat :=
  match channel with
  | 0 => lay.CHCR0_OFFSET
  | 1 => lay.CHCR1_OFFSET
  | 2 => lay.CHCR2_OFFSET
  | _ => lay.CHCR3_OFFSET

/-- The function `SH4::CheckDMA`; `none` is a fatal error or a failed `CHECK`. -/
def CheckDMA (lay : Layout) (m : Machine) (channel : Nat) : Option Machine :=
  if 3 < channel then none
  else
    let chcr := m.regValue (CHCR_OFFSET lay channel)
    let dmaor := m.regValue lay.DMAOR_OFFSET
    if dmaor &&& 1 <<< lay.DMAOR_DDT_BIT ≠ 0 ∨ dmaor &&& 1 <<< lay.DMAOR_DME_BIT = 0 ∨
        chcr &&& 1 <<< lay.CHCR_DE_BIT = 0 then some m
    else none

/-! ## Store queues -/

/-- The body of the copy loop of `SH4::Prefetch`, on the memory bus and `dest`. -/
def prefetchBody (sq : Nat → Nat) (st : Memory × Nat) (i : Nat) : Memory × Nat :=
  (st.1.W32 st.2 (sq i), (st.2 + 4) % 2 ^ 32)

/-- The function `SH4::Prefetch`. -/
def Prefetch (lay : Layout) (m : Machine) (data : Nat) : Machine :=
  let addr := data % 2 ^ 32
  if addr < 0xe0000000 ∨ addr > 0xe3ffffff then m
  else
    let dest0 := addr &&& 0x03ffffe0
    let sqi := (addr &&& 0x20) >>> 5
    let dest :=
      if sqi ≠ 0 then dest0 ||| ((m.regValue lay.QACR1_OFFSET &&& 0x1c) <<< 24) % 2 ^ 32
      else dest0 ||| ((m.regValue lay.QACR0_OFFSET &&& 0x1c) <<< 24) % 2 ^ 32
    { m with memory := ((List.range 8).foldl (prefetchBody (m.sh4.ctx.sq sqi)) (m.memory, dest)).1 }

/-! ## Breakpoints -/

/-- The function `SH4::AddBreakpoint`; `breakpoints_` keeps the first word recorded for an
address. -/
def AddBreakpoint (m : Machine) (addr : Nat) : Machine :=
  let instr := m.memory.R16 addr
  let breakpoints : Nat → Option Nat :=
    match m.breakpoints addr with
    | some _ => m.breakpoints
    | none => arraySet m.breakpoints addr (some instr)
  { m with
    breakpoints := breakpoints
    memory := m.memory.W16 addr 0
    code_cache := m.code_cache ++ [CacheOp.RemoveBlocks addr] }

/-- The function `SH4::RemoveBreakpoint`; `none` is the failed `CHECK_NE`. -/
def RemoveBreakpoint (m : Machine) (addr : Nat) : Option Machine :=
  match m.breakpoints addr with
  | none => none
  | some instr =>
    some { m with
      breakpoints := arraySet m.breakpoints addr none
      memory := m.memory.W16 addr instr
      code_cache := m.code_cache ++ [CacheOp.RemoveBlocks addr] }

/-! ## The register delegates -/

/-- The read delegate of `PDTRA`. -/
def PDTRA_r (lay : Layout) (m : Machine) : Nat :=
  let pctra := m.regValue lay.PCTRA_OFFSET
  let pdtra := m.regValue lay.PDTRA_OFFSET
  if pctra &&& 0xf = 0x8 ∨ (pctra &&& 0xf = 0xb ∧ pdtra &&& 0xf ≠ 0x2) ∨
      (pctra &&& 0xf = 0xc ∧ pdtra &&& 0xf = 0x2) then 3
  else 0

/-- The write delegate of `MMUCR`. -/
def MMUCR_w (lay : Layout) (m : Machine) (_old : Nat) : Option Machine :=
  if m.regValue lay.MMUCR_OFFSET = 0 then some m else none

/-- The write delegate of `CCR`, with `SH4::ResetCache`. -/
def CCR_w (lay : Layout) (m : Machine) (_old : Nat) : Option Machine :=
  if m.regValue lay.CCR_OFFSET &&& 1 <<< lay.CCR_ICI_BIT ≠ 0 then
    some { m with code_cache := m.code_cache ++ [CacheOp.UnlinkBlocks] }
  else some m

/-- The write delegate of `DMAOR`. -/
def DMAOR_w (lay : Layout) (m : Machine) (_old : Nat) : Option Machine :=
  (((CheckDMA lay m 0).bind (fun m1 => CheckDMA lay m1 1)).bind
    (fun m2 => CheckDMA lay m2 2)).bind (fun m3 => CheckDMA lay m3 3)

/-- The read delegates `SH4::Init` installs, by register index (a later
`SH4_REGISTER_R32_DELEGATE` wins). -/
def readDelegates (lay : Layout) (offset : Nat) : Option ReadDelegate :=
  if offset = lay.TCNT2_OFFSET then some (fun m => TimerCount lay m 2)
  else if offset = lay.TCNT1_OFFSET then some (fun m => TimerCount lay m 1)
  else if offset = lay.TCNT0_OFFSET then some (fun m => TimerCount lay m 0)
  else if offset = lay.PDTRA_OFFSET then some (PDTRA_r lay)
  else none

/-- The write delegates `SH4::Init` installs, by register index (a later
`SH4_REGISTER_W32_DELEGATE` wins). -/
def writeDelegates (lay : Layout) (cfg : Config) (offset : Nat) : Option WriteDelegate :=
  if offset = lay.TCNT2_OFFSET then some (fun m _ => some (UpdateTimerCount lay m 2))
  else if offset = lay.TCNT1_OFFSET then some (fun m _ => some (UpdateTimerCount lay m 1))
  else if offset = lay.TCNT0_OFFSET then some (fun m _ => some (UpdateTimerCount lay m 0))
  else if offset = lay.TCR2_OFFSET then some (fun m _ => some (UpdateTimerControl lay m 2))
  else if offset = lay.TCR1_OFFSET then some (fun m _ => some (UpdateTimerControl lay m 1))
  else if offset = lay.TCR0_OFFSET then some (fun m _ => some (UpdateTimerControl lay m 0))
  else if offset = lay.TSTR_OFFSET then some (fun m _ => some (UpdateTimerStart lay m))
  else if offset = lay.IPRC_OFFSET ∨ offset = lay.IPRB_OFFSET ∨ offset = lay.IPRA_OFFSET then
    some (fun m _ => some { m with sh4 := ReprioritizeInterrupts cfg m.sh4 })
  else if offset = lay.DMAOR_OFFSET then some (DMAOR_w lay)
  else if offset = lay.CHCR3_OFFSET then some (fun m _ => CheckDMA lay m 3)
  else if offset = lay.CHCR2_OFFSET then some (fun m _ => CheckDMA lay m 2)
  else if offset = lay.CHCR1_OFFSET then some (fun m _ => CheckDMA lay m 1)
  else if offset = lay.CHCR0_OFFSET then some (fun m _ => CheckDMA lay m 0)
  else if offset = lay.CCR_OFFSET then some (CCR_w lay)
  else if offset = lay.MMUCR_OFFSET then some (MMUCR_w lay)
  else none

/-! ## The execution driver -/

/-- The conversion `static_cast<int>` of a 64-bit value to the 32-bit `int`. -/
def toInt32 (x : Int) : Int := (x + 2 ^ 31) % 2 ^ 32 - 2 ^ 31

/-- The loop of `SH4::Run`, with the number of blocks run so far; `run` is what
`code_cache_->GetBlock(ctx_.pc)->run()` does to the object and returns.  `none` when the
loop has not ended after `fuel` blocks. -/
def runLoop (cfg : Config) (run : Machine → Machine × Nat) :
    Nat → Machine → Nat → Option (Machine × Nat)
  | 0, m, blocks => if m.sh4.ctx.num_cycles > 0 then none else some (m, blocks)
  | fuel + 1, m, blocks =>
    if m.sh4.ctx.num_cycles > 0 then
      let m1 := (run m).1
      let m2 : Machine :=
        { m1 with sh4 := { m1.sh4 with ctx := { m1.sh4.ctx with pc := (run m).2 } } }
      runLoop cfg run fuel { m2 with sh4 := CheckPendingInterrupts cfg m2.sh4 } (blocks + 1)
    else some (m, blocks)

/-- The cycle budget `SH4::Run` stores in `ctx_.num_cycles`. -/
def runCycles (delta : Int) : Int :=
  toInt32 (max (NANO_TO_CYCLES delta SH4_CLOCK_FREQ) 1)

/-- The function `SH4::Run` up to the end of its loop (the MIPS bookkeeping that follows
reads the wall clock), with the number of blocks it ran. -/
def Run (cfg : Config) (run : Machine → Machine × Nat) (fuel : Nat) (m : Machine)
    (delta : Int) : Option (Machine × Nat) :=
  runLoop cfg run fuel
    { m with sh4 := { m.sh4 with ctx := { m.sh4.ctx with num_cycles := runCycles delta } } } 0

/-! ## A second small instance, with timers and DMA channels -/

/-- An eight-row interrupt table: one kind of fixed priority, the four DMA transfer-end
kinds and the three timer underflow kinds. -/
def exampleTable : Config :=
  { interrupts :=
      [⟨0x200, 15, 0, 0⟩, ⟨0x640, 0, 9, 8⟩, ⟨0x660, 0, 9, 8⟩, ⟨0x680, 0, 9, 8⟩,
       ⟨0x6a0, 0, 9, 8⟩, ⟨0x400, 0, 7, 12⟩, ⟨0x420, 0, 7, 8⟩, ⟨0x440, 0, 7, 4⟩],
    INTEVT_OFFSET := 40 }

/-- A layout with the named registers at the indices 0..35 and the address mapped to its
low 12 bits. -/
def exampleLayout : Layout :=
  { R := 1, W := 2, SH4_REG_OFFSET := fun addr => addr &&& 0xfff,
    PCTRA_OFFSET := 0, PDTRA_OFFSET := 1, QACR0_OFFSET := 2, QACR1_OFFSET := 3,
    MMUCR_OFFSET := 4, CCR_OFFSET := 5, DMAOR_OFFSET := 6,
    IPRA_OFFSET := 7, IPRB_OFFSET := 8, IPRC_OFFSET := 9,
    SAR0_OFFSET := 10, SAR1_OFFSET := 11, SAR2_OFFSET := 12, SAR3_OFFSET := 13,
    DAR0_OFFSET := 14, DAR1_OFFSET := 15, DAR2_OFFSET := 16, DAR3_OFFSET := 17,
    DMATCR0_OFFSET := 18, DMATCR1_OFFSET := 19, DMATCR2_OFFSET := 20, DMATCR3_OFFSET := 21,
    CHCR0_OFFSET := 22, CHCR1_OFFSET := 23, CHCR2_OFFSET := 24, CHCR3_OFFSET := 25,
    TSTR_OFFSET := 26, TCOR0_OFFSET := 27, TCOR1_OFFSET := 28, TCOR2_OFFSET := 29,
    TCNT0_OFFSET := 30, TCNT1_OFFSET := 31, TCNT2_OFFSET := 32,
    TCR0_OFFSET := 33, TCR1_OFFSET := 34, TCR2_OFFSET := 35,
    CCR_ICI_BIT := 11, CCR_ORA_BIT := 5, CCR_OIX_BIT := 7,
    CHCR_DE_BIT := 0, CHCR_TE_BIT := 1, CHCR_IE_BIT := 2,
    DMAOR_DME_BIT := 0, DMAOR_DDT_BIT := 15,
    SH4_INTC_DMTE0 := 1, SH4_INTC_DMTE1 := 2, SH4_INTC_DMTE2 := 3, SH4_INTC_DMTE3 := 4,
    SH4_INTC_TUNI0 := 5, SH4_INTC_TUNI1 := 6, SH4_INTC_TUNI2 := 7 }

/-- The object after construction and `Init` on the second instance: every register
readable and writable with value zero, no timer handle, empty collaborators. -/
def exampleMachine : Machine :=
  { sh4 := Init exampleTable exampleRegs (fun _ => 0) (fun _ => 0) (fun _ => 0),
    tmu_timers := fun _ => INVALID_TIMER, cache := fun _ => 0, breakpoints := fun _ => none,
    scheduler := { timers := [], issued := 0, log := [] },
    memory := { bytes := fun _ => 0, log := [] }, code_cache := [] }

/-- Scenario S5: store queue 1 holds the words 1..8 and `QACR1 = 0x1C`. -/
def exampleS5 : Machine :=
  { exampleMachine.setRegValue exampleLayout.QACR1_OFFSET 0x1C with
    sh4 := { (exampleMachine.setRegValue exampleLayout.QACR1_OFFSET 0x1C).sh4 with
      ctx := { (exampleMachine.setRegValue exampleLayout.QACR1_OFFSET 0x1C).sh4.ctx with
        sq := fun sqi i => if sqi = 1 then i + 1 else 0 } } }

/-- The value the specification gives for a read of `PDTRA`, from the stored `PCTRA` and
`PDTRA`: 3 in the three listed cases, 0 otherwise. -/
def pdtraSpec (pctra pdtra : Nat) : Nat :=
  if pctra &&& 0xF = 0x8 then 3
  else if pctra &&& 0xF = 0xB ∧ pdtra &&& 0xF ≠ 0x2 then 3
  else if pctra &&& 0xF = 0xC ∧ pdtra &&& 0xF = 0x2 then 3
  else 0

/-- The second instance with timer 0 under way: `TCOR0 = 1000`, `TCR0 = 0x20` (underflow
interrupt enabled, prescaler code 0), then `TSTR = 1` and the start of the timer. -/
def exampleRunning : Machine :=
  UpdateTimerStart exampleLayout
    (((exampleMachine.setRegValue exampleLayout.TCOR0_OFFSET 1000).setRegValue
      exampleLayout.TCR0_OFFSET 0x20).setRegValue exampleLayout.TSTR_OFFSET 1)

/-- The second instance with timer 1 under way: `TCOR1 = 1000`, `TCNT1 = 7`, `TCR1 = 0x21`
(underflow interrupt enabled, prescaler code 1), then `TSTR = 2` and the start of the
timer. -/
def exampleExpiring : Machine :=
  UpdateTimerStart exampleLayout
    ((((exampleMachine.setRegValue exampleLayout.TCOR1_OFFSET 1000).setRegValue
      exampleLayout.TCNT1_OFFSET 7).setRegValue exampleLayout.TCR1_OFFSET 0x21).setRegValue
        exampleLayout.TSTR_OFFSET 2)

/-- The timer run-state invariant: timer `n` holds a scheduler handle exactly when bit `n`
of `TSTR` is set. -/
def TimerInv (lay : Layout) (m : Machine) : Prop :=
  ∀ n, n < 3 → (m.tmu_timers n ≠ INVALID_TIMER ↔ TSTR lay m n ≠ 0)

/-- The requests a `TSTR` write makes of the scheduler for timer `n`, from the new `TSTR`
value, the handle the timer held, and its `TCNT` and `TCR`: a timer whose bit is set and
that had no handle is scheduled, one whose bit is clear and that had a handle is
cancelled. -/
def timerStartOps (tstr handle n tcnt tcr : Nat) : List SchedulerOp :=
  if tstr &&& (1 <<< n) ≠ 0 then
    if handle = INVALID_TIMER then
      [SchedulerOp.schedule n (CYCLES_TO_NANO tcnt (timerFreq tcr))]
    else []
  else if handle ≠ INVALID_TIMER then [SchedulerOp.cancel handle]
  else []

/-- The states the timer unit reaches from a state with no handle and `TSTR = 0` by register
writes (through `WriteRegister` with the delegates `Init` installs) and by expirations of
scheduled timers. -/
inductive TimerReachable (lay : Layout) (cfg : Config) : Machine → Prop
  | init (m : Machine) :
      (∀ n, n < 3 → m.tmu_timers n = INVALID_TIMER) → m.regValue lay.TSTR_OFFSET = 0 →
      TimerReachable lay cfg m
  | write (m m2 : Machine) (width addr value : Nat) :
      TimerReachable lay cfg m →
      WriteRegister lay (writeDelegates lay cfg) width m addr value = some m2 →
      TimerReachable lay cfg m2
  | expire (m : Machine) (n : Nat) :
      TimerReachable lay cfg m → n < 3 → m.tmu_timers n ≠ INVALID_TIMER →
      TimerReachable lay cfg (ExpireTimer lay m n)

/-- Scenario S6: the 16-bit word `0x6003` at the guest address `0x8C010000`, no breakpoint
installed. -/
def exampleS6 : Machine :=
  { exampleMachine with
    memory :=
      { bytes := fun a => if a = 0x8C010000 then 0x03 else if a = 0x8C010001 then 0x60 else 0,
        log := [] } }

/-! ## Cache RAM and store-queue access -/

/-- Modelled from the spec: the size in bytes of the buffer `cache_` (declared in
`hw/sh4/sh4.h`, not under src/): 8 KiB. -/
def CACHE_SIZE : Nat := 8192

/-- The macro `CACHE_OFFSET`. -/
def CACHE_OFFSET (addr OIX : Nat) : Nat :=
  (if OIX ≠ 0 then (addr &&& 0x2000000) >>> 13 else (addr &&& 0x2000) >>> 1) |||
    (addr &&& 0xfff)

/-- Modelled from the spec: `re::load<T>` (`core/memory.h` is not under src/) at index `off`
of a buffer of `size` bytes, for `T` of `w` bytes, little-endian; `none` when a byte outside
the buffer would be read. -/
def load (buf : Nat → Nat) (size off w : Nat) : Option Nat :=
  if off + w ≤ size then
    some (((List.range w).map (fun i => buf (off + i) % 256 * 256 ^ i)).sum)
  else none

/-- Modelled from the spec: `re::store` (`core/memory.h` is not under src/) at index `off` of
a buffer of `size` bytes, for a value of `w` bytes, little-endian; `none` when a byte
outside the buffer would be written. -/
def store (buf : Nat → Nat) (size off w value : Nat) : Option (Nat → Nat) :=
  if off + w ≤ size then
    some (fun k => if off ≤ k ∧ k < off + w then value / 256 ^ (k - off) % 256 else buf k)
  else none

/-- The function `SH4::ReadCache<T>`, for `T` of `w` bytes; `none` is a failed `CHECK_EQ` or
a read outside `cache_`. -/
def ReadCache (lay : Layout) (w : Nat) (m : Machine) (addr : Nat) : Option Nat :=
  let ccr := m.regValue lay.CCR_OFFSET
  if (ccr >>> lay.CCR_ORA_BIT) % 2 ≠ 1 then none
  else load m.cache CACHE_SIZE (CACHE_OFFSET addr ((ccr >>> lay.CCR_OIX_BIT) % 2)) w

/-- The function `SH4::WriteCache<T>`, for `T` of `w` bytes; `none` is a failed `CHECK_EQ` or
a write outside `cache_`. -/
def WriteCache (lay : Layout) (w : Nat) (m : Machine) (addr value : Nat) : Option Machine :=
  let ccr := m.regValue lay.CCR_OFFSET
  if (ccr >>> lay.CCR_ORA_BIT) % 2 ≠ 1 then none
  else
    (store m.cache CACHE_SIZE (CACHE_OFFSET addr ((ccr >>> lay.CCR_OIX_BIT) % 2)) w
      value).map (fun c => { m with cache := c })

/-- The function `SH4::ReadSQ<T>`, for `T` of `width` bits. -/
def ReadSQ (width : Nat) (m : Machine) (addr : Nat) : Nat :=
  let sqi := (addr &&& 0x20) >>> 5
  let idx := (addr &&& 0x1c) >>> 2
  m.sh4.ctx.sq sqi idx % 2 ^ width

/-- The function `SH4::WriteSQ<T>`, for `T` of `width` bits. -/
def WriteSQ (width : Nat) (m : Machine) (addr value : Nat) : Machine :=
  let sqi := (addr &&& 0x20) >>> 5
  let idx := (addr &&& 0x1c) >>> 2
  { m with sh4 := { m.sh4 with ctx := { m.sh4.ctx with
      sq := arraySet m.sh4.ctx.sq sqi
        (arraySet (m.sh4.ctx.sq sqi) idx (value % 2 ^ width % 2 ^ 32)) } } }

/-- The second instance with the word `0x12345678` in `ctx.sq[0][0]`. -/
def exampleSQ : Machine :=
  { exampleMachine with
    sh4 := { exampleMachine.sh4 with ctx := { exampleMachine.sh4.ctx with
      sq := fun sqi i => if sqi = 0 ∧ i = 0 then 0x12345678 else 0 } } }

/-- The second instance with the cache in RAM mode: `CCR.ORA = 1`, `CCR.OIX = 1`. -/
def exampleCacheRAM : Machine :=
  exampleMachine.setRegValue exampleLayout.CCR_OFFSET 0xA0

/-! ## The boot ROM probe of `PDTRA` -/

/-- The register accesses of the boot ROM quoted in the comment of the `PDTRA` read
delegate, for accesses of `width` bits at the addresses `pctra` and `pdtra` of the two
registers and `old` the initial `PCTRA`: the values `read(PDTRA) & 3` of the six probes, in
order; `none` when a write ends in a fatal error.  The comment writes `i`, `i | 0x03` and
`i | 0x04` with `i = old | 0x08`, which are `old | 0x8`, `old | 0xB` and `old | 0xC`. -/
def bootProbe (lay : Layout) (cfg : Config) (width : Nat) (m : Machine)
    (pctra pdtra old : Nat) : Option (List Nat) :=
  let rd := fun (x : Machine) => ReadRegister lay (readDelegates lay) width x pdtra
  let wr := fun (x : Machine) (a v : Nat) =>
    WriteRegister lay (writeDelegates lay cfg) width x a v
  (wr m pctra (old ||| 0x8)).bind fun m1 =>
  (wr m1 pdtra (rd m1 ||| 0x3)).bind fun m2 =>
  (wr m2 pctra (old ||| 0xB)).bind fun m3 =>
  (wr m3 pdtra (rd m3 &&& 0xfffe)).bind fun m4 =>
  (wr m4 pctra (old ||| 0x8)).bind fun m5 =>
  (wr m5 pctra (old ||| 0xC)).bind fun m6 =>
  (wr m6 pdtra (rd m6 &&& 0xfffd)).bind fun m7 =>
  some [rd m2 &&& 3, rd m3 &&& 3, rd m4 &&& 3, rd m5 &&& 3, rd m6 &&& 3, rd m7 &&& 3]

/-! ## Counting lemmas -/

theorem countP_lt_countP {α : Type} (p q : α → Bool) (l : List α) (a : α)
    (hpq : ∀ x ∈ l, p x = true → q x = true) (ha : a ∈ l) (hq : q a = true)
    (hp : p a = false) : l.countP p < l.countP q := by
  induction l with
  | nil => simp at ha
  | cons x xs ih =>
    have hmono : xs.countP p ≤ xs.countP q :=
      List.countP_mono_left (fun y hy h => hpq y (List.mem_cons_of_mem _ hy) h)
    rcases List.mem_cons.mp ha with rfl | hmem
    · rw [List.countP_cons_of_pos _ _ hq, List.countP_cons_of_neg _ _ (by simp [hp])]
      omega
    · have := ih (fun y hy h => hpq y (List.mem_cons_of_mem _ hy) h) hmem
      by_cases hx : p x = true
      · rw [List.countP_cons_of_pos _ _ hx, List.countP_cons_of_pos _ _ (hpq x (List.mem_cons_self _ _) hx)]
        omega
      · rw [List.countP_cons_of_neg _ _ hx]
        by_cases hqx : q x = true
        · rw [List.countP_cons_of_pos _ _ hqx]; omega
        · rw [List.countP_cons_of_neg _ _ hqx]; omega

theorem countP_range_insert (p q : Nat → Bool) (n j : Nat) (hj : j < n) (hpj : p j = false)
    (hqj : q j = true) (hpq : ∀ k, k < n → k ≠ j → q k = p k) :
    (List.range n).countP q = (List.range n).countP p + 1 := by
  induction n with
  | zero => omega
  | succ n ih =>
    rw [List.range_succ, List.countP_append, List.countP_append]
    by_cases hjn : j = n
    · subst hjn
      have h1 : (List.range j).countP q = (List.range j).countP p :=
        List.countP_congr (fun k hk => by
          have hk' := List.mem_range.mp hk
          rw [hpq k (by omega) (by omega)])
      simp [h1, hpj, hqj]
    · have h1 := ih (by omega) (fun k hk hne => hpq k (by omega) hne)
      have h2 : q n = p n := hpq n (by omega) (fun h => hjn h.symm)
      have h3 : List.countP q [n] = List.countP p [n] := by
        simp [List.countP_cons, h2]
      rw [h1, h3]; omega

theorem countP_range_lt (c n : Nat) :
    (List.range n).countP (fun b => decide (b < c)) = min c n := by
  induction n with
  | zero => simp
  | succ n ih =>
    rw [List.range_succ, List.countP_append, ih]
    by_cases h : n < c
    · simp [h]; omega
    · simp [h]; omega

/-! ## The sort order -/

theorem currentPriority_le (cfg : Config) (hwf : cfg.WF) (regs : Nat → Register) (j : Nat)
    (hj : j < cfg.NUM_INTERRUPTS) : currentPriority cfg regs j ≤ 15 := by
  unfold currentPriority
  simp only
  split
  · exact Nat.and_le_right
  · exact (hwf.2 j hj).1

theorem before_irrefl (cfg : Config) (regs : Nat → Register) (a : Nat) :
    ¬ Before cfg regs a a := by
  unfold Before; omega

theorem before_trans (cfg : Config) (regs : Nat → Register) (a b c : Nat)
    (hab : Before cfg regs a b) (hbc : Before cfg regs b c) : Before cfg regs a c := by
  unfold Before at *; omega

theorem before_total (cfg : Config) (regs : Nat → Register) (a b : Nat) (hne : a ≠ b) :
    Before cfg regs a b ∨ Before cfg regs b a := by
  unfold Before; omega

theorem rank_lt_of_before (cfg : Config) (regs : Nat → Register) (a b : Nat)
    (ha : a < cfg.NUM_INTERRUPTS) (hab : Before cfg regs a b) :
    rank cfg regs a < rank cfg regs b := by
  unfold rank
  apply countP_lt_countP _ _ _ a
  · intro k _ hk
    simp only [decide_eq_true_eq] at hk ⊢
    exact before_trans cfg regs k a b hk hab
  · exact List.mem_range.mpr ha
  · simpa using hab
  · simpa using before_irrefl cfg regs a

theorem rank_lt_num (cfg : Config) (regs : Nat → Register) (a : Nat)
    (ha : a < cfg.NUM_INTERRUPTS) : rank cfg regs a < cfg.NUM_INTERRUPTS := by
  have h := countP_lt_countP (fun k => decide (Before cfg regs k a)) (fun _ => true)
    (List.range cfg.NUM_INTERRUPTS) a (fun _ _ _ => rfl) (List.mem_range.mpr ha) rfl
    (by simpa using before_irrefl cfg regs a)
  have h2 : (List.range cfg.NUM_INTERRUPTS).countP (fun _ => true) = cfg.NUM_INTERRUPTS := by
    simp
  unfold rank
  omega

theorem rank_inj (cfg : Config) (regs : Nat → Register) (a b : Nat)
    (ha : a < cfg.NUM_INTERRUPTS) (hb : b < cfg.NUM_INTERRUPTS)
    (h : rank cfg regs a = rank cfg regs b) : a = b := by
  by_contra hne
  rcases before_total cfg regs a b hne with hab | hba
  · have := rank_lt_of_before cfg regs a b ha hab; omega
  · have := rank_lt_of_before cfg regs b a hb hba; omega

theorem rank_surj (cfg : Config) (regs : Nat → Register) (m : Nat)
    (hm : m < cfg.NUM_INTERRUPTS) : ∃ k, k < cfg.NUM_INTERRUPTS ∧ rank cfg regs k = m := by
  let f : Fin cfg.NUM_INTERRUPTS → Fin cfg.NUM_INTERRUPTS :=
    fun k => ⟨rank cfg regs k.1, rank_lt_num cfg regs k.1 k.2⟩
  have hinj : Function.Injective f := by
    intro x y hxy
    have h1 : rank cfg regs x.1 = rank cfg regs y.1 := congrArg Fin.val hxy
    exact Fin.ext (rank_inj cfg regs x.1 y.1 x.2 y.2 h1)
  obtain ⟨k, hk⟩ := (Finite.injective_iff_surjective.mp hinj) ⟨m, hm⟩
  exact ⟨k.1, k.2, congrArg Fin.val hk⟩

theorem rank_lt_countLE (cfg : Config) (regs : Nat → Register) (k i : Nat)
    (hk : k < cfg.NUM_INTERRUPTS) :
    rank cfg regs k < countLE cfg regs i ↔ currentPriority cfg regs k ≤ i := by
  constructor
  · intro h
    by_contra hgt
    have hle : countLE cfg regs i ≤ rank cfg regs k := by
      unfold countLE rank
      apply List.countP_mono_left
      intro x _ hx
      simp only [decide_eq_true_eq] at hx ⊢
      unfold Before; omega
    omega
  · intro h
    unfold countLE rank
    apply countP_lt_countP _ _ _ k
    · intro x _ hx
      simp only [decide_eq_true_eq] at hx ⊢
      unfold Before at hx; omega
    · exact List.mem_range.mpr hk
    · simpa using h
    · simpa using before_irrefl cfg regs k

theorem countLE_le_num (cfg : Config) (regs : Nat → Register) (i : Nat) :
    countLE cfg regs i ≤ cfg.NUM_INTERRUPTS := by
  unfold countLE
  have h : (List.range cfg.NUM_INTERRUPTS).countP
      (fun k => decide (currentPriority cfg regs k ≤ i)) ≤ (List.range cfg.NUM_INTERRUPTS).length :=
    List.countP_le_length _
  simpa using h

/-! ## The loops of `ReprioritizeInterrupts` -/

theorem shl64_eq (n : Nat) (hn : n < 64) : shl64 n = 2 ^ n := by
  unfold shl64
  rw [Nat.one_shiftLeft]
  exact Nat.mod_eq_of_lt (Nat.pow_lt_pow_right (by norm_num) hn)

theorem sub64_shl64_one (n : Nat) (hn : n < 64) : sub64 (shl64 n) 1 = 2 ^ n - 1 := by
  have h1 : 2 ^ n < 2 ^ 64 := Nat.pow_lt_pow_right (by norm_num) hn
  have h2 : 0 < 2 ^ n := Nat.pow_pos (by norm_num)
  unfold sub64
  rw [shl64_eq n hn, Nat.mod_eq_of_lt h1]
  have h3 : 2 ^ n + 2 ^ 64 - 1 % 2 ^ 64 = (2 ^ n - 1) + 2 ^ 64 := by
    have : (1 : Nat) % 2 ^ 64 = 1 := by norm_num
    rw [this]; omega
  rw [h3, Nat.add_mod_right]
  exact Nat.mod_eq_of_lt (by omega)

theorem body_skip (cfg : Config) (old i j : Nat) (st : SH4State × Nat)
    (h : currentPriority cfg st.1.regs j ≠ i) : reprioritizeBody cfg old i j st = st := by
  unfold reprioritizeBody
  simp [h]

theorem body_take (cfg : Config) (old i j : Nat) (st : SH4State × Nat)
    (h : currentPriority cfg st.1.regs j = i) :
    (reprioritizeBody cfg old i j st).2 = st.2 + 1 ∧
    (reprioritizeBody cfg old i j st).1.sort_id = arraySet st.1.sort_id j (shl64 st.2) ∧
    (reprioritizeBody cfg old i j st).1.sorted_interrupts
      = arraySet st.1.sorted_interrupts st.2 j ∧
    (reprioritizeBody cfg old i j st).1.requested_interrupts
      = (if old &&& st.1.sort_id j ≠ 0 then st.1.requested_interrupts ||| shl64 st.2
         else st.1.requested_interrupts) ∧
    (reprioritizeBody cfg old i j st).1.ctx = st.1.ctx ∧
    (reprioritizeBody cfg old i j st).1.regs = st.1.regs ∧
    (reprioritizeBody cfg old i j st).1.pending_interrupts = st.1.pending_interrupts ∧
    (reprioritizeBody cfg old i j st).1.priority_mask = st.1.priority_mask := by
  unfold reprioritizeBody
  by_cases hw : old &&& st.1.sort_id j = 0
  · simp [h, hw]
  · simp [h, hw, arraySet]

theorem loopInv_congr (cfg : Config) (s0 : SH4State) (old i m i2 m2 : Nat)
    (st : SH4State × Nat) (h : LoopInv cfg s0 old i m st)
    (hP : ∀ k, k < cfg.NUM_INTERRUPTS →
      (Processed cfg s0.regs i m k ↔ Processed cfg s0.regs i2 m2 k))
    (hmask : ∀ i', i' < i2 → st.1.priority_mask i' = 2 ^ countLE cfg s0.regs i' - 1) :
    LoopInv cfg s0 old i2 m2 st where
  ctx := h.ctx
  regs := h.regs
  pending := h.pending
  count := by
    rw [h.count]
    unfold processedCount
    apply List.countP_congr
    intro k hk
    simp only [decide_eq_true_eq]
    exact hP k (List.mem_range.mp hk)
  sort_done := fun k hk hp => h.sort_done k hk ((hP k hk).mpr hp)
  sort_rest := fun k hk => h.sort_rest k (fun hc => hk ⟨hc.1, (hP k hc.1).mp hc.2⟩)
  req := fun b => by
    rw [h.req b]
    constructor
    · rintro ⟨k, hk, hp, hr⟩; exact ⟨k, hk, (hP k hk).mp hp, hr⟩
    · rintro ⟨k, hk, hp, hr⟩; exact ⟨k, hk, (hP k hk).mpr hp, hr⟩
  mask := hmask

theorem rank_eq_processedCount (cfg : Config) (regs : Nat → Register) (j : Nat) :
    rank cfg regs j = processedCount cfg regs (currentPriority cfg regs j) (j + 1) := by
  unfold rank processedCount
  apply List.countP_congr
  intro k _
  simp only [decide_eq_true_eq]
  unfold Before Processed
  omega

theorem body_inv (cfg : Config) (hN : cfg.NUM_INTERRUPTS < 64) (s0 : SH4State)
    (old i j : Nat) (st : SH4State × Nat) (hj : j < cfg.NUM_INTERRUPTS)
    (h : LoopInv cfg s0 old i (j + 1) st) :
    LoopInv cfg s0 old i j (reprioritizeBody cfg old i j st) := by
  by_cases hp : currentPriority cfg st.1.regs j = i
  · obtain ⟨e2, esort, esorted, ereq, ectx, eregs, epend, emask⟩ := body_take cfg old i j st hp
    rw [h.regs] at hp
    have hrank : rank cfg s0.regs j = st.2 := by
      rw [h.count, rank_eq_processedCount, hp]
    have hn64 : st.2 < 64 := by
      have := rank_lt_num cfg s0.regs j hj; omega
    have hjnot : ¬ Processed cfg s0.regs i (j + 1) j := by
      unfold Processed; omega
    have hstep : ∀ k, Processed cfg s0.regs i j k ↔ (k = j ∨ Processed cfg s0.regs i (j + 1) k) := by
      intro k; unfold Processed; constructor
      · intro hk; by_cases hkj : k = j
        · exact Or.inl hkj
        · right; omega
      · rintro (rfl | hk)
        · omega
        · omega
    have hold : st.1.sort_id j = s0.sort_id j := h.sort_rest j (fun hc => hjnot hc.2)
    refine ⟨ectx.trans h.ctx, eregs.trans h.regs, epend.trans h.pending, ?_, ?_, ?_, ?_, ?_⟩
    · rw [e2, h.count]
      unfold processedCount
      symm
      apply countP_range_insert _ _ _ j hj
      · simpa using hjnot
      · simp only [decide_eq_true_eq]; exact (hstep j).mpr (Or.inl rfl)
      · intro k _ hne
        have := hstep k
        by_cases hk : Processed cfg s0.regs i (j + 1) k
        · simp [hk, this]
        · simp [hk, this, hne]
    · intro k hk hpk
      rw [esort, esorted]
      rcases (hstep k).mp hpk with rfl | hpk'
      · simp [arraySet, shl64_eq _ hn64, hrank]
      · have hne : k ≠ j := fun hc => hjnot (hc ▸ hpk')
        have hr : rank cfg s0.regs k ≠ st.2 := by
          intro hc
          exact hne (rank_inj cfg s0.regs k j hk hj (hc.trans hrank.symm))
        have := h.sort_done k hk hpk'
        simp [arraySet, hne, hr, this]
    · intro k hk
      rw [esort]
      have hne : k ≠ j := fun hc => hk ⟨hc ▸ hj, (hstep k).mpr (Or.inl hc)⟩
      simp only [arraySet, hne, if_false]
      exact h.sort_rest k (fun hc => hk ⟨hc.1, (hstep k).mpr (Or.inr hc.2)⟩)
    · intro b
      rw [ereq, hold]
      by_cases hw : old &&& s0.sort_id j = 0
      · simp only [hw, ne_eq, not_true_eq_false, if_false]
        rw [h.req b]
        constructor
        · rintro ⟨k, hk, hpk, hr⟩
          exact ⟨k, hk, (hstep k).mpr (Or.inr hpk), hr⟩
        · rintro ⟨k, hk, hpk, hr, hreq⟩
          rcases (hstep k).mp hpk with rfl | hpk'
          · exact absurd hw hreq
          · exact ⟨k, hk, hpk', hr, hreq⟩
      · simp only [ne_eq, hw, not_false_eq_true, if_true]
        rw [shl64_eq _ hn64, Nat.testBit_or, Nat.testBit_two_pow, Bool.or_eq_true, h.req b,
          decide_eq_true_eq]
        constructor
        · rintro (⟨k, hk, hpk, hr⟩ | hb)
          · exact ⟨k, hk, (hstep k).mpr (Or.inr hpk), hr⟩
          · exact ⟨j, hj, (hstep j).mpr (Or.inl rfl), hrank.trans hb, hw⟩
        · rintro ⟨k, hk, hpk, hr, hreq⟩
          rcases (hstep k).mp hpk with rfl | hpk'
          · exact Or.inr (hrank.symm.trans hr)
          · exact Or.inl ⟨k, hk, hpk', hr, hreq⟩
    · intro i' hi'
      rw [emask]; exact h.mask i' hi'
  · rw [body_skip cfg old i j st hp]
    rw [h.regs] at hp
    refine loopInv_congr cfg s0 old i (j + 1) i j st h ?_ h.mask
    intro k _
    unfold Processed
    constructor
    · intro hk; omega
    · intro hk
      by_cases hkj : k = j
      · subst hkj; omega
      · omega

theorem inner_inv (cfg : Config) (hN : cfg.NUM_INTERRUPTS < 64) (s0 : SH4State)
    (old i : Nat) (m : Nat) (hm : m ≤ cfg.NUM_INTERRUPTS) (st : SH4State × Nat)
    (h : LoopInv cfg s0 old i m st) :
    LoopInv cfg s0 old i 0 (reprioritizeInner cfg old i m st) := by
  induction m generalizing st with
  | zero => exact h
  | succ j ih =>
    unfold reprioritizeInner
    exact ih (by omega) _ (body_inv cfg hN s0 old i j st (by omega) h)

theorem level_inv (cfg : Config) (hN : cfg.NUM_INTERRUPTS < 64) (s0 : SH4State)
    (old i : Nat) (st : SH4State × Nat)
    (h : LoopInv cfg s0 old i cfg.NUM_INTERRUPTS st) :
    LoopInv cfg s0 old (i + 1) cfg.NUM_INTERRUPTS (reprioritizeLevel cfg old st i) := by
  have h1 := inner_inv cfg hN s0 old i cfg.NUM_INTERRUPTS (le_refl _) st h
  have hP : ∀ k, k < cfg.NUM_INTERRUPTS →
      (Processed cfg s0.regs i 0 k ↔ Processed cfg s0.regs (i + 1) cfg.NUM_INTERRUPTS k) := by
    intro k hk; unfold Processed; omega
  have hcnt : (reprioritizeInner cfg old i cfg.NUM_INTERRUPTS st).2 = countLE cfg s0.regs i := by
    rw [h1.count]
    unfold processedCount countLE
    apply List.countP_congr
    intro k _
    simp only [decide_eq_true_eq]
    unfold Processed; omega
  have hle := countLE_le_num cfg s0.regs i
  unfold reprioritizeLevel
  exact
    { ctx := h1.ctx
      regs := h1.regs
      pending := h1.pending
      count := by
        show (reprioritizeInner cfg old i cfg.NUM_INTERRUPTS st).2 = _
        rw [h1.count]
        unfold processedCount
        apply List.countP_congr
        intro k hk
        simp only [decide_eq_true_eq]
        exact hP k (List.mem_range.mp hk)
      sort_done := fun k hk hp => h1.sort_done k hk ((hP k hk).mpr hp)
      sort_rest := fun k hk => h1.sort_rest k (fun hc => hk ⟨hc.1, (hP k hc.1).mp hc.2⟩)
      req := fun b => by
        show (reprioritizeInner cfg old i cfg.NUM_INTERRUPTS st).1.requested_interrupts.testBit b
          = true ↔ _
        rw [h1.req b]
        constructor
        · rintro ⟨k, hk, hp, hr⟩; exact ⟨k, hk, (hP k hk).mp hp, hr⟩
        · rintro ⟨k, hk, hp, hr⟩; exact ⟨k, hk, (hP k hk).mpr hp, hr⟩
      mask := fun i' hi' => by
        show arraySet _ i _ i' = _
        unfold arraySet
        by_cases hi : i' = i
        · subst hi
          simp only [if_true]
          rw [hcnt, sub64_shl64_one _ (by omega)]
        · simp only [hi, if_false]
          exact h1.mask i' (by omega) }

theorem levels_inv (cfg : Config) (hN : cfg.NUM_INTERRUPTS < 64) (s0 : SH4State)
    (old : Nat) (st : SH4State × Nat) (k : Nat)
    (h : LoopInv cfg s0 old 0 cfg.NUM_INTERRUPTS st) :
    LoopInv cfg s0 old k cfg.NUM_INTERRUPTS (reprioritizeLevels cfg old k st) := by
  induction k with
  | zero => exact h
  | succ k ih =>
    unfold reprioritizeLevels at *
    rw [List.range_succ, List.foldl_append]
    exact level_inv cfg hN s0 old k _ ih

theorem loopInv_start (cfg : Config) (s0 : SH4State) (old : Nat)
    (h0 : s0.requested_interrupts = 0) :
    LoopInv cfg s0 old 0 cfg.NUM_INTERRUPTS (s0, 0) where
  ctx := rfl
  regs := rfl
  pending := rfl
  count := by
    show 0 = processedCount cfg s0.regs 0 cfg.NUM_INTERRUPTS
    unfold processedCount
    symm
    rw [List.countP_eq_zero]
    intro k hk
    have := List.mem_range.mp hk
    simp only [decide_eq_true_eq]
    unfold Processed; omega
  sort_done := fun k hk hp => by unfold Processed at hp; omega
  sort_rest := fun _ _ => rfl
  req := fun b => by
    show s0.requested_interrupts.testBit b = true ↔ _
    rw [h0]
    simp only [Nat.zero_testBit, Bool.false_eq_true, false_iff]
    rintro ⟨k, hk, hp, _⟩
    unfold Processed at hp; omega
  mask := fun i' hi' => by omega

theorem reprioritize_spec (cfg : Config) (hwf : cfg.WF) (s : SH4State) :
    Sorted cfg (ReprioritizeInterrupts cfg s) ∧
    (ReprioritizeInterrupts cfg s).regs = s.regs ∧
    (ReprioritizeInterrupts cfg s).ctx = s.ctx ∧
    (∀ b, (ReprioritizeInterrupts cfg s).requested_interrupts.testBit b = true ↔
      ∃ k, k < cfg.NUM_INTERRUPTS ∧ rank cfg s.regs k = b ∧
        s.requested_interrupts &&& s.sort_id k ≠ 0) ∧
    (ReprioritizeInterrupts cfg s).pending_interrupts
      = (UpdatePendingInterrupts (ReprioritizeInterrupts cfg s)).pending_interrupts := by
  have h := levels_inv cfg hwf.1 { s with requested_interrupts := 0 } s.requested_interrupts
    ({ s with requested_interrupts := 0 }, 0) 16 (loopInv_start cfg _ _ rfl)
  have hall : ∀ k, k < cfg.NUM_INTERRUPTS →
      Processed cfg s.regs 16 cfg.NUM_INTERRUPTS k := by
    intro k hk
    have := currentPriority_le cfg hwf s.regs k hk
    unfold Processed; omega
  have hregs : (ReprioritizeInterrupts cfg s).regs = s.regs := h.regs
  refine ⟨⟨?_, ?_, ?_⟩, hregs, h.ctx, ?_, rfl⟩
  · intro k hk
    rw [hregs]
    exact (h.sort_done k hk (hall k hk)).1
  · intro k hk
    rw [hregs]
    exact (h.sort_done k hk (hall k hk)).2
  · intro i hi
    rw [hregs]
    exact h.mask i hi
  · intro b
    have := h.req b
    constructor
    · intro hb
      obtain ⟨k, hk, _, hr, hreq⟩ := this.mp hb
      exact ⟨k, hk, hr, hreq⟩
    · rintro ⟨k, hk, hr, hreq⟩
      exact this.mpr ⟨k, hk, hall k hk, hr, hreq⟩

/-! ## Bit masks -/

theorem and_two_pow_ne_zero (x n : Nat) : x &&& 2 ^ n ≠ 0 ↔ x.testBit n = true := by
  rw [Nat.and_two_pow]
  have h : 0 < 2 ^ n := Nat.pow_pos (by norm_num)
  cases hb : x.testBit n
  · simp
  · simp

theorem and_two_pow_eq_zero (x n : Nat) : x &&& 2 ^ n = 0 ↔ x.testBit n = false := by
  have := and_two_pow_ne_zero x n
  cases hb : x.testBit n
  · simp only [hb, Bool.false_eq_true, iff_false, ne_eq, not_not] at this
    simp [this]
  · simp only [hb, iff_true] at this
    simp [this]

theorem and_two_pow_eq_iff (x y n : Nat) :
    x &&& 2 ^ n = y &&& 2 ^ n ↔ x.testBit n = y.testBit n := by
  rw [Nat.and_two_pow, Nat.and_two_pow]
  have h : 0 < 2 ^ n := Nat.pow_pos (by norm_num)
  cases hx : x.testBit n <;> cases hy : y.testBit n <;> simp; omega

theorem testBit_not64 (x n : Nat) :
    (not64 x).testBit n = (decide (n < 64) && !x.testBit n) := by
  unfold not64
  rw [Nat.testBit_xor, Nat.testBit_mod_two_pow, Nat.testBit_two_pow_sub_one]
  by_cases h : n < 64 <;> cases x.testBit n <;> simp [h]

theorem I_eq : I = 0xf0 := rfl

theorem BL_eq : BL = 2 ^ 28 := by norm_num [BL]

theorem RB_eq : RB = 2 ^ 29 := by norm_num [RB]

theorem entry_bits_BL : (BL ||| MD ||| RB).testBit 28 = true := by
  norm_num [BL, MD, RB]
  decide

theorem entry_bits_RB : (BL ||| MD ||| RB).testBit 29 = true := by
  norm_num [BL, MD, RB]
  decide

theorem min_priority_le (sr : Nat) : (sr &&& I) >>> 4 ≤ 15 := by
  have h : sr &&& I ≤ 0xf0 := Nat.and_le_right
  rw [Nat.shiftRight_eq_div_pow]
  omega

/-! ## Register banks -/

theorem swap_loop (c : SH4Context) (m : Nat) :
    (List.range m).foldl swapRegisterBody c =
      { c with r := fun i => if i < m then c.ralt i else c.r i
               ralt := fun i => if i < m then c.r i else c.ralt i } := by
  induction m with
  | zero => simp
  | succ m ih =>
    rw [List.range_succ, List.foldl_append, ih]
    simp only [List.foldl, swapRegisterBody, arraySet]
    congr 1
    · funext k
      by_cases h1 : k = m
      · subst h1; simp [arraySet]
      · by_cases h2 : k < m
        · have : k < m + 1 := by omega
          simp [arraySet, h1, h2, this]
        · have : ¬ k < m + 1 := by omega
          simp [arraySet, h1, h2, this]
    · funext k
      by_cases h1 : k = m
      · subst h1; simp [arraySet]
      · by_cases h2 : k < m
        · have : k < m + 1 := by omega
          simp [arraySet, h1, h2, this]
        · have : ¬ k < m + 1 := by omega
          simp [arraySet, h1, h2, this]

theorem swapRegisterBank_eq (s : SH4State) :
    SwapRegisterBank s =
      { s with ctx := { s.ctx with r := fun i => if i < 8 then s.ctx.ralt i else s.ctx.r i
                                   ralt := fun i => if i < 8 then s.ctx.r i else s.ctx.ralt i } } := by
  unfold SwapRegisterBank
  rw [swap_loop]

/-! ## Preservation of the invariant -/

theorem rank_congr (cfg : Config) (regs regs2 : Nat → Register)
    (h : ∀ j, j < cfg.NUM_INTERRUPTS → currentPriority cfg regs2 j = currentPriority cfg regs j)
    (k : Nat) (hk : k < cfg.NUM_INTERRUPTS) : rank cfg regs2 k = rank cfg regs k := by
  unfold rank
  apply List.countP_congr
  intro x hx
  simp only [decide_eq_true_eq]
  unfold Before
  rw [h x (List.mem_range.mp hx), h k hk]

theorem countLE_congr (cfg : Config) (regs regs2 : Nat → Register)
    (h : ∀ j, j < cfg.NUM_INTERRUPTS → currentPriority cfg regs2 j = currentPriority cfg regs j)
    (i : Nat) : countLE cfg regs2 i = countLE cfg regs i := by
  unfold countLE
  apply List.countP_congr
  intro x hx
  simp only [decide_eq_true_eq]
  rw [h x (List.mem_range.mp hx)]

theorem sorted_congr (cfg : Config) (s s2 : SH4State) (h : Sorted cfg s)
    (h1 : s2.sort_id = s.sort_id) (h2 : s2.sorted_interrupts = s.sorted_interrupts)
    (h3 : s2.priority_mask = s.priority_mask)
    (h4 : ∀ j, j < cfg.NUM_INTERRUPTS →
      currentPriority cfg s2.regs j = currentPriority cfg s.regs j) : Sorted cfg s2 where
  sort_id := fun k hk => by rw [h1, rank_congr cfg s.regs s2.regs h4 k hk]; exact h.sort_id k hk
  sorted := fun k hk => by rw [h2, rank_congr cfg s.regs s2.regs h4 k hk]; exact h.sorted k hk
  mask := fun i hi => by rw [h3, countLE_congr cfg s.regs s2.regs h4 i]; exact h.mask i hi

theorem updatePending_congr (s s2 : SH4State)
    (h1 : s2.requested_interrupts = s.requested_interrupts)
    (h2 : s2.priority_mask = s.priority_mask)
    (h3 : s2.ctx.sr &&& I = s.ctx.sr &&& I) (h4 : s2.ctx.sr &&& BL = s.ctx.sr &&& BL) :
    (UpdatePendingInterrupts s2).pending_interrupts
      = (UpdatePendingInterrupts s).pending_interrupts := by
  unfold UpdatePendingInterrupts
  simp only [h1, h2, h3, h4]

theorem canonical_of_update (cfg : Config) (s : SH4State) (h : Sorted cfg s)
    (hr : s.requested_interrupts < 2 ^ cfg.NUM_INTERRUPTS) :
    Canonical cfg (UpdatePendingInterrupts s) where
  sorted := sorted_congr cfg s _ h rfl rfl rfl (fun _ _ => rfl)
  req := hr
  pend := rfl

theorem canonical_reprioritize (cfg : Config) (hwf : cfg.WF) (s : SH4State) :
    Canonical cfg (ReprioritizeInterrupts cfg s) := by
  obtain ⟨h1, _, _, h4, h5⟩ := reprioritize_spec cfg hwf s
  refine ⟨h1, ?_, h5⟩
  apply Nat.lt_pow_two_of_testBit
  intro b hb
  by_contra hc
  rw [Bool.not_eq_false] at hc
  obtain ⟨k, hk, hr, _⟩ := (h4 b).mp hc
  have := rank_lt_num cfg s.regs k hk
  omega

theorem canonical_request (cfg : Config) (s : SH4State) (intr : Nat)
    (hi : intr < cfg.NUM_INTERRUPTS) (h : Canonical cfg s) :
    Canonical cfg (RequestInterrupt s intr) := by
  unfold RequestInterrupt
  apply canonical_of_update
  · exact sorted_congr cfg s _ h.sorted rfl rfl rfl (fun _ _ => rfl)
  · show s.requested_interrupts ||| s.sort_id intr < 2 ^ cfg.NUM_INTERRUPTS
    apply Nat.or_lt_two_pow h.req
    rw [h.sorted.sort_id intr hi]
    exact Nat.pow_lt_pow_right (by norm_num) (rank_lt_num cfg s.regs intr hi)

theorem canonical_unrequest (cfg : Config) (s : SH4State) (intr : Nat)
    (h : Canonical cfg s) : Canonical cfg (UnrequestInterrupt s intr) := by
  unfold UnrequestInterrupt
  apply canonical_of_update
  · exact sorted_congr cfg s _ h.sorted rfl rfl rfl (fun _ _ => rfl)
  · exact lt_of_le_of_lt Nat.and_le_left h.req

theorem srUpdated_def (s : SH4State) (old_sr : Nat) :
    SRUpdated s old_sr =
      if s.ctx.sr &&& RB ≠ old_sr &&& RB then
        (if s.ctx.sr &&& I ≠ old_sr &&& I ∨ s.ctx.sr &&& BL ≠ old_sr &&& BL then
          UpdatePendingInterrupts (SwapRegisterBank s)
         else SwapRegisterBank s)
      else
        (if s.ctx.sr &&& I ≠ old_sr &&& I ∨ s.ctx.sr &&& BL ≠ old_sr &&& BL then
          UpdatePendingInterrupts s
         else s) := by
  have hsr : (SwapRegisterBank s).ctx.sr = s.ctx.sr := by rw [swapRegisterBank_eq]
  unfold SRUpdated
  by_cases hrb : s.ctx.sr &&& RB ≠ old_sr &&& RB
  · rw [if_pos hrb, if_pos hrb]
    simp only [hsr]
  · rw [if_neg hrb, if_neg hrb]

theorem canonical_srUpdated (cfg : Config) (s : SH4State) (old_sr : Nat)
    (hs : Sorted cfg s) (hr : s.requested_interrupts < 2 ^ cfg.NUM_INTERRUPTS)
    (hp : s.ctx.sr &&& I = old_sr &&& I → s.ctx.sr &&& BL = old_sr &&& BL →
      s.pending_interrupts = (UpdatePendingInterrupts s).pending_interrupts) :
    Canonical cfg (SRUpdated s old_sr) := by
  have hswap : Sorted cfg (SwapRegisterBank s) :=
    sorted_congr cfg s _ hs rfl rfl rfl (fun _ _ => rfl)
  have hsr : (SwapRegisterBank s).ctx.sr = s.ctx.sr := by rw [swapRegisterBank_eq]
  rw [srUpdated_def]
  by_cases hrb : s.ctx.sr &&& RB ≠ old_sr &&& RB
  · rw [if_pos hrb]
    by_cases hib : s.ctx.sr &&& I ≠ old_sr &&& I ∨ s.ctx.sr &&& BL ≠ old_sr &&& BL
    · rw [if_pos hib]
      exact canonical_of_update cfg _ hswap hr
    · rw [if_neg hib]
      push_neg at hib
      refine ⟨hswap, hr, ?_⟩
      rw [updatePending_congr s (SwapRegisterBank s) rfl rfl (by rw [hsr]) (by rw [hsr])]
      exact hp hib.1 hib.2
  · rw [if_neg hrb]
    by_cases hib : s.ctx.sr &&& I ≠ old_sr &&& I ∨ s.ctx.sr &&& BL ≠ old_sr &&& BL
    · rw [if_pos hib]
      exact canonical_of_update cfg _ hs hr
    · rw [if_neg hib]
      push_neg at hib
      exact ⟨hs, hr, hp hib.1 hib.2⟩

theorem canonical_writeSR (cfg : Config) (s : SH4State) (sr : Nat) (h : Canonical cfg s) :
    Canonical cfg (SRUpdated { s with ctx := { s.ctx with sr := sr } } s.ctx.sr) := by
  apply canonical_srUpdated
  · exact sorted_congr cfg s _ h.sorted rfl rfl rfl (fun _ _ => rfl)
  · exact h.req
  · intro h1 h2
    rw [updatePending_congr s { s with ctx := { s.ctx with sr := sr } } rfl rfl h1 h2]
    exact h.pend

theorem canonical_exec (cfg : Config) (s : SH4State) (ctx : SH4Context)
    (hsr : ctx.sr = s.ctx.sr) (h : Canonical cfg s) : Canonical cfg { s with ctx := ctx } where
  sorted := sorted_congr cfg s _ h.sorted rfl rfl rfl (fun _ _ => rfl)
  req := h.req
  pend := by
    rw [updatePending_congr s { s with ctx := ctx } rfl rfl (by simp [hsr]) (by simp [hsr])]
    exact h.pend

theorem currentPriority_intevt (cfg : Config) (hwf : cfg.WF) (regs : Nat → Register)
    (v : Register) (j : Nat) (hj : j < cfg.NUM_INTERRUPTS) :
    currentPriority cfg (arraySet regs cfg.INTEVT_OFFSET v) j = currentPriority cfg regs j := by
  unfold currentPriority
  simp only
  by_cases h : (cfg.intInfo j).ipr ≠ 0
  · have := (hwf.2 j hj).2.2 h
    simp [h, arraySet, this]
  · simp [h]

/-- The pending mask of a canonical state with `BL` clear is not empty only if `BL` is
clear. -/
theorem canonical_pending_BL (cfg : Config) (s : SH4State) (h : Canonical cfg s)
    (hbl : s.ctx.sr &&& BL ≠ 0) : s.pending_interrupts = 0 := by
  rw [h.pend]
  unfold UpdatePendingInterrupts
  simp [hbl]

/-! ## Interrupt delivery -/

theorem check_of_pending (cfg : Config) (s : SH4State) (h : s.pending_interrupts ≠ 0) :
    CheckPendingInterrupts cfg s = SRUpdated (entryState cfg s) s.ctx.sr := by
  unfold CheckPendingInterrupts
  rw [if_neg h]
  rfl

theorem check_of_not_pending (cfg : Config) (s : SH4State) (h : s.pending_interrupts = 0) :
    CheckPendingInterrupts cfg s = s := by
  unfold CheckPendingInterrupts
  rw [if_pos h]

theorem entry_BL (sr : Nat) : (sr ||| (BL ||| MD ||| RB)) &&& BL ≠ 0 := by
  rw [BL_eq, and_two_pow_ne_zero, Nat.testBit_or, ← BL_eq, entry_bits_BL]
  simp

theorem or_and_two_pow_differs (sr m n : Nat) (hm : m.testBit n = true) :
    (sr ||| m) &&& 2 ^ n ≠ sr &&& 2 ^ n ↔ sr &&& 2 ^ n = 0 := by
  rw [Ne, and_two_pow_eq_iff, and_two_pow_eq_zero, Nat.testBit_or, hm]
  cases sr.testBit n <;> simp

theorem entry_RB_differs (sr : Nat) :
    (sr ||| (BL ||| MD ||| RB)) &&& RB ≠ sr &&& RB ↔ sr &&& RB = 0 := by
  have h := or_and_two_pow_differs sr (BL ||| MD ||| RB) 29 entry_bits_RB
  rwa [← RB_eq] at h

theorem entryState_frame (cfg : Config) (s : SH4State) :
    (entryState cfg s).requested_interrupts = s.requested_interrupts ∧
    (entryState cfg s).pending_interrupts = s.pending_interrupts ∧
    (entryState cfg s).sort_id = s.sort_id ∧
    (entryState cfg s).sorted_interrupts = s.sorted_interrupts ∧
    (entryState cfg s).priority_mask = s.priority_mask ∧
    (entryState cfg s).ctx.sr = s.ctx.sr ||| (BL ||| MD ||| RB) := by
  unfold entryState
  exact ⟨rfl, rfl, rfl, rfl, rfl, rfl⟩

theorem entryState_regs (cfg : Config) (s : SH4State) :
    (entryState cfg s).regs = arraySet s.regs cfg.INTEVT_OFFSET
      { s.regs cfg.INTEVT_OFFSET with
        value := (cfg.intInfo (s.sorted_interrupts (63 - clz s.pending_interrupts))).intevt } := by
  unfold entryState
  rfl

theorem canonical_check (cfg : Config) (hwf : cfg.WF) (s : SH4State) (h : Canonical cfg s) :
    Canonical cfg (CheckPendingInterrupts cfg s) := by
  by_cases hp : s.pending_interrupts = 0
  · rw [check_of_not_pending cfg s hp]; exact h
  · rw [check_of_pending cfg s hp]
    have hbl : s.ctx.sr &&& BL = 0 := by
      by_contra hc
      exact hp (canonical_pending_BL cfg s h hc)
    obtain ⟨e1, _, e3, e4, e5, e6⟩ := entryState_frame cfg s
    apply canonical_srUpdated
    · apply sorted_congr cfg s _ h.sorted e3 e4 e5
      intro j hj
      rw [entryState_regs]
      exact currentPriority_intevt cfg hwf s.regs _ j hj
    · rw [e1]; exact h.req
    · intro _ h2
      exfalso
      rw [e6, hbl] at h2
      exact entry_BL s.ctx.sr h2

theorem canonical_of_reachable (cfg : Config) (hwf : cfg.WF) (s : SH4State)
    (h : Reachable cfg s) : Canonical cfg s := by
  induction h with
  | init regs0 sort0 sorted0 mask0 => exact canonical_reprioritize cfg hwf _
  | reprioritize s _ _ => exact canonical_reprioritize cfg hwf _
  | writeIPR s offset value _ _ => exact canonical_reprioritize cfg hwf _
  | request s intr _ hi ih => exact canonical_request cfg s intr hi ih
  | unrequest s intr _ _ ih => exact canonical_unrequest cfg s intr ih
  | writeSR s sr _ ih => exact canonical_writeSR cfg s sr ih
  | check s _ ih => exact canonical_check cfg hwf s ih
  | exec s ctx _ hsr ih => exact canonical_exec cfg s ctx hsr ih

/-! ## The invariants as the specification words them -/

theorem sortInv_of_sorted (cfg : Config) (s : SH4State) (h : Sorted cfg s) :
    SortInv cfg s := by
  constructor
  · intro j hj
    exact ⟨rank cfg s.regs j, rank_lt_num cfg s.regs j hj,
      by rw [Nat.one_shiftLeft]; exact h.sort_id j hj, h.sorted j hj⟩
  · intro n hn
    obtain ⟨k, hk, hr⟩ := rank_surj cfg s.regs n hn
    have h1 := h.sorted k hk
    rw [hr] at h1
    rw [h1, Nat.one_shiftLeft, ← hr]
    exact ⟨hk, h.sort_id k hk⟩

theorem orderInv_of_sorted (cfg : Config) (s : SH4State) (h : Sorted cfg s) :
    OrderInv cfg s := by
  intro a ha b hb hab
  rw [h.sort_id a ha, h.sort_id b hb]
  exact Nat.pow_lt_pow_right (by norm_num) (rank_lt_of_before cfg s.regs a b ha hab)

theorem sortInv_sorted_inj (cfg : Config) (s : SH4State) (h : SortInv cfg s) (n m : Nat)
    (hn : n < cfg.NUM_INTERRUPTS) (hm : m < cfg.NUM_INTERRUPTS)
    (he : s.sorted_interrupts n = s.sorted_interrupts m) : n = m := by
  have h1 := (h.2 n hn).2
  have h2 := (h.2 m hm).2
  rw [he, h2, Nat.one_shiftLeft, Nat.one_shiftLeft] at h1
  exact (Nat.pow_right_injective (le_refl 2) h1).symm

/-! ## Leading zeros -/

theorem testBit_of_lt_two_pow (x k m : Nat) (h : x < 2 ^ k) (hm : k ≤ m) :
    x.testBit m = false :=
  Nat.testBit_lt_two_pow (lt_of_lt_of_le h (Nat.pow_le_pow_right (by norm_num) hm))

theorem clzFrom_spec (k x : Nat) (hx : x < 2 ^ k) (h0 : x ≠ 0) :
    ∃ n, n < k ∧ clzFrom k x = k - 1 - n ∧ x.testBit n = true ∧
      ∀ m, n < m → x.testBit m = false := by
  induction k with
  | zero => simp at hx; exact absurd hx h0
  | succ k ih =>
    unfold clzFrom
    by_cases hb : x.testBit k = true
    · refine ⟨k, by omega, by simp [hb], hb, ?_⟩
      intro m hm
      exact testBit_of_lt_two_pow x (k + 1) m hx (by omega)
    · have hlt : x < 2 ^ k := by
        apply Nat.lt_pow_two_of_testBit
        intro i hi
        by_cases hik : i = k
        · subst hik; simpa using hb
        · exact testBit_of_lt_two_pow x (k + 1) i hx (by omega)
      obtain ⟨n, hn, hc, ht, hm⟩ := ih hlt
      refine ⟨n, by omega, ?_, ht, hm⟩
      simp only [hb, if_false, Bool.false_eq_true]
      rw [hc]; omega

theorem highest_bit (x : Nat) (hx : x < 2 ^ 64) (h0 : x ≠ 0) :
    x.testBit (63 - clz x) = true ∧ ∀ m, 63 - clz x < m → x.testBit m = false := by
  obtain ⟨n, hn, hc, ht, hm⟩ := clzFrom_spec 64 x hx h0
  have : 63 - clz x = n := by unfold clz; rw [hc]; omega
  rw [this]
  exact ⟨ht, hm⟩

/-! ## Derived facts about canonical states -/

theorem two_pow_inj (a b : Nat) (h : 2 ^ a = 2 ^ b) : a = b :=
  Nat.pow_right_injective (le_refl 2) h

theorem mask_bits_of_sorted (cfg : Config) (s : SH4State) (h : Sorted cfg s) (i : Nat)
    (hi : i < 16) (b : Nat) :
    (s.priority_mask i).testBit b = true ↔
      ∃ k, k < cfg.NUM_INTERRUPTS ∧ currentPriority cfg s.regs k ≤ i ∧ s.sort_id k = 1 <<< b := by
  rw [h.mask i hi, Nat.testBit_two_pow_sub_one, decide_eq_true_eq]
  constructor
  · intro hb
    have hle := countLE_le_num cfg s.regs i
    obtain ⟨k, hk, hr⟩ := rank_surj cfg s.regs b (by omega)
    refine ⟨k, hk, (rank_lt_countLE cfg s.regs k i hk).mp (by omega), ?_⟩
    rw [h.sort_id k hk, hr, Nat.one_shiftLeft]
  · rintro ⟨k, hk, hp, hs⟩
    rw [h.sort_id k hk, Nat.one_shiftLeft] at hs
    have := two_pow_inj _ _ hs
    rw [← this]
    exact (rank_lt_countLE cfg s.regs k i hk).mpr hp

theorem popcount64_two_pow_sub_one (c : Nat) (hc : c ≤ 64) : popcount64 (2 ^ c - 1) = c := by
  unfold popcount64
  have h : (List.range 64).countP (fun b => (2 ^ c - 1).testBit b)
      = (List.range 64).countP (fun b => decide (b < c)) :=
    List.countP_congr (fun b _ => by rw [Nat.testBit_two_pow_sub_one])
  rw [h, countP_range_lt]
  omega

theorem pending_bit_of_canonical (cfg : Config) (hwf : cfg.WF) (s : SH4State)
    (h : Canonical cfg s) (k : Nat) (hk : k < cfg.NUM_INTERRUPTS) :
    s.pending_interrupts &&& s.sort_id k ≠ 0 ↔
      (s.requested_interrupts &&& s.sort_id k ≠ 0 ∧ s.ctx.sr &&& BL = 0 ∧
        (s.ctx.sr &&& 0xf0) >>> 4 < currentPriority cfg s.regs k) := by
  have hr := rank_lt_num cfg s.regs k hk
  have hN := hwf.1
  have hmin := min_priority_le s.ctx.sr
  rw [h.sorted.sort_id k hk, and_two_pow_ne_zero, and_two_pow_ne_zero, h.pend]
  unfold UpdatePendingInterrupts
  by_cases hbl : s.ctx.sr &&& BL = 0
  · have hlt : rank cfg s.regs k < 64 := by omega
    simp only [hbl, ne_eq, not_true_eq_false, if_false, Nat.testBit_and, testBit_not64,
      h.sorted.mask _ (Nat.lt_succ_of_le hmin), Nat.testBit_two_pow_sub_one, hlt, decide_True,
      Bool.true_and, Bool.and_eq_true, Bool.not_eq_true', decide_eq_false_iff_not, true_and]
    rw [rank_lt_countLE cfg s.regs k _ hk, I_eq]
    simp only [Nat.shiftRight_eq_div_pow, not_le]
  · simp [hbl]

theorem pending_subset_requested (s : SH4State)
    (h : s.pending_interrupts = (UpdatePendingInterrupts s).pending_interrupts) :
    s.pending_interrupts &&& s.requested_interrupts = s.pending_interrupts := by
  rw [h]
  unfold UpdatePendingInterrupts
  apply Nat.eq_of_testBit_eq
  intro i
  simp only [Nat.testBit_and]
  cases s.requested_interrupts.testBit i <;> simp

theorem countP_range_extend (p : Nat → Bool) (m n : Nat) (hn : m ≤ n)
    (hp : ∀ b, m ≤ b → p b = false) :
    (List.range n).countP p = (List.range m).countP p := by
  induction n, hn using Nat.le_induction with
  | base => rfl
  | succ n hmn ih =>
    rw [List.range_succ, List.countP_append, ih]
    simp [hp n hmn]

theorem countP_range_bij (q : Nat → Bool) (σ : Nat → Nat) (n : Nat)
    (hmap : ∀ b, b < n → σ b < n)
    (hinj : ∀ a b, a < n → b < n → σ a = σ b → a = b) :
    (List.range n).countP (fun b => q (σ b)) = (List.range n).countP q := by
  have hnodup : ((List.range n).map σ).Nodup :=
    List.Nodup.map_on (fun a ha b hb h => hinj a b (List.mem_range.mp ha) (List.mem_range.mp hb) h)
      (List.nodup_range n)
  have hsub : (List.range n).map σ ⊆ List.range n := by
    intro x hx
    obtain ⟨b, hb, rfl⟩ := List.mem_map.mp hx
    exact List.mem_range.mpr (hmap b (List.mem_range.mp hb))
  have hperm : ((List.range n).map σ).Perm (List.range n) :=
    (List.subperm_of_subset hnodup hsub).perm_of_length_le (by simp)
  rw [← hperm.countP_eq q, List.countP_map]
  rfl

/-- Under the sort invariant, the set bits of a mask that holds only bits of kinds are
counted by the kinds whose bit is set. -/
theorem popcount64_eq_kinds (cfg : Config) (hN : cfg.NUM_INTERRUPTS < 64) (s : SH4State)
    (hs : SortInv cfg s) (x : Nat) (hx : x < 2 ^ cfg.NUM_INTERRUPTS) :
    popcount64 x =
      (List.range cfg.NUM_INTERRUPTS).countP (fun k => decide (x &&& s.sort_id k ≠ 0)) := by
  unfold popcount64
  rw [countP_range_extend (fun b => x.testBit b) cfg.NUM_INTERRUPTS 64 (by omega)
    (fun b hb => testBit_of_lt_two_pow x _ b hx hb)]
  rw [← countP_range_bij (fun k => decide (x &&& s.sort_id k ≠ 0)) s.sorted_interrupts
    cfg.NUM_INTERRUPTS (fun b hb => (hs.2 b hb).1)
    (fun a b ha hb h => sortInv_sorted_inj cfg s hs a b ha hb h)]
  apply List.countP_congr
  intro b hb
  have hb' := List.mem_range.mp hb
  rw [(hs.2 b hb').2, Nat.one_shiftLeft, decide_eq_true_eq, and_two_pow_ne_zero]

/-! ## The effect of `SRUpdated` -/

theorem srUpdated_frame (s : SH4State) (old_sr : Nat) :
    (SRUpdated s old_sr).regs = s.regs ∧
    (SRUpdated s old_sr).requested_interrupts = s.requested_interrupts ∧
    (SRUpdated s old_sr).sort_id = s.sort_id ∧
    (SRUpdated s old_sr).sorted_interrupts = s.sorted_interrupts ∧
    (SRUpdated s old_sr).priority_mask = s.priority_mask ∧
    (SRUpdated s old_sr).ctx =
      { s.ctx with r := (SRUpdated s old_sr).ctx.r, ralt := (SRUpdated s old_sr).ctx.ralt } := by
  rw [srUpdated_def]
  split_ifs <;> simp [swapRegisterBank_eq, UpdatePendingInterrupts]

theorem srUpdated_banks (s : SH4State) (old_sr : Nat) :
    (s.ctx.sr &&& RB ≠ old_sr &&& RB →
      (SRUpdated s old_sr).ctx.r = (fun i => if i < 8 then s.ctx.ralt i else s.ctx.r i) ∧
      (SRUpdated s old_sr).ctx.ralt = (fun i => if i < 8 then s.ctx.r i else s.ctx.ralt i)) ∧
    (s.ctx.sr &&& RB = old_sr &&& RB →
      (SRUpdated s old_sr).ctx.r = s.ctx.r ∧ (SRUpdated s old_sr).ctx.ralt = s.ctx.ralt) := by
  rw [srUpdated_def]
  constructor
  · intro h
    rw [if_pos h]
    split_ifs <;> simp [swapRegisterBank_eq, UpdatePendingInterrupts]
  · intro h
    rw [if_neg (not_not.mpr h)]
    split_ifs <;> simp [UpdatePendingInterrupts]

theorem updatePending_pending (s : SH4State) :
    (UpdatePendingInterrupts s).pending_interrupts =
      if s.ctx.sr &&& BL ≠ 0 then 0
      else s.requested_interrupts &&& not64 (s.priority_mask ((s.ctx.sr &&& I) >>> 4)) := by
  unfold UpdatePendingInterrupts
  by_cases h : s.ctx.sr &&& BL = 0
  · simp [h]
  · simp [h]

theorem srUpdated_pending (s : SH4State) (old_sr : Nat) :
    (s.ctx.sr &&& I = old_sr &&& I ∧ s.ctx.sr &&& BL = old_sr &&& BL →
      (SRUpdated s old_sr).pending_interrupts = s.pending_interrupts) ∧
    (s.ctx.sr &&& I ≠ old_sr &&& I ∨ s.ctx.sr &&& BL ≠ old_sr &&& BL →
      (SRUpdated s old_sr).pending_interrupts =
        if s.ctx.sr &&& BL ≠ 0 then 0
        else s.requested_interrupts &&& not64 (s.priority_mask ((s.ctx.sr &&& I) >>> 4))) := by
  rw [srUpdated_def]
  constructor
  · rintro ⟨h1, h2⟩
    have h : ¬ (s.ctx.sr &&& I ≠ old_sr &&& I ∨ s.ctx.sr &&& BL ≠ old_sr &&& BL) := by
      simp [h1, h2]
    rw [if_neg h, if_neg h]
    split_ifs <;> simp [swapRegisterBank_eq]
  · intro h
    rw [if_pos h, if_pos h]
    split_ifs with hrb hbl hbl
    · rw [updatePending_pending, swapRegisterBank_eq]; simp [hbl]
    · rw [updatePending_pending, swapRegisterBank_eq]; simp [hbl]
    · rw [updatePending_pending]; simp [hbl]
    · rw [updatePending_pending]; simp [hbl]

/-! ## The small instance -/

theorem exampleConfig_wf : exampleConfig.WF := by decide

theorem examplePending_reachable : Reachable exampleConfig examplePending :=
  Reachable.writeSR _ 0x40000000
    (Reachable.writeIPR _ 0xd0 0xf000
      (Reachable.request _ 2 (Reachable.init _ _ _ _) (by decide)))

theorem exampleMulti_reachable : Reachable exampleConfig exampleMulti :=
  Reachable.writeSR _ 0x40000000
    (Reachable.writeIPR _ 0xd0 0x6300
      (Reachable.request _ 3
        (Reachable.request _ 2
          (Reachable.request _ 1 (Reachable.init _ _ _ _) (by decide)) (by decide))
        (by decide)))

/-! ## Named registers -/

theorem layout_offsets_ne (lay : Layout) (h : lay.WF) (i j : Nat) (hi : i < 36) (hj : j < 36)
    (hij : i ≠ j) : lay.offsets.getD i 0 ≠ lay.offsets.getD j 0 := by
  have hlen : lay.offsets.length = 36 := rfl
  intro he
  apply hij
  have hn := h.1
  rw [List.getD_eq_getElem lay.offsets 0 (show i < lay.offsets.length by omega),
    List.getD_eq_getElem lay.offsets 0 (show j < lay.offsets.length by omega)] at he
  exact (List.Nodup.getElem_inj_iff hn).mp he

/-! ## Store-queue flush -/

theorem prefetch_loop (sq : Nat → Nat) (mem : Memory) (dest k : Nat) (h0 : dest < 2 ^ 32)
    (h : dest + 4 * k ≤ 2 ^ 32) :
    ((List.range k).foldl (prefetchBody sq) (mem, dest)).1.log
        = mem.log ++ (List.range k).map (fun i => BusOp.W32 (dest + 4 * i) (sq i)) ∧
      ((List.range k).foldl (prefetchBody sq) (mem, dest)).2 = (dest + 4 * k) % 2 ^ 32 := by
  induction k with
  | zero =>
    simp only [List.range_zero, List.foldl_nil, List.map_nil, List.append_nil, true_and,
      Nat.mul_zero, Nat.add_zero]
    exact (Nat.mod_eq_of_lt h0).symm
  | succ k ih =>
    obtain ⟨h1, h2⟩ := ih (by omega)
    rw [List.range_succ, List.foldl_append, List.map_append]
    simp only [List.foldl_cons, List.foldl_nil, prefetchBody, Memory.W32, List.map_cons,
      List.map_nil]
    rw [h1, h2]
    constructor
    · rw [Nat.mod_eq_of_lt (by omega), List.append_assoc]
    · have : (dest + 4 * k) % 2 ^ 32 = dest + 4 * k := Nat.mod_eq_of_lt (by omega)
      rw [this]
      congr 1

theorem prefetch_qacr_lt (q : Nat) : (q &&& 0x1c) <<< 24 < 2 ^ 29 := by
  have h2 : q &&& 0x1c ≤ 0x1c := Nat.and_le_right
  rw [Nat.shiftLeft_eq]
  omega

theorem prefetch_dest_lt (a q : Nat) :
    (a &&& 0x03ffffe0) ||| (q &&& 0x1c) <<< 24 < 2 ^ 29 := by
  have h1 : a &&& 0x03ffffe0 ≤ 0x03ffffe0 := Nat.and_le_right
  exact Nat.or_lt_two_pow (by omega) (prefetch_qacr_lt q)

theorem sqi_eq (a : Nat) : (a &&& 0x20) >>> 5 = (a >>> 5) % 2 := by
  have h : (0x20 : Nat) = 2 ^ 5 := by norm_num
  rw [h, Nat.and_two_pow, Nat.shiftRight_eq_div_pow, Nat.shiftRight_eq_div_pow,
    Nat.toNat_testBit]
  exact Nat.mul_div_cancel _ (by norm_num)

theorem prefetch_in_range (lay : Layout) (m : Machine) (a : Nat) (h1 : 0xe0000000 ≤ a)
    (h2 : a ≤ 0xe3ffffff) :
    (Prefetch lay m a).memory.log = m.memory.log ++ (List.range 8).map (fun i =>
      BusOp.W32
        (((a &&& 0x03ffffe0) |||
          ((if (a >>> 5) % 2 = 1 then m.regValue lay.QACR1_OFFSET
            else m.regValue lay.QACR0_OFFSET) &&& 0x1c) <<< 24) + 4 * i)
        (m.sh4.ctx.sq ((a >>> 5) % 2) i)) ∧
    Prefetch lay m a = { m with memory := (Prefetch lay m a).memory } := by
  have ha : a % 2 ^ 32 = a := Nat.mod_eq_of_lt (by omega)
  have hr : ¬ (a < 0xe0000000 ∨ a > 0xe3ffffff) := by omega
  have hsq : (a >>> 5) % 2 = 0 ∨ (a >>> 5) % 2 = 1 := by omega
  unfold Prefetch
  simp only [ha, hr, if_false, sqi_eq]
  refine ⟨?_, trivial⟩
  rcases hsq with h | h
  · simp only [h, ne_eq, not_true_eq_false, if_false, Nat.zero_ne_one]
    rw [Nat.mod_eq_of_lt (lt_trans (prefetch_qacr_lt _) (by norm_num))]
    have hd := prefetch_dest_lt a (m.regValue lay.QACR0_OFFSET)
    exact (prefetch_loop _ _ _ 8 (by omega) (by omega)).1
  · simp only [h, ne_eq, Nat.one_ne_zero, not_false_eq_true, if_true]
    rw [Nat.mod_eq_of_lt (lt_trans (prefetch_qacr_lt _) (by norm_num))]
    have hd := prefetch_dest_lt a (m.regValue lay.QACR1_OFFSET)
    exact (prefetch_loop _ _ _ 8 (by omega) (by omega)).1

theorem prefetch_out_of_range (lay : Layout) (m : Machine) (data : Nat)
    (h : data % 2 ^ 32 < 0xe0000000 ∨ 0xe3ffffff < data % 2 ^ 32) : Prefetch lay m data = m := by
  unfold Prefetch
  simp only
  rw [if_pos h]

/-! ## Register values -/

theorem regValue_setRegValue_same (m : Machine) (o v : Nat) :
    (m.setRegValue o v).regValue o = v := by
  simp [Machine.setRegValue, Machine.regValue, arraySet]

theorem regValue_setRegValue_ne (m : Machine) (o o2 v : Nat) (h : o2 ≠ o) :
    (m.setRegValue o v).regValue o2 = m.regValue o2 := by
  simp [Machine.setRegValue, Machine.regValue, arraySet, h]

theorem regs_setRegValue_ne (m : Machine) (o o2 v : Nat) (h : o2 ≠ o) :
    (m.setRegValue o v).sh4.regs o2 = m.sh4.regs o2 := by
  simp [Machine.setRegValue, arraySet, h]

theorem flags_setRegValue (m : Machine) (o o2 v : Nat) :
    ((m.setRegValue o v).sh4.regs o2).flags = (m.sh4.regs o2).flags := by
  unfold Machine.setRegValue arraySet
  by_cases h : o2 = o
  · simp [h]
  · simp [h]

theorem regValue_request (m : Machine) (d o : Nat) :
    ({ m with sh4 := RequestInterrupt m.sh4 d } : Machine).regValue o = m.regValue o := rfl

theorem regValue_unrequest (m : Machine) (d o : Nat) :
    ({ m with sh4 := UnrequestInterrupt m.sh4 d } : Machine).regValue o = m.regValue o := rfl

theorem or_and_self (x s : Nat) : (x ||| s) &&& s = s := by
  apply Nat.eq_of_testBit_eq
  intro i
  rw [Nat.testBit_and, Nat.testBit_or]
  cases x.testBit i <;> cases s.testBit i <;> rfl

/-! ## DMA channels -/

theorem timer_offsets (lay : Layout) (n : Nat) (hn : n < 3) :
    TCOR_OFFSET lay n = lay.offsets.getD (27 + n) 0 ∧
    TCNT_OFFSET lay n = lay.offsets.getD (30 + n) 0 ∧
    TCR_OFFSET lay n = lay.offsets.getD (33 + n) 0 := by
  interval_cases n <;> exact ⟨rfl, rfl, rfl⟩

theorem tstr_offset (lay : Layout) : lay.TSTR_OFFSET = lay.offsets.getD 26 0 := rfl

theorem timer_offsets_ne (lay : Layout) (hl : lay.WF) (n k : Nat) (hn : n < 3) (hk : k < 3) :
    TCR_OFFSET lay n ≠ TCNT_OFFSET lay k ∧ TCR_OFFSET lay n ≠ TCOR_OFFSET lay k ∧
    TCNT_OFFSET lay n ≠ TCOR_OFFSET lay k ∧ lay.TSTR_OFFSET ≠ TCR_OFFSET lay n ∧
    lay.TSTR_OFFSET ≠ TCNT_OFFSET lay n ∧ lay.TSTR_OFFSET ≠ TCOR_OFFSET lay n ∧
    (n ≠ k → TCR_OFFSET lay n ≠ TCR_OFFSET lay k ∧ TCNT_OFFSET lay n ≠ TCNT_OFFSET lay k ∧
      TCOR_OFFSET lay n ≠ TCOR_OFFSET lay k) := by
  obtain ⟨a1, a2, a3⟩ := timer_offsets lay n hn
  obtain ⟨b1, b2, b3⟩ := timer_offsets lay k hk
  rw [a1, a2, a3, b1, b2, b3, tstr_offset]
  refine ⟨layout_offsets_ne lay hl _ _ (by omega) (by omega) (by omega),
    layout_offsets_ne lay hl _ _ (by omega) (by omega) (by omega),
    layout_offsets_ne lay hl _ _ (by omega) (by omega) (by omega),
    layout_offsets_ne lay hl _ _ (by omega) (by omega) (by omega),
    layout_offsets_ne lay hl _ _ (by omega) (by omega) (by omega),
    layout_offsets_ne lay hl _ _ (by omega) (by omega) (by omega), ?_⟩
  intro hnk
  exact ⟨layout_offsets_ne lay hl _ _ (by omega) (by omega) (by omega),
    layout_offsets_ne lay hl _ _ (by omega) (by omega) (by omega),
    layout_offsets_ne lay hl _ _ (by omega) (by omega) (by omega)⟩

theorem reschedule_effect (m : Machine) (n tcnt tcr : Nat) :
    (RescheduleTimer m n tcnt tcr).sh4 = m.sh4 ∧
    (RescheduleTimer m n tcnt tcr).memory = m.memory ∧
    (RescheduleTimer m n tcnt tcr).cache = m.cache ∧
    (RescheduleTimer m n tcnt tcr).breakpoints = m.breakpoints ∧
    (RescheduleTimer m n tcnt tcr).code_cache = m.code_cache ∧
    (RescheduleTimer m n tcnt tcr).tmu_timers n ≠ 0 ∧
    (∀ k, k ≠ n → (RescheduleTimer m n tcnt tcr).tmu_timers k = m.tmu_timers k) ∧
    (RescheduleTimer m n tcnt tcr).scheduler.log =
      m.scheduler.log ++
        (if m.tmu_timers n ≠ 0 then [SchedulerOp.cancel (m.tmu_timers n)] else []) ++
        [SchedulerOp.schedule n (CYCLES_TO_NANO tcnt (timerFreq tcr))] ∧
    (RescheduleTimer m n tcnt tcr).scheduler.RemainingTime
        ((RescheduleTimer m n tcnt tcr).tmu_timers n)
      = CYCLES_TO_NANO tcnt (timerFreq tcr) := by
  unfold RescheduleTimer
  by_cases h : m.tmu_timers n = 0
  · simp [h, arraySet, Scheduler.ScheduleTimer, Scheduler.RemainingTime]
    intro k hk hkn
    exact absurd hkn hk
  · simp [h, arraySet, Scheduler.ScheduleTimer, Scheduler.CancelTimer,
      Scheduler.RemainingTime]
    intro k hk
    simp [hk]

theorem and_0x20_or_0x100 (x : Nat) : (x ||| 0x100) &&& 0x20 = x &&& 0x20 := by
  apply Nat.eq_of_testBit_eq
  intro i
  have h1 : (0x100 : Nat) = 2 ^ 8 := by norm_num
  have h2 : (0x20 : Nat) = 2 ^ 5 := by norm_num
  rw [h1, h2, Nat.testBit_and, Nat.testBit_and, Nat.testBit_or, Nat.testBit_two_pow,
    Nat.testBit_two_pow]
  by_cases h5 : 5 = i
  · subst h5; simp
  · simp [h5]

/-- The object before the last step (`RescheduleTimer`) of `ExpireTimer`. -/
theorem expireTimer_eq (lay : Layout) (hl : lay.WF) (m : Machine) (n : Nat) (hn : n < 3) :
    ExpireTimer lay m n =
      RescheduleTimer
        ((if TCR lay m n &&& 0x20 ≠ 0 then
            ({ m.setRegValue (TCR_OFFSET lay n) (TCR lay m n ||| 0x100) with
              sh4 := RequestInterrupt
                (m.setRegValue (TCR_OFFSET lay n) (TCR lay m n ||| 0x100)).sh4 (TUNI lay n) } :
              Machine)
          else m.setRegValue (TCR_OFFSET lay n) (TCR lay m n ||| 0x100)).setRegValue
            (TCNT_OFFSET lay n) (TCOR lay m n))
        n (TCOR lay m n) (TCR lay m n ||| 0x100) := by
  obtain ⟨n1, n2, n3, _, _, _, _⟩ := timer_offsets_ne lay hl n n hn hn
  have hc : TCR lay (m.setRegValue (TCR_OFFSET lay n) (TCR lay m n ||| 0x100)) n &&& 0x20
      = TCR lay m n &&& 0x20 := by
    unfold TCR
    rw [regValue_setRegValue_same]
    exact and_0x20_or_0x100 _
  unfold ExpireTimer
  simp only [hc]
  by_cases h : TCR lay m n &&& 0x20 ≠ 0
  · simp only [h, if_true, ne_eq, not_false_eq_true]
    have e1 : TCOR lay ({ m.setRegValue (TCR_OFFSET lay n) (TCR lay m n ||| 0x100) with
        sh4 := RequestInterrupt
          (m.setRegValue (TCR_OFFSET lay n) (TCR lay m n ||| 0x100)).sh4 (TUNI lay n) } :
          Machine) n = TCOR lay m n := by
      unfold TCOR
      rw [regValue_request, regValue_setRegValue_ne _ _ _ _ n2.symm]
    rw [e1]
    congr 1
    · unfold TCNT; rw [regValue_setRegValue_same]
    · unfold TCR
      rw [regValue_setRegValue_ne _ _ _ _ n1, regValue_request, regValue_setRegValue_same]
  · simp only [h, if_false]
    have e1 : TCOR lay (m.setRegValue (TCR_OFFSET lay n) (TCR lay m n ||| 0x100)) n
        = TCOR lay m n := by
      unfold TCOR
      rw [regValue_setRegValue_ne _ _ _ _ n2.symm]
    rw [e1]
    congr 1
    · unfold TCNT; rw [regValue_setRegValue_same]
    · unfold TCR
      rw [regValue_setRegValue_ne _ _ _ _ n1, regValue_setRegValue_same]

/-! ## The timer run state -/

theorem reprioritizeBody_regs (cfg : Config) (old i j : Nat) (st : SH4State × Nat) :
    (reprioritizeBody cfg old i j st).1.regs = st.1.regs := by
  by_cases h : currentPriority cfg st.1.regs j = i
  · exact (body_take cfg old i j st h).2.2.2.2.2.1
  · rw [body_skip cfg old i j st h]

theorem reprioritizeInner_regs (cfg : Config) (old i m : Nat) (st : SH4State × Nat) :
    (reprioritizeInner cfg old i m st).1.regs = st.1.regs := by
  induction m generalizing st with
  | zero => rfl
  | succ j ih =>
    unfold reprioritizeInner
    rw [ih, reprioritizeBody_regs]

theorem reprioritizeLevels_regs (cfg : Config) (old k : Nat) (st : SH4State × Nat) :
    (reprioritizeLevels cfg old k st).1.regs = st.1.regs := by
  induction k with
  | zero => rfl
  | succ k ih =>
    unfold reprioritizeLevels at *
    rw [List.range_succ, List.foldl_append]
    simp only [List.foldl_cons, List.foldl_nil, reprioritizeLevel]
    rw [reprioritizeInner_regs, ih]

theorem reprioritize_regs (cfg : Config) (s : SH4State) :
    (ReprioritizeInterrupts cfg s).regs = s.regs := by
  unfold ReprioritizeInterrupts UpdatePendingInterrupts
  simp only
  rw [reprioritizeLevels_regs]

theorem TSTR_congr (lay : Layout) (m m2 : Machine)
    (h : m2.sh4.regs lay.TSTR_OFFSET = m.sh4.regs lay.TSTR_OFFSET) (n : Nat) :
    TSTR lay m2 n = TSTR lay m n := by
  unfold TSTR Machine.regValue
  rw [h]

theorem timerInv_congr (lay : Layout) (m m2 : Machine) (h1 : m2.tmu_timers = m.tmu_timers)
    (h2 : m2.sh4.regs lay.TSTR_OFFSET = m.sh4.regs lay.TSTR_OFFSET) (h : TimerInv lay m) :
    TimerInv lay m2 := by
  intro n hn
  rw [h1, TSTR_congr lay m m2 h2 n]
  exact h n hn

theorem timerInv_reschedule (lay : Layout) (m : Machine) (n tcnt tcr : Nat)
    (hs : TSTR lay m n ≠ 0) (h : TimerInv lay m) :
    TimerInv lay (RescheduleTimer m n tcnt tcr) := by
  obtain ⟨r1, _, _, _, _, r6, r7, _, _⟩ := reschedule_effect m n tcnt tcr
  intro k hk
  rw [TSTR_congr lay m _ (by rw [r1]) k]
  by_cases hkn : k = n
  · subst hkn
    exact ⟨fun _ => hs, fun _ => r6⟩
  · rw [r7 k hkn]
    exact h k hk

theorem timerInv_updateTimerCount (lay : Layout) (m : Machine) (n : Nat)
    (h : TimerInv lay m) : TimerInv lay (UpdateTimerCount lay m n) := by
  unfold UpdateTimerCount
  by_cases hs : TSTR lay m n ≠ 0
  · rw [if_pos hs]; exact timerInv_reschedule lay m n _ _ hs h
  · rw [if_neg hs]; exact h

theorem timerInv_updateTimerControl (lay : Layout) (m : Machine) (n : Nat)
    (h : TimerInv lay m) : TimerInv lay (UpdateTimerControl lay m n) := by
  have h1 : TimerInv lay
      (if TSTR lay m n ≠ 0 then RescheduleTimer m n (TimerCount lay m n) (TCR lay m n)
        else m) := by
    by_cases hs : TSTR lay m n ≠ 0
    · rw [if_pos hs]; exact timerInv_reschedule lay m n _ _ hs h
    · rw [if_neg hs]; exact h
  unfold UpdateTimerControl
  simp only
  split_ifs with hs hc hc
  · exact timerInv_congr lay _ _ rfl rfl (by simpa [hs] using h1)
  · simpa [hs] using h1
  · exact timerInv_congr lay _ _ rfl rfl (by simpa [hs] using h1)
  · simpa [hs] using h1

theorem checkDMA_eq (lay : Layout) (m m2 : Machine) (k : Nat)
    (h : CheckDMA lay m k = some m2) : m2 = m := by
  unfold CheckDMA at h
  simp only at h
  split_ifs at h
  exact (Option.some.inj h).symm

theorem dmaor_w_eq (lay : Layout) (m m2 : Machine) (old : Nat)
    (h : DMAOR_w lay m old = some m2) : m2 = m := by
  unfold DMAOR_w at h
  cases h0 : CheckDMA lay m 0 with
  | none => simp [h0] at h
  | some a =>
    have e0 := checkDMA_eq lay m a 0 h0
    subst e0
    cases h1 : CheckDMA lay a 1 with
    | none => simp [h0, h1] at h
    | some b =>
      have e1 := checkDMA_eq lay a b 1 h1
      subst e1
      cases h2 : CheckDMA lay b 2 with
      | none => simp [h0, h1, h2] at h
      | some c =>
        have e2 := checkDMA_eq lay b c 2 h2
        subst e2
        simp only [h0, h1, h2, Option.some_bind] at h
        exact checkDMA_eq lay c m2 3 h

theorem updateTimerStartBody_effect (lay : Layout) (m : Machine) (i : Nat) :
    (updateTimerStartBody lay m i).sh4 = m.sh4 ∧
    (∀ k, k ≠ i → (updateTimerStartBody lay m i).tmu_timers k = m.tmu_timers k) ∧
    ((updateTimerStartBody lay m i).tmu_timers i ≠ INVALID_TIMER ↔ TSTR lay m i ≠ 0) ∧
    (updateTimerStartBody lay m i).scheduler.log =
      m.scheduler.log ++
        timerStartOps (m.regValue lay.TSTR_OFFSET) (m.tmu_timers i) i (TCNT lay m i)
          (TCR lay m i) := by
  obtain ⟨r1, _, _, _, _, r6, r7, r8, _⟩ :=
    reschedule_effect m i (TCNT lay m i) (TCR lay m i)
  have hT : m.regValue lay.TSTR_OFFSET &&& (1 <<< i) = TSTR lay m i := rfl
  by_cases hs : TSTR lay m i ≠ 0
  · by_cases hh : m.tmu_timers i = INVALID_TIMER
    · have hb : updateTimerStartBody lay m i
          = RescheduleTimer m i (TCNT lay m i) (TCR lay m i) := by
        unfold updateTimerStartBody
        rw [if_pos hs, if_pos hh]
      have ho : timerStartOps (m.regValue lay.TSTR_OFFSET) (m.tmu_timers i) i (TCNT lay m i)
          (TCR lay m i)
          = [SchedulerOp.schedule i (CYCLES_TO_NANO (TCNT lay m i) (timerFreq (TCR lay m i)))] := by
        unfold timerStartOps
        rw [hT, if_pos hs, if_pos hh]
      rw [hb, ho]
      refine ⟨r1, r7, ⟨fun _ => hs, fun _ => r6⟩, ?_⟩
      have hh0 : m.tmu_timers i = 0 := hh
      rw [r8, hh0]
      simp
    · have hb : updateTimerStartBody lay m i = m := by
        unfold updateTimerStartBody
        rw [if_pos hs, if_neg hh]
      have ho : timerStartOps (m.regValue lay.TSTR_OFFSET) (m.tmu_timers i) i (TCNT lay m i)
          (TCR lay m i) = [] := by
        unfold timerStartOps
        rw [hT, if_pos hs, if_neg hh]
      rw [hb, ho, List.append_nil]
      exact ⟨rfl, fun _ _ => rfl, ⟨fun _ => hs, fun _ => hh⟩, rfl⟩
  · by_cases hh : m.tmu_timers i = INVALID_TIMER
    · have hb : updateTimerStartBody lay m i = m := by
        unfold updateTimerStartBody
        rw [if_neg hs, if_neg (not_not.mpr hh)]
      have ho : timerStartOps (m.regValue lay.TSTR_OFFSET) (m.tmu_timers i) i (TCNT lay m i)
          (TCR lay m i) = [] := by
        unfold timerStartOps
        rw [hT, if_neg hs, if_neg (not_not.mpr hh)]
      rw [hb, ho, List.append_nil]
      exact ⟨rfl, fun _ _ => rfl, ⟨fun h => absurd hh h, fun h => absurd h hs⟩, rfl⟩
    · have hb : updateTimerStartBody lay m i =
          { m with
            scheduler := m.scheduler.CancelTimer (m.tmu_timers i)
            tmu_timers := arraySet m.tmu_timers i INVALID_TIMER } := by
        unfold updateTimerStartBody
        rw [if_neg hs, if_pos hh]
      have ho : timerStartOps (m.regValue lay.TSTR_OFFSET) (m.tmu_timers i) i (TCNT lay m i)
          (TCR lay m i) = [SchedulerOp.cancel (m.tmu_timers i)] := by
        unfold timerStartOps
        rw [hT, if_neg hs, if_pos hh]
      rw [hb, ho]
      refine ⟨rfl, ?_, ?_, rfl⟩
      · intro k hk
        simp [arraySet, hk]
      · constructor
        · intro h
          exact absurd (by simp [arraySet]) h
        · intro h
          exact absurd h hs

theorem updateTimerStart_eq (lay : Layout) (m : Machine) :
    UpdateTimerStart lay m =
      updateTimerStartBody lay (updateTimerStartBody lay (updateTimerStartBody lay m 0) 1) 2 :=
  rfl

theorem updateTimerStart_effect (lay : Layout) (m : Machine) :
    (UpdateTimerStart lay m).sh4 = m.sh4 ∧
    TimerInv lay (UpdateTimerStart lay m) ∧
    (UpdateTimerStart lay m).scheduler.log =
      m.scheduler.log ++
        timerStartOps (m.regValue lay.TSTR_OFFSET) (m.tmu_timers 0) 0 (TCNT lay m 0)
          (TCR lay m 0) ++
        timerStartOps (m.regValue lay.TSTR_OFFSET) (m.tmu_timers 1) 1 (TCNT lay m 1)
          (TCR lay m 1) ++
        timerStartOps (m.regValue lay.TSTR_OFFSET) (m.tmu_timers 2) 2 (TCNT lay m 2)
          (TCR lay m 2) := by
  obtain ⟨a1, a2, a3, a4⟩ := updateTimerStartBody_effect lay m 0
  obtain ⟨b1, b2, b3, b4⟩ := updateTimerStartBody_effect lay (updateTimerStartBody lay m 0) 1
  obtain ⟨c1, c2, c3, c4⟩ := updateTimerStartBody_effect lay
    (updateTimerStartBody lay (updateTimerStartBody lay m 0) 1) 2
  have hreg : ∀ (x y : Machine), x.sh4 = y.sh4 → ∀ k,
      TSTR lay x k = TSTR lay y k ∧ TCNT lay x k = TCNT lay y k ∧ TCR lay x k = TCR lay y k ∧
        x.regValue lay.TSTR_OFFSET = y.regValue lay.TSTR_OFFSET := by
    intro x y hxy k
    unfold TSTR TCNT TCR Machine.regValue
    rw [hxy]
    exact ⟨rfl, rfl, rfl, rfl⟩
  rw [updateTimerStart_eq]
  refine ⟨c1.trans (b1.trans a1), ?_, ?_⟩
  · intro n hn
    rw [(hreg _ m (c1.trans (b1.trans a1)) n).1]
    interval_cases n
    · rw [c2 0 (by omega), b2 0 (by omega)]
      exact a3
    · rw [c2 1 (by omega), ← (hreg _ m a1 1).1]
      exact b3
    · rw [← (hreg _ m (b1.trans a1) 2).1]
      exact c3
  · rw [c4, b4, a4]
    obtain ⟨_, x2, x3, x4⟩ := hreg _ m a1 1
    obtain ⟨_, y2, y3, y4⟩ := hreg _ m (b1.trans a1) 2
    rw [x2, x3, x4, y2, y3, y4, a2 1 (by omega), b2 2 (by omega), a2 2 (by omega)]

theorem writeDelegates_tstr (lay : Layout) (hl : lay.WF) (cfg : Config) :
    ∃ d, writeDelegates lay cfg lay.TSTR_OFFSET = some d ∧
      ∀ m old, d m old = some (UpdateTimerStart lay m) := by
  obtain ⟨_, _, _, a0, b0, _, _⟩ := timer_offsets_ne lay hl 0 0 (by omega) (by omega)
  obtain ⟨_, _, _, a1, b1, _, _⟩ := timer_offsets_ne lay hl 1 1 (by omega) (by omega)
  obtain ⟨_, _, _, a2, b2, _, _⟩ := timer_offsets_ne lay hl 2 2 (by omega) (by omega)
  have e0 : TCR_OFFSET lay 0 = lay.TCR0_OFFSET := rfl
  have e1 : TCR_OFFSET lay 1 = lay.TCR1_OFFSET := rfl
  have e2 : TCR_OFFSET lay 2 = lay.TCR2_OFFSET := rfl
  have f0 : TCNT_OFFSET lay 0 = lay.TCNT0_OFFSET := rfl
  have f1 : TCNT_OFFSET lay 1 = lay.TCNT1_OFFSET := rfl
  have f2 : TCNT_OFFSET lay 2 = lay.TCNT2_OFFSET := rfl
  rw [e0] at a0; rw [e1] at a1; rw [e2] at a2
  rw [f0] at b0; rw [f1] at b1; rw [f2] at b2
  unfold writeDelegates
  simp only [a0, a1, a2, b0, b1, b2, if_false, if_true]
  exact ⟨_, rfl, fun _ _ => rfl⟩

theorem delegate_timerInv (lay : Layout) (cfg : Config) (o : Nat)
    (ho : o ≠ lay.TSTR_OFFSET) (d : WriteDelegate) (hd : writeDelegates lay cfg o = some d)
    (m1 m2 : Machine) (v : Nat) (h : d m1 v = some m2)
    (hinv : TimerInv lay m1) : TimerInv lay m2 := by
  unfold writeDelegates at hd
  by_cases c1 : o = lay.TCNT2_OFFSET
  · rw [if_pos c1] at hd
    cases hd
    simp only [Option.some.injEq] at h
    subst h
    exact timerInv_updateTimerCount lay m1 2 hinv
  rw [if_neg c1] at hd
  by_cases c2 : o = lay.TCNT1_OFFSET
  · rw [if_pos c2] at hd
    cases hd
    simp only [Option.some.injEq] at h
    subst h
    exact timerInv_updateTimerCount lay m1 1 hinv
  rw [if_neg c2] at hd
  by_cases c3 : o = lay.TCNT0_OFFSET
  · rw [if_pos c3] at hd
    cases hd
    simp only [Option.some.injEq] at h
    subst h
    exact timerInv_updateTimerCount lay m1 0 hinv
  rw [if_neg c3] at hd
  by_cases c4 : o = lay.TCR2_OFFSET
  · rw [if_pos c4] at hd
    cases hd
    simp only [Option.some.injEq] at h
    subst h
    exact timerInv_updateTimerControl lay m1 2 hinv
  rw [if_neg c4] at hd
  by_cases c5 : o = lay.TCR1_OFFSET
  · rw [if_pos c5] at hd
    cases hd
    simp only [Option.some.injEq] at h
    subst h
    exact timerInv_updateTimerControl lay m1 1 hinv
  rw [if_neg c5] at hd
  by_cases c6 : o = lay.TCR0_OFFSET
  · rw [if_pos c6] at hd
    cases hd
    simp only [Option.some.injEq] at h
    subst h
    exact timerInv_updateTimerControl lay m1 0 hinv
  rw [if_neg c6] at hd
  rw [if_neg ho] at hd
  by_cases c8 : o = lay.IPRC_OFFSET ∨ o = lay.IPRB_OFFSET ∨ o = lay.IPRA_OFFSET
  · rw [if_pos c8] at hd
    cases hd
    simp only [Option.some.injEq] at h
    subst h
    exact timerInv_congr lay m1 _ rfl (by simp only [reprioritize_regs]) hinv
  rw [if_neg c8] at hd
  by_cases c9 : o = lay.DMAOR_OFFSET
  · rw [if_pos c9] at hd
    cases hd
    rw [dmaor_w_eq lay m1 m2 v h]
    exact hinv
  rw [if_neg c9] at hd
  by_cases c10 : o = lay.CHCR3_OFFSET
  · rw [if_pos c10] at hd
    cases hd
    rw [checkDMA_eq lay m1 m2 3 h]
    exact hinv
  rw [if_neg c10] at hd
  by_cases c11 : o = lay.CHCR2_OFFSET
  · rw [if_pos c11] at hd
    cases hd
    rw [checkDMA_eq lay m1 m2 2 h]
    exact hinv
  rw [if_neg c11] at hd
  by_cases c12 : o = lay.CHCR1_OFFSET
  · rw [if_pos c12] at hd
    cases hd
    rw [checkDMA_eq lay m1 m2 1 h]
    exact hinv
  rw [if_neg c12] at hd
  by_cases c13 : o = lay.CHCR0_OFFSET
  · rw [if_pos c13] at hd
    cases hd
    rw [checkDMA_eq lay m1 m2 0 h]
    exact hinv
  rw [if_neg c13] at hd
  by_cases c14 : o = lay.CCR_OFFSET
  · rw [if_pos c14] at hd
    cases hd
    unfold CCR_w at h
    split_ifs at h
    · simp only [Option.some.injEq] at h
      subst h
      exact timerInv_congr lay m1 _ rfl rfl hinv
    · simp only [Option.some.injEq] at h
      subst h
      exact hinv
  rw [if_neg c14] at hd
  by_cases c15 : o = lay.MMUCR_OFFSET
  · rw [if_pos c15] at hd
    cases hd
    unfold MMUCR_w at h
    split_ifs at h
    simp only [Option.some.injEq] at h
    subst h
    exact hinv
  rw [if_neg c15] at hd
  exact absurd hd (by simp)

/-- The effect of `ExpireTimer<n>` on the registers, the interrupt masks, the scheduler and
the handles. -/
theorem expireTimer_effect (lay : Layout) (hl : lay.WF) (m : Machine) (n : Nat)
    (hn : n < 3) :
    TCR lay (ExpireTimer lay m n) n = TCR lay m n ||| 0x100 ∧
    TCNT lay (ExpireTimer lay m n) n = TCOR lay m n ∧
    TCOR lay (ExpireTimer lay m n) n = TCOR lay m n ∧
    (∀ k, k < 3 → k ≠ n →
      TCR lay (ExpireTimer lay m n) k = TCR lay m k ∧
      TCNT lay (ExpireTimer lay m n) k = TCNT lay m k ∧
      TCOR lay (ExpireTimer lay m n) k = TCOR lay m k) ∧
    (∀ o, o ≠ TCR_OFFSET lay n → o ≠ TCNT_OFFSET lay n →
      (ExpireTimer lay m n).sh4.regs o = m.sh4.regs o) ∧
    (TCR lay m n &&& 0x20 ≠ 0 →
      (ExpireTimer lay m n).sh4.requested_interrupts =
        m.sh4.requested_interrupts ||| m.sh4.sort_id (TUNI lay n) ∧
      (ExpireTimer lay m n).sh4.requested_interrupts &&& m.sh4.sort_id (TUNI lay n)
        = m.sh4.sort_id (TUNI lay n)) ∧
    (TCR lay m n &&& 0x20 = 0 →
      (ExpireTimer lay m n).sh4.requested_interrupts = m.sh4.requested_interrupts ∧
      (ExpireTimer lay m n).sh4.pending_interrupts = m.sh4.pending_interrupts) ∧
    (ExpireTimer lay m n).scheduler.log =
      m.scheduler.log ++
        (if m.tmu_timers n ≠ 0 then [SchedulerOp.cancel (m.tmu_timers n)] else []) ++
        [SchedulerOp.schedule n
          (CYCLES_TO_NANO (TCOR lay m n) (timerFreq (TCR lay m n ||| 0x100)))] ∧
    (ExpireTimer lay m n).tmu_timers n ≠ 0 ∧
    (∀ k, k ≠ n → (ExpireTimer lay m n).tmu_timers k = m.tmu_timers k) := by
  obtain ⟨n1, n2, n3, _, _, _, _⟩ := timer_offsets_ne lay hl n n hn hn
  rw [expireTimer_eq lay hl m n hn]
  obtain ⟨r1, _, _, _, _, r6, r7, r8, _⟩ := reschedule_effect
    ((if TCR lay m n &&& 0x20 ≠ 0 then
        ({ m.setRegValue (TCR_OFFSET lay n) (TCR lay m n ||| 0x100) with
          sh4 := RequestInterrupt
            (m.setRegValue (TCR_OFFSET lay n) (TCR lay m n ||| 0x100)).sh4 (TUNI lay n) } :
          Machine)
      else m.setRegValue (TCR_OFFSET lay n) (TCR lay m n ||| 0x100)).setRegValue
        (TCNT_OFFSET lay n) (TCOR lay m n))
    n (TCOR lay m n) (TCR lay m n ||| 0x100)
  have hregs : ∀ o, (RescheduleTimer
      ((if TCR lay m n &&& 0x20 ≠ 0 then
          ({ m.setRegValue (TCR_OFFSET lay n) (TCR lay m n ||| 0x100) with
            sh4 := RequestInterrupt
              (m.setRegValue (TCR_OFFSET lay n) (TCR lay m n ||| 0x100)).sh4 (TUNI lay n) } :
            Machine)
        else m.setRegValue (TCR_OFFSET lay n) (TCR lay m n ||| 0x100)).setRegValue
          (TCNT_OFFSET lay n) (TCOR lay m n))
      n (TCOR lay m n) (TCR lay m n ||| 0x100)).regValue o =
        if o = TCNT_OFFSET lay n then TCOR lay m n
        else if o = TCR_OFFSET lay n then TCR lay m n ||| 0x100 else m.regValue o := by
    intro o
    unfold Machine.regValue
    rw [r1]
    by_cases h : TCR lay m n &&& 0x20 ≠ 0
    · by_cases h1 : o = TCNT_OFFSET lay n <;> by_cases h2 : o = TCR_OFFSET lay n <;>
        simp [h, h1, h2, n1, n1.symm, Machine.setRegValue, arraySet, RequestInterrupt,
          UpdatePendingInterrupts]
    · by_cases h1 : o = TCNT_OFFSET lay n <;> by_cases h2 : o = TCR_OFFSET lay n <;>
        simp [h, h1, h2, n1, n1.symm, Machine.setRegValue, arraySet]
  have htim : ((if TCR lay m n &&& 0x20 ≠ 0 then
        ({ m.setRegValue (TCR_OFFSET lay n) (TCR lay m n ||| 0x100) with
          sh4 := RequestInterrupt
            (m.setRegValue (TCR_OFFSET lay n) (TCR lay m n ||| 0x100)).sh4 (TUNI lay n) } :
          Machine)
      else m.setRegValue (TCR_OFFSET lay n) (TCR lay m n ||| 0x100)).setRegValue
        (TCNT_OFFSET lay n) (TCOR lay m n)).tmu_timers = m.tmu_timers := by
    by_cases h : TCR lay m n &&& 0x20 ≠ 0
    · simp [h, Machine.setRegValue]
    · simp [h, Machine.setRegValue]
  rw [htim] at r7 r8
  refine ⟨?_, ?_, ?_, ?_, ?_, ?_, ?_, ?_, r6, r7⟩
  · exact (hregs _).trans (by simp [n1])
  · exact (hregs _).trans (by simp)
  · exact (hregs _).trans (by simp [n2.symm, n3.symm, TCOR])
  · intro k hk hkn
    obtain ⟨k1, k2, k3, _, _, _, k7⟩ := timer_offsets_ne lay hl k n hk hn
    obtain ⟨j1, j2, j3, _, _, _, _⟩ := timer_offsets_ne lay hl n k hn hk
    obtain ⟨d1, d2, d3⟩ := k7 hkn
    exact ⟨(hregs _).trans (by simp [k1, d1, TCR]),
      (hregs _).trans (by simp [j1.symm, d2, TCNT]),
      (hregs _).trans (by simp [j2.symm, j3.symm, d3, TCOR])⟩
  · intro o h1 h2
    rw [r1]
    by_cases h : TCR lay m n &&& 0x20 ≠ 0
    · simp [h, h1, h2, Machine.setRegValue, arraySet, RequestInterrupt,
        UpdatePendingInterrupts]
    · simp [h, h1, h2, Machine.setRegValue, arraySet]
  · intro h
    rw [r1]
    simp only [h, ne_eq, not_false_eq_true, if_true, Machine.setRegValue, RequestInterrupt,
      UpdatePendingInterrupts]
    exact ⟨trivial, or_and_self _ _⟩
  · intro h
    rw [r1]
    simp only [h, ne_eq, not_true_eq_false, if_false, Machine.setRegValue]
    exact ⟨trivial, trivial⟩
  · rw [r8]
    by_cases h : TCR lay m n &&& 0x20 ≠ 0
    · simp [h, Machine.setRegValue]
    · simp [h, Machine.setRegValue]

theorem timerInv_expire (lay : Layout) (hl : lay.WF) (m : Machine) (n : Nat) (hn : n < 3)
    (hh : m.tmu_timers n ≠ INVALID_TIMER) (hinv : TimerInv lay m) :
    TimerInv lay (ExpireTimer lay m n) := by
  obtain ⟨_, _, _, _, e5, _, _, _, e9, e10⟩ := expireTimer_effect lay hl m n hn
  obtain ⟨_, _, _, a, b, _, _⟩ := timer_offsets_ne lay hl n n hn hn
  intro k hk
  rw [TSTR_congr lay m _ (e5 _ a b) k]
  by_cases hkn : k = n
  · subst hkn
    exact ⟨fun _ => (hinv k hk).mp hh, fun _ => e9⟩
  · rw [e10 k hkn]
    exact hinv k hk

theorem write_timerInv (lay : Layout) (hl : lay.WF) (cfg : Config) (width : Nat)
    (m m2 : Machine) (addr value : Nat)
    (h : WriteRegister lay (writeDelegates lay cfg) width m addr value = some m2)
    (hinv : TimerInv lay m) : TimerInv lay m2 := by
  unfold WriteRegister at h
  simp only at h
  split_ifs at h with hf
  · simp only [Option.some.injEq] at h
    subst h
    exact hinv
  · by_cases ho : lay.SH4_REG_OFFSET addr = lay.TSTR_OFFSET
    · obtain ⟨d, hd, hd2⟩ := writeDelegates_tstr lay hl cfg
      rw [ho, hd] at h
      simp only [hd2, Option.some.injEq] at h
      subst h
      exact (updateTimerStart_effect lay _).2.1
    · have h1 : TimerInv lay (m.setRegValue (lay.SH4_REG_OFFSET addr) (value % 2 ^ width)) :=
        timerInv_congr lay m _ rfl
          (regs_setRegValue_ne m _ _ _ (fun e => ho e.symm)) hinv
      cases hd : writeDelegates lay cfg (lay.SH4_REG_OFFSET addr) with
      | none =>
        rw [hd] at h
        simp only [Option.some.injEq] at h
        subst h
        exact h1
      | some d =>
        rw [hd] at h
        exact delegate_timerInv lay cfg _ ho d hd _ m2 _ h h1

theorem timerReachable_inv (lay : Layout) (hl : lay.WF) (cfg : Config) (m : Machine)
    (h : TimerReachable lay cfg m) : TimerInv lay m := by
  induction h with
  | init m h0 ht =>
    intro n hn
    have : TSTR lay m n = 0 := by
      unfold TSTR
      rw [ht]
      exact Nat.zero_and _
    rw [this, h0 n hn]
    simp
  | write m m2 width addr value _ hw ih => exact write_timerInv lay hl cfg width m m2 addr value hw ih
  | expire m n _ hn hh ih => exact timerInv_expire lay hl m n hn hh ih

theorem write_tstr (lay : Layout) (hl : lay.WF) (cfg : Config) (width : Nat) (m : Machine)
    (addr value : Nat) (ha : lay.SH4_REG_OFFSET addr = lay.TSTR_OFFSET)
    (hw : (m.sh4.regs lay.TSTR_OFFSET).flags &&& lay.W ≠ 0) :
    WriteRegister lay (writeDelegates lay cfg) width m addr value =
      some (UpdateTimerStart lay (m.setRegValue lay.TSTR_OFFSET (value % 2 ^ width))) := by
  obtain ⟨d, hd, hd2⟩ := writeDelegates_tstr lay hl cfg
  unfold WriteRegister
  simp only
  rw [ha, if_neg hw, hd]
  exact hd2 _ _

theorem timer_regs_setTSTR (lay : Layout) (hl : lay.WF) (m : Machine) (v n : Nat) (hn : n < 3) :
    TCNT lay (m.setRegValue lay.TSTR_OFFSET v) n = TCNT lay m n ∧
    TCR lay (m.setRegValue lay.TSTR_OFFSET v) n = TCR lay m n := by
  obtain ⟨_, _, _, a, b, _, _⟩ := timer_offsets_ne lay hl n n hn hn
  unfold TCNT TCR
  exact ⟨regValue_setRegValue_ne m _ _ v (fun e => b e.symm),
    regValue_setRegValue_ne m _ _ v (fun e => a e.symm)⟩

theorem timerFreq_eq (tcr : Nat) :
    timerFreq tcr = 50000000 >>> [2, 4, 6, 8, 10, 0, 0, 0].getD (tcr &&& 7) 0 := rfl

theorem timerFreq_cases (tcr : Nat) (h : tcr &&& 7 ≤ 4) :
    timerFreq tcr = 50000000 >>> [2, 4, 6, 8, 10].getD (tcr &&& 7) 0 ∧
    (timerFreq tcr = 12500000 ∨ timerFreq tcr = 3125000 ∨ timerFreq tcr = 781250 ∨
      timerFreq tcr = 195312 ∨ timerFreq tcr = 48828) := by
  unfold timerFreq
  generalize tcr &&& 7 = c at h
  interval_cases c <;> decide

theorem roundtrip_arith (f : Nat) (v : Nat)
    (hf : f = 12500000 ∨ f = 3125000 ∨ f = 781250 ∨ f = 195312 ∨ f = 48828) :
    ∃ k : Nat, NANO_TO_CYCLES (CYCLES_TO_NANO v f) f = k ∧ v ≤ k + 1 ∧ k ≤ v := by
  have h : (0 : Int) ≤ NANO_TO_CYCLES (CYCLES_TO_NANO v f) f ∧
      (v : Int) - 1 ≤ NANO_TO_CYCLES (CYCLES_TO_NANO v f) f ∧
      NANO_TO_CYCLES (CYCLES_TO_NANO v f) f ≤ v := by
    unfold NANO_TO_CYCLES CYCLES_TO_NANO NS_PER_SEC
    rcases hf with h | h | h | h | h <;> subst h <;> simp only [Nat.cast_ofNat] <;> omega
  obtain ⟨k, hk⟩ := Int.eq_ofNat_of_zero_le h.1
  refine ⟨k, hk, ?_, ?_⟩
  · have := h.2.1
    omega
  · have := h.2.2
    omega

theorem readDelegates_tcnt (lay : Layout) (hl : lay.WF) (n : Nat) (hn : n < 3) :
    ∃ d, readDelegates lay (TCNT_OFFSET lay n) = some d ∧ ∀ m, d m = TimerCount lay m n := by
  obtain ⟨_, _, _, _, _, _, a01⟩ := timer_offsets_ne lay hl 0 1 (by omega) (by omega)
  obtain ⟨_, _, _, _, _, _, a02⟩ := timer_offsets_ne lay hl 0 2 (by omega) (by omega)
  obtain ⟨_, _, _, _, _, _, a12⟩ := timer_offsets_ne lay hl 1 2 (by omega) (by omega)
  have b01 := (a01 (by omega)).2.1
  have b02 := (a02 (by omega)).2.1
  have b12 := (a12 (by omega)).2.1
  have f0 : TCNT_OFFSET lay 0 = lay.TCNT0_OFFSET := rfl
  have f1 : TCNT_OFFSET lay 1 = lay.TCNT1_OFFSET := rfl
  have f2 : TCNT_OFFSET lay 2 = lay.TCNT2_OFFSET := rfl
  rw [f0, f1] at b01
  rw [f0, f2] at b02
  rw [f1, f2] at b12
  unfold readDelegates
  interval_cases n
  · rw [f0, if_neg b02, if_neg b01, if_pos rfl]
    exact ⟨_, rfl, fun _ => rfl⟩
  · rw [f1, if_neg b12, if_pos rfl]
    exact ⟨_, rfl, fun _ => rfl⟩
  · rw [f2, if_pos rfl]
    exact ⟨_, rfl, fun _ => rfl⟩

theorem writeDelegates_tcnt (lay : Layout) (hl : lay.WF) (cfg : Config) (n : Nat)
    (hn : n < 3) :
    ∃ d, writeDelegates lay cfg (TCNT_OFFSET lay n) = some d ∧
      ∀ m old, d m old = some (UpdateTimerCount lay m n) := by
  obtain ⟨_, _, _, _, _, _, a01⟩ := timer_offsets_ne lay hl 0 1 (by omega) (by omega)
  obtain ⟨_, _, _, _, _, _, a02⟩ := timer_offsets_ne lay hl 0 2 (by omega) (by omega)
  obtain ⟨_, _, _, _, _, _, a12⟩ := timer_offsets_ne lay hl 1 2 (by omega) (by omega)
  have b01 := (a01 (by omega)).2.1
  have b02 := (a02 (by omega)).2.1
  have b12 := (a12 (by omega)).2.1
  have f0 : TCNT_OFFSET lay 0 = lay.TCNT0_OFFSET := rfl
  have f1 : TCNT_OFFSET lay 1 = lay.TCNT1_OFFSET := rfl
  have f2 : TCNT_OFFSET lay 2 = lay.TCNT2_OFFSET := rfl
  rw [f0, f1] at b01
  rw [f0, f2] at b02
  rw [f1, f2] at b12
  unfold writeDelegates
  interval_cases n
  · rw [f0, if_neg b02, if_neg b01, if_pos rfl]
    exact ⟨_, rfl, fun _ _ => rfl⟩
  · rw [f1, if_neg b12, if_pos rfl]
    exact ⟨_, rfl, fun _ _ => rfl⟩
  · rw [f2, if_pos rfl]
    exact ⟨_, rfl, fun _ _ => rfl⟩

/-- A write of `v` to `TCNT_n` of a started timer, and the read of `TCNT_n` after it. -/
theorem timerCount_after_write (lay : Layout) (hl : lay.WF) (m : Machine) (n v : Nat)
    (hn : n < 3) (hs : TSTR lay m n ≠ 0) :
    (UpdateTimerCount lay (m.setRegValue (TCNT_OFFSET lay n) v) n).scheduler.RemainingTime
        ((UpdateTimerCount lay (m.setRegValue (TCNT_OFFSET lay n) v) n).tmu_timers n)
      = CYCLES_TO_NANO v (timerFreq (TCR lay m n)) ∧
    TimerCount lay (UpdateTimerCount lay (m.setRegValue (TCNT_OFFSET lay n) v) n) n
      = (NANO_TO_CYCLES (CYCLES_TO_NANO v (timerFreq (TCR lay m n))) (timerFreq (TCR lay m n))
          % 2 ^ 32).toNat := by
  obtain ⟨n1, _, _, _, n5, _, _⟩ := timer_offsets_ne lay hl n n hn hn
  have h1 : TSTR lay (m.setRegValue (TCNT_OFFSET lay n) v) n = TSTR lay m n :=
    TSTR_congr lay m _ (regs_setRegValue_ne m _ _ v n5) n
  have h2 : TCNT lay (m.setRegValue (TCNT_OFFSET lay n) v) n = v :=
    regValue_setRegValue_same m _ v
  have h3 : TCR lay (m.setRegValue (TCNT_OFFSET lay n) v) n = TCR lay m n :=
    regValue_setRegValue_ne m _ _ v n1
  have hu : UpdateTimerCount lay (m.setRegValue (TCNT_OFFSET lay n) v) n
      = RescheduleTimer (m.setRegValue (TCNT_OFFSET lay n) v) n v (TCR lay m n) := by
    unfold UpdateTimerCount
    rw [h1, if_pos hs, h2, h3]
  obtain ⟨r1, _, _, _, _, _, _, _, r9⟩ :=
    reschedule_effect (m.setRegValue (TCNT_OFFSET lay n) v) n v (TCR lay m n)
  rw [hu]
  refine ⟨r9, ?_⟩
  have h4 : TSTR lay (RescheduleTimer (m.setRegValue (TCNT_OFFSET lay n) v) n v (TCR lay m n)) n
      = TSTR lay m n := by
    rw [TSTR_congr lay (m.setRegValue (TCNT_OFFSET lay n) v) _ (by rw [r1]) n, h1]
  have h5 : TCR lay (RescheduleTimer (m.setRegValue (TCNT_OFFSET lay n) v) n v (TCR lay m n)) n
      = TCR lay m n := by
    exact (congrArg (fun s => (s.regs (TCR_OFFSET lay n)).value) r1).trans h3
  unfold TimerCount
  rw [h4, if_neg hs]
  simp only
  rw [h5, r9]

theorem r16_w16 (mem : Memory) (a v : Nat) (hv : v < 2 ^ 16) :
    (mem.W16 a v).R16 a = v := by
  have h1 : a ≠ (a + 1) % 2 ^ 32 := by omega
  unfold Memory.W16 Memory.R16 arraySet
  simp only [if_neg h1, if_true]
  omega

theorem r16_lt (mem : Memory) (a : Nat) : mem.R16 a < 2 ^ 16 := by
  unfold Memory.R16
  omega

theorem w16_w16_bytes (mem : Memory) (a v : Nat) (b : Nat) :
    ((mem.W16 a v).W16 a (mem.R16 a)).bytes b =
      if b = a ∨ b = (a + 1) % 2 ^ 32 then mem.bytes b % 256 else mem.bytes b := by
  have h1 : a ≠ (a + 1) % 2 ^ 32 := by omega
  unfold Memory.W16 Memory.R16 arraySet
  simp only
  by_cases hb1 : b = (a + 1) % 2 ^ 32
  · subst hb1
    simp only [if_true, or_true]
    omega
  · by_cases hb0 : b = a
    · subst hb0
      simp only [if_neg hb1, if_true, true_or]
      omega
    · simp only [if_neg hb1, if_neg hb0]
      rw [if_neg (by tauto)]

theorem runLoop_blocks (cfg : Config) (run : Machine → Machine × Nat) (fuel : Nat)
    (m : Machine) (blocks : Nat) (r : Machine × Nat)
    (h : runLoop cfg run fuel m blocks = some r) : blocks ≤ r.2 := by
  induction fuel generalizing m blocks with
  | zero =>
    unfold runLoop at h
    split_ifs at h
    simp only [Option.some.injEq] at h
    subst h
    exact Nat.le_refl _
  | succ k ih =>
    unfold runLoop at h
    split_ifs at h
    · have := ih _ _ h
      omega
    · simp only [Option.some.injEq] at h
      subst h
      exact Nat.le_refl _

theorem shiftRight_and (a b i : Nat) : (a &&& b) >>> i = (a >>> i) &&& (b >>> i) := by
  apply Nat.eq_of_testBit_eq
  intro j
  simp only [Nat.testBit_shiftRight, Nat.testBit_and]

theorem sq_index (a : Nat) :
    (a &&& 0x20) >>> 5 = (a >>> 5) &&& 1 ∧ (a &&& 0x1c) >>> 2 = (a >>> 2) &&& 7 := by
  constructor
  · rw [shiftRight_and]
    rfl
  · rw [shiftRight_and]
    rfl

theorem sq_index_congr (a a2 : Nat) (h : a2 &&& 0x3c = a &&& 0x3c) :
    (a2 &&& 0x20) >>> 5 = (a &&& 0x20) >>> 5 ∧ (a2 &&& 0x1c) >>> 2 = (a &&& 0x1c) >>> 2 := by
  have h1 : ∀ x : Nat, x &&& 0x20 = (x &&& 0x3c) &&& 0x20 := by
    intro x
    rw [Nat.and_assoc]
    rfl
  have h2 : ∀ x : Nat, x &&& 0x1c = (x &&& 0x3c) &&& 0x1c := by
    intro x
    rw [Nat.and_assoc]
    rfl
  rw [h1 a2, h1 a, h2 a2, h2 a, h]
  exact ⟨rfl, rfl⟩

theorem writeSQ_sq (width : Nat) (m : Machine) (a v i j : Nat) :
    (WriteSQ width m a v).sh4.ctx.sq i j =
      if i = (a &&& 0x20) >>> 5 ∧ j = (a &&& 0x1c) >>> 2 then v % 2 ^ width % 2 ^ 32
      else m.sh4.ctx.sq i j := by
  unfold WriteSQ arraySet
  simp only
  by_cases hi : i = (a &&& 0x20) >>> 5
  · by_cases hj : j = (a &&& 0x1c) >>> 2
    · simp only [hi, hj, if_true, and_self]
    · rw [if_pos hi, if_neg hj, if_neg (fun h => hj h.2), hi]
  · rw [if_neg hi, if_neg (fun h => hi h.1)]

theorem cache_bank (addr OIX : Nat) :
    (if OIX ≠ 0 then (addr &&& 0x2000000) >>> 13 else (addr &&& 0x2000) >>> 1) = 0 ∨
    (if OIX ≠ 0 then (addr &&& 0x2000000) >>> 13 else (addr &&& 0x2000) >>> 1) = 2 ^ 12 * 1 := by
  have h25 : addr &&& 0x2000000 = addr &&& 2 ^ 25 := rfl
  have h13 : addr &&& 0x2000 = addr &&& 2 ^ 13 := rfl
  rw [h25, h13, Nat.and_two_pow, Nat.and_two_pow]
  split_ifs
  · cases addr.testBit 25
    · left
      rfl
    · right
      rfl
  · cases addr.testBit 13
    · left
      rfl
    · right
      rfl

theorem cache_offset_eq (addr OIX : Nat) :
    CACHE_OFFSET addr OIX = addr % 4096 ∨ CACHE_OFFSET addr OIX = 4096 + addr % 4096 := by
  have hlow : addr &&& 0xfff = addr % 2 ^ 12 := Nat.and_pow_two_sub_one_eq_mod addr 12
  have hlt : addr % 2 ^ 12 < 2 ^ 12 := Nat.mod_lt _ (by norm_num)
  unfold CACHE_OFFSET
  rw [hlow]
  rcases cache_bank addr OIX with h | h
  · left
    rw [h, Nat.zero_or]
    norm_num
  · right
    rw [h, ← Nat.mul_add_lt_is_or hlt 1]
    norm_num

theorem nibble_or (old k w : Nat) (h0 : old &&& 0xf = 0) (hk : k < 16) (hw : 4 ≤ w) :
    ((old ||| k) % 2 ^ w) &&& 0xf = k := by
  have e : ∀ x : Nat, x &&& 0xf = x % 2 ^ 4 := fun x => Nat.and_pow_two_sub_one_eq_mod x 4
  have hk2 : k &&& 0xf = k := by
    rw [e]
    exact Nat.mod_eq_of_lt hk
  rw [e, Nat.mod_mod_of_dvd _ (pow_dvd_pow 2 hw), ← e, Nat.and_comm, Nat.and_or_distrib_left,
    Nat.and_comm, h0, Nat.and_comm, hk2, Nat.zero_or]

theorem small_mod (k w : Nat) (hk : k < 16) (hw : 4 ≤ w) : k % 2 ^ w = k :=
  Nat.mod_eq_of_lt (lt_of_lt_of_le hk (Nat.pow_le_pow_right (by norm_num) hw : 2 ^ 4 ≤ 2 ^ w))

theorem writeDelegates_none (lay : Layout) (hl : lay.WF) (cfg : Config) (i : Nat)
    (hi : i < 4) : writeDelegates lay cfg (lay.offsets.getD i 0) = none := by
  have hne : ∀ j, j < 36 → 4 ≤ j → lay.offsets.getD i 0 ≠ lay.offsets.getD j 0 :=
    fun j hj h4 => layout_offsets_ne lay hl i j (by omega) hj (by omega)
  have c1 : lay.offsets.getD i 0 ≠ lay.TCNT2_OFFSET := hne 32 (by omega) (by omega)
  have c2 : lay.offsets.getD i 0 ≠ lay.TCNT1_OFFSET := hne 31 (by omega) (by omega)
  have c3 : lay.offsets.getD i 0 ≠ lay.TCNT0_OFFSET := hne 30 (by omega) (by omega)
  have c4 : lay.offsets.getD i 0 ≠ lay.TCR2_OFFSET := hne 35 (by omega) (by omega)
  have c5 : lay.offsets.getD i 0 ≠ lay.TCR1_OFFSET := hne 34 (by omega) (by omega)
  have c6 : lay.offsets.getD i 0 ≠ lay.TCR0_OFFSET := hne 33 (by omega) (by omega)
  have c7 : lay.offsets.getD i 0 ≠ lay.TSTR_OFFSET := hne 26 (by omega) (by omega)
  have c8 : ¬ (lay.offsets.getD i 0 = lay.IPRC_OFFSET ∨ lay.offsets.getD i 0 = lay.IPRB_OFFSET ∨
      lay.offsets.getD i 0 = lay.IPRA_OFFSET) := by
    have a1 : lay.offsets.getD i 0 ≠ lay.IPRC_OFFSET := hne 9 (by omega) (by omega)
    have a2 : lay.offsets.getD i 0 ≠ lay.IPRB_OFFSET := hne 8 (by omega) (by omega)
    have a3 : lay.offsets.getD i 0 ≠ lay.IPRA_OFFSET := hne 7 (by omega) (by omega)
    tauto
  have c9 : lay.offsets.getD i 0 ≠ lay.DMAOR_OFFSET := hne 6 (by omega) (by omega)
  have c10 : lay.offsets.getD i 0 ≠ lay.CHCR3_OFFSET := hne 25 (by omega) (by omega)
  have c11 : lay.offsets.getD i 0 ≠ lay.CHCR2_OFFSET := hne 24 (by omega) (by omega)
  have c12 : lay.offsets.getD i 0 ≠ lay.CHCR1_OFFSET := hne 23 (by omega) (by omega)
  have c13 : lay.offsets.getD i 0 ≠ lay.CHCR0_OFFSET := hne 22 (by omega) (by omega)
  have c14 : lay.offsets.getD i 0 ≠ lay.CCR_OFFSET := hne 5 (by omega) (by omega)
  have c15 : lay.offsets.getD i 0 ≠ lay.MMUCR_OFFSET := hne 4 (by omega) (by omega)
  unfold writeDelegates
  rw [if_neg c1, if_neg c2, if_neg c3, if_neg c4, if_neg c5, if_neg c6, if_neg c7, if_neg c8,
    if_neg c9, if_neg c10, if_neg c11, if_neg c12, if_neg c13, if_neg c14, if_neg c15]

theorem write_plain (lay : Layout) (hl : lay.WF) (cfg : Config) (width : Nat) (m : Machine)
    (i addr v : Nat) (hi : i < 4) (ha : lay.SH4_REG_OFFSET addr = lay.offsets.getD i 0)
    (hw : (m.sh4.regs (lay.offsets.getD i 0)).flags &&& lay.W ≠ 0) :
    WriteRegister lay (writeDelegates lay cfg) width m addr v =
      some (m.setRegValue (lay.offsets.getD i 0) (v % 2 ^ width)) := by
  unfold WriteRegister
  simp only
  rw [ha, if_neg hw, writeDelegates_none lay hl cfg i hi]

theorem read_pdtra (lay : Layout) (hl : lay.WF) (width : Nat) (m : Machine) (addr : Nat)
    (hoff : lay.SH4_REG_OFFSET addr = lay.PDTRA_OFFSET)
    (hr : (m.sh4.regs lay.PDTRA_OFFSET).flags &&& lay.R ≠ 0) :
    ReadRegister lay (readDelegates lay) width m addr = PDTRA_r lay m % 2 ^ width := by
  have h0 : lay.PDTRA_OFFSET ≠ lay.TCNT0_OFFSET := layout_offsets_ne lay hl 1 30
    (by omega) (by omega) (by omega)
  have h1 : lay.PDTRA_OFFSET ≠ lay.TCNT1_OFFSET := layout_offsets_ne lay hl 1 31
    (by omega) (by omega) (by omega)
  have h2 : lay.PDTRA_OFFSET ≠ lay.TCNT2_OFFSET := layout_offsets_ne lay hl 1 32
    (by omega) (by omega) (by omega)
  unfold ReadRegister readDelegates
  simp only [hoff, hr, h0, h1, h2, if_false, if_true]

theorem pdtra_r_le (lay : Layout) (m : Machine) : PDTRA_r lay m ≤ 3 := by
  unfold PDTRA_r
  simp only
  split_ifs <;> omega

/-- One write of the probe to `PCTRA` or `PDTRA` (`i = 0` or `i = 1`): the value is stored,
the other register and the flags of both stay. -/
theorem probe_write (lay : Layout) (hl : lay.WF) (cfg : Config) (width : Nat) (m : Machine)
    (i addr v : Nat) (hi : i < 2) (ha : lay.SH4_REG_OFFSET addr = lay.offsets.getD i 0)
    (hw : (m.sh4.regs (lay.offsets.getD i 0)).flags &&& lay.W ≠ 0) :
    ∃ m2, WriteRegister lay (writeDelegates lay cfg) width m addr v = some m2 ∧
      m2.regValue (lay.offsets.getD i 0) = v % 2 ^ width ∧
      (∀ j, j < 2 → j ≠ i →
        m2.regValue (lay.offsets.getD j 0) = m.regValue (lay.offsets.getD j 0)) ∧
      ∀ o, (m2.sh4.regs o).flags = (m.sh4.regs o).flags := by
  refine ⟨_, write_plain lay hl cfg width m i addr v (by omega) ha hw, ?_, ?_, ?_⟩
  · exact regValue_setRegValue_same m _ _
  · intro j hj hji
    exact regValue_setRegValue_ne m _ _ _
      (layout_offsets_ne lay hl j i (by omega) (by omega) hji)
  · intro o
    exact flags_setRegValue m _ o _

/-- The value a probe reads, from the low nibbles of the stored `PCTRA` and `PDTRA`. -/
theorem probe_read (lay : Layout) (hl : lay.WF) (width : Nat) (hw : 4 ≤ width) (m : Machine)
    (addr : Nat) (hoff : lay.SH4_REG_OFFSET addr = lay.PDTRA_OFFSET)
    (hr : (m.sh4.regs lay.PDTRA_OFFSET).flags &&& lay.R ≠ 0) :
    (m.regValue lay.PCTRA_OFFSET &&& 0xf = 0x8 →
      ReadRegister lay (readDelegates lay) width m addr = 3) ∧
    (m.regValue lay.PCTRA_OFFSET &&& 0xf = 0xb →
      (m.regValue lay.PDTRA_OFFSET &&& 0xf ≠ 0x2 →
        ReadRegister lay (readDelegates lay) width m addr = 3) ∧
      (m.regValue lay.PDTRA_OFFSET &&& 0xf = 0x2 →
        ReadRegister lay (readDelegates lay) width m addr = 0)) ∧
    (m.regValue lay.PCTRA_OFFSET &&& 0xf = 0xc →
      (m.regValue lay.PDTRA_OFFSET &&& 0xf = 0x2 →
        ReadRegister lay (readDelegates lay) width m addr = 3) ∧
      (m.regValue lay.PDTRA_OFFSET &&& 0xf ≠ 0x2 →
        ReadRegister lay (readDelegates lay) width m addr = 0)) := by
  have h3 : 3 % 2 ^ width = 3 := small_mod 3 width (by norm_num) hw
  rw [read_pdtra lay hl width m addr hoff hr]
  unfold PDTRA_r
  simp only
  refine ⟨?_, ?_, ?_⟩
  · intro h
    rw [if_pos (Or.inl h), h3]
  · intro h
    constructor
    · intro h2
      rw [if_pos (Or.inr (Or.inl ⟨h, h2⟩)), h3]
    · intro h2
      rw [if_neg (by rw [h, h2]; decide)]
      rfl
  · intro h
    constructor
    · intro h2
      rw [if_pos (Or.inr (Or.inr ⟨h, h2⟩)), h3]
    · intro h2
      rw [if_neg (by rw [h]; simp [h2])]
      rfl

/-! ## The claims -/

/-- C1: in every state reachable from `Init` through `ReprioritizeInterrupts` (IPR writes),
`RequestInterrupt` and `UnrequestInterrupt` (and SR writes, delivery and ordinary
execution), `sort_id` and `sorted_interrupts` are mutual inverses: every kind `j` has
`sort_id[j] = 1 << n` for an index `n < NUM_INTERRUPTS` with `sorted_interrupts[n] = j`,
every index `n < NUM_INTERRUPTS` has `sort_id[sorted_interrupts[n]] = 1 << n`, and no kind
is listed at two indices.  The interrupt table is assumed well formed. -/
theorem sort_arrays_mutual_inverses (cfg : Config) (hwf : cfg.WF) (s : SH4State)
    (h : Reachable cfg s) :
    (∀ j, j < cfg.NUM_INTERRUPTS →
      ∃ n, n < cfg.NUM_INTERRUPTS ∧ s.sort_id j = 1 <<< n ∧ s.sorted_interrupts n = j) ∧
    (∀ n, n < cfg.NUM_INTERRUPTS →
      s.sorted_interrupts n < cfg.NUM_INTERRUPTS ∧
        s.sort_id (s.sorted_interrupts n) = 1 <<< n) ∧
    (∀ n m, n < cfg.NUM_INTERRUPTS → m < cfg.NUM_INTERRUPTS →
      s.sorted_interrupts n = s.sorted_interrupts m → n = m) := by
  have hs := sortInv_of_sorted cfg s (canonical_of_reachable cfg hwf s h).sorted
  exact ⟨hs.1, hs.2, fun n m hn hm he => sortInv_sorted_inj cfg s hs n m hn hm he⟩

theorem sort_arrays_mutual_inverses_witness :
    SortInv exampleConfig examplePending ∧
    (∀ n m, n < exampleConfig.NUM_INTERRUPTS → m < exampleConfig.NUM_INTERRUPTS →
      examplePending.sorted_interrupts n = examplePending.sorted_interrupts m → n = m) :=
  ⟨⟨(sort_arrays_mutual_inverses exampleConfig exampleConfig_wf examplePending
      examplePending_reachable).1,
    (sort_arrays_mutual_inverses exampleConfig exampleConfig_wf examplePending
      examplePending_reachable).2.1⟩,
   (sort_arrays_mutual_inverses exampleConfig exampleConfig_wf examplePending
      examplePending_reachable).2.2⟩

/-- C2: after `ReprioritizeInterrupts`, for every threshold `i` in 0..15, `priority_mask[i]`
contains exactly the bits `sort_id[k]` of the kinds `k` whose current priority is `≤ i`, and
its number of set bits is the number of such kinds.  The current priority of a kind is
written out: the nibble `((IPR & 0xffff) >> ipr_shift) & 0xf` of its IPR register when the
kind has one, otherwise its default priority.  The interrupt table is assumed well
formed. -/
theorem priority_mask_exact (cfg : Config) (hwf : cfg.WF) (s : SH4State) (i : Nat)
    (hi : i < 16) :
    (∀ b, ((ReprioritizeInterrupts cfg s).priority_mask i).testBit b = true ↔
      ∃ k, k < cfg.NUM_INTERRUPTS ∧
        (if (cfg.intInfo k).ipr ≠ 0 then
            ((((ReprioritizeInterrupts cfg s).regs (cfg.intInfo k).ipr).value &&& 0xffff) >>> (cfg.intInfo k).ipr_shift)
              &&& 0xf
          else (cfg.intInfo k).default_priority) ≤ i ∧
        (ReprioritizeInterrupts cfg s).sort_id k = 1 <<< b) ∧
    popcount64 ((ReprioritizeInterrupts cfg s).priority_mask i) =
      (List.range cfg.NUM_INTERRUPTS).countP
        (fun k => decide
          ((if (cfg.intInfo k).ipr ≠ 0 then
              ((((ReprioritizeInterrupts cfg s).regs (cfg.intInfo k).ipr).value &&& 0xffff) >>> (cfg.intInfo k).ipr_shift)
                &&& 0xf
            else (cfg.intInfo k).default_priority) ≤ i)) := by
  have hs := (canonical_reprioritize cfg hwf s).sorted
  have key : (∀ b, ((ReprioritizeInterrupts cfg s).priority_mask i).testBit b = true ↔
      ∃ k, k < cfg.NUM_INTERRUPTS ∧
        currentPriority cfg (ReprioritizeInterrupts cfg s).regs k ≤ i ∧
        (ReprioritizeInterrupts cfg s).sort_id k = 1 <<< b) ∧
    popcount64 ((ReprioritizeInterrupts cfg s).priority_mask i) =
      (List.range cfg.NUM_INTERRUPTS).countP
        (fun k => decide (currentPriority cfg (ReprioritizeInterrupts cfg s).regs k ≤ i)) := by
    refine ⟨fun b => mask_bits_of_sorted cfg _ hs i hi b, ?_⟩
    rw [hs.mask i hi, popcount64_two_pow_sub_one]
    · rfl
    · have := countLE_le_num cfg (ReprioritizeInterrupts cfg s).regs i
      have := hwf.1
      omega
  exact key

/-- The small instance after the write of `0xf000` to the IPR register, re-sorted: kind 2
has priority 15 and kind 3 priority 0 from the IPR nibbles, so `priority_mask[6]` holds the
two bits of the kinds 3 and 1. -/
theorem priority_mask_exact_witness :
    popcount64 ((ReprioritizeInterrupts exampleConfig examplePending).priority_mask 6) = 2 ∧
    ((ReprioritizeInterrupts exampleConfig examplePending).priority_mask 6).testBit 1 = true ∧
    (ReprioritizeInterrupts exampleConfig examplePending).sort_id 1 = 1 <<< 1 :=
  ⟨(priority_mask_exact exampleConfig exampleConfig_wf examplePending 6 (by decide)).2.trans
      (by decide),
   ((priority_mask_exact exampleConfig exampleConfig_wf examplePending 6 (by decide)).1 1).mpr
      ⟨1, by decide, by decide, by decide⟩,
   by decide⟩

/-- C3: in every state reachable from `Init` through `RequestInterrupt`,
`UnrequestInterrupt`, IPR writes followed by `ReprioritizeInterrupts`, SR writes followed by
`SRUpdated` with the old SR, and `CheckPendingInterrupts`: for every kind `k`, the bit
`sort_id[k]` is set in `pending` exactly when it is set in `requested`, `SR.BL` is clear and
the current priority of `k` is greater than `(SR & 0xf0) >> 4`.  Hence `pending` is a subset of
`requested`, and `pending = 0` whenever `SR.BL` is set.  The current priority of a kind is
written out: the nibble `((IPR & 0xffff) >> ipr_shift) & 0xf` of its IPR register when the
kind has one, otherwise its default priority.  The interrupt table is assumed well
formed. -/
theorem pending_characterised (cfg : Config) (hwf : cfg.WF) (s : SH4State)
    (h : Reachable cfg s) :
    (∀ k, k < cfg.NUM_INTERRUPTS →
      (s.pending_interrupts &&& s.sort_id k ≠ 0 ↔
        (s.requested_interrupts &&& s.sort_id k ≠ 0 ∧ s.ctx.sr &&& BL = 0 ∧
          (s.ctx.sr &&& 0xf0) >>> 4 <
            (if (cfg.intInfo k).ipr ≠ 0 then
                (((s.regs (cfg.intInfo k).ipr).value &&& 0xffff) >>> (cfg.intInfo k).ipr_shift)
                  &&& 0xf
              else (cfg.intInfo k).default_priority)))) ∧
    s.pending_interrupts &&& s.requested_interrupts = s.pending_interrupts ∧
    (s.ctx.sr &&& BL ≠ 0 → s.pending_interrupts = 0) := by
  have hc := canonical_of_reachable cfg hwf s h
  have key : ∀ k, k < cfg.NUM_INTERRUPTS →
      (s.pending_interrupts &&& s.sort_id k ≠ 0 ↔
        (s.requested_interrupts &&& s.sort_id k ≠ 0 ∧ s.ctx.sr &&& BL = 0 ∧
          (s.ctx.sr &&& 0xf0) >>> 4 < currentPriority cfg s.regs k)) :=
    fun k hk => pending_bit_of_canonical cfg hwf s hc k hk
  exact ⟨key, pending_subset_requested s hc.pend, canonical_pending_BL cfg s hc⟩

theorem pending_characterised_witness :
    (examplePending.pending_interrupts &&& examplePending.sort_id 2 ≠ 0 ↔
      (examplePending.requested_interrupts &&& examplePending.sort_id 2 ≠ 0 ∧
        examplePending.ctx.sr &&& BL = 0 ∧
        (examplePending.ctx.sr &&& 0xf0) >>> 4 <
          (if (exampleConfig.intInfo 2).ipr ≠ 0 then
              (((examplePending.regs (exampleConfig.intInfo 2).ipr).value &&& 0xffff) >>> (exampleConfig.intInfo 2).ipr_shift)
                &&& 0xf
            else (exampleConfig.intInfo 2).default_priority))) :=
  (pending_characterised exampleConfig exampleConfig_wf examplePending
    examplePending_reachable).1 2 (by decide)

/-- C4: `ReprioritizeInterrupts` preserves the set of requested kinds: kind `k` has its new
`sort_id[k]` bit set in `requested` after the call exactly when its old `sort_id[k]` bit was
set before; and, from a state satisfying the sort invariant whose `requested` holds only
bits of kinds, the number of set bits of `requested` is unchanged.  The interrupt table is
assumed well formed. -/
theorem reprioritize_preserves_requested (cfg : Config) (hwf : cfg.WF) (s : SH4State)
    (hs : SortInv cfg s) (hr : s.requested_interrupts < 2 ^ cfg.NUM_INTERRUPTS) :
    (∀ k, k < cfg.NUM_INTERRUPTS →
      ((ReprioritizeInterrupts cfg s).requested_interrupts &&&
          (ReprioritizeInterrupts cfg s).sort_id k ≠ 0 ↔
        s.requested_interrupts &&& s.sort_id k ≠ 0)) ∧
    popcount64 (ReprioritizeInterrupts cfg s).requested_interrupts
      = popcount64 s.requested_interrupts := by
  obtain ⟨h1, hregs, _, h4, _⟩ := reprioritize_spec cfg hwf s
  have hc := canonical_reprioritize cfg hwf s
  have hiff : ∀ k, k < cfg.NUM_INTERRUPTS →
      ((ReprioritizeInterrupts cfg s).requested_interrupts &&&
          (ReprioritizeInterrupts cfg s).sort_id k ≠ 0 ↔
        s.requested_interrupts &&& s.sort_id k ≠ 0) := by
    intro k hk
    rw [h1.sort_id k hk, and_two_pow_ne_zero, h4, hregs]
    constructor
    · rintro ⟨j, hj, hrk, hreq⟩
      rw [rank_inj cfg s.regs j k hj hk hrk] at hreq
      exact hreq
    · intro hreq
      exact ⟨k, hk, rfl, hreq⟩
  refine ⟨hiff, ?_⟩
  rw [popcount64_eq_kinds cfg hwf.1 _ (sortInv_of_sorted cfg _ h1) _ hc.req,
    popcount64_eq_kinds cfg hwf.1 s hs _ hr]
  apply List.countP_congr
  intro k hk
  rw [decide_eq_true_eq, decide_eq_true_eq]
  exact hiff k (List.mem_range.mp hk)

theorem reprioritize_preserves_requested_witness :
    popcount64 (ReprioritizeInterrupts exampleConfig examplePending).requested_interrupts
      = popcount64 examplePending.requested_interrupts :=
  (reprioritize_preserves_requested exampleConfig exampleConfig_wf examplePending
    (sortInv_of_sorted _ _
      (canonical_of_reachable _ exampleConfig_wf _ examplePending_reachable).sorted)
    (by decide)).2

/-- C5: after `ReprioritizeInterrupts` the bit order encodes priority with the tie-break:
for two kinds `a` and `b`, if `priority(a) < priority(b)`, or if the priorities are equal and
`a` has the higher kind id, then `sort_id[a] = 1 << na` and `sort_id[b] = 1 << nb` with
`na < nb`.  The priority of a kind is written out: the nibble
`((IPR & 0xffff) >> ipr_shift) & 0xf` of its IPR register when the kind has one, otherwise
its default priority.  The interrupt table is assumed well formed. -/
theorem bit_order_encodes_priority (cfg : Config) (hwf : cfg.WF) (s : SH4State) (a b : Nat)
    (ha : a < cfg.NUM_INTERRUPTS) (hb : b < cfg.NUM_INTERRUPTS)
    (hab :
      (if (cfg.intInfo a).ipr ≠ 0 then
          ((((ReprioritizeInterrupts cfg s).regs (cfg.intInfo a).ipr).value &&& 0xffff) >>> (cfg.intInfo a).ipr_shift)
            &&& 0xf
        else (cfg.intInfo a).default_priority) <
      (if (cfg.intInfo b).ipr ≠ 0 then
          ((((ReprioritizeInterrupts cfg s).regs (cfg.intInfo b).ipr).value &&& 0xffff) >>> (cfg.intInfo b).ipr_shift)
            &&& 0xf
        else (cfg.intInfo b).default_priority) ∨
      ((if (cfg.intInfo a).ipr ≠ 0 then
          ((((ReprioritizeInterrupts cfg s).regs (cfg.intInfo a).ipr).value &&& 0xffff) >>> (cfg.intInfo a).ipr_shift)
            &&& 0xf
        else (cfg.intInfo a).default_priority) =
       (if (cfg.intInfo b).ipr ≠ 0 then
           ((((ReprioritizeInterrupts cfg s).regs (cfg.intInfo b).ipr).value &&& 0xffff) >>> (cfg.intInfo b).ipr_shift)
             &&& 0xf
         else (cfg.intInfo b).default_priority) ∧ b < a)) :
    ∃ na nb, (ReprioritizeInterrupts cfg s).sort_id a = 1 <<< na ∧
      (ReprioritizeInterrupts cfg s).sort_id b = 1 <<< nb ∧ na < nb := by
  have hs := (canonical_reprioritize cfg hwf s).sorted
  have hab2 : currentPriority cfg (ReprioritizeInterrupts cfg s).regs a
        < currentPriority cfg (ReprioritizeInterrupts cfg s).regs b ∨
      (currentPriority cfg (ReprioritizeInterrupts cfg s).regs a
        = currentPriority cfg (ReprioritizeInterrupts cfg s).regs b ∧ b < a) := hab
  refine ⟨rank cfg (ReprioritizeInterrupts cfg s).regs a,
    rank cfg (ReprioritizeInterrupts cfg s).regs b, ?_, ?_, ?_⟩
  · rw [Nat.one_shiftLeft]; exact hs.sort_id a ha
  · rw [Nat.one_shiftLeft]; exact hs.sort_id b hb
  · exact rank_lt_of_before cfg _ a b ha hab2

/-- The small instance after the write of `0xf000` to the IPR register: kind 1 (default
priority 6) gets a lower bit than kind 2 (priority 15, from its IPR nibble), and kind 2 a
lower bit than kind 0 (priority 15 too, lower id). -/
theorem bit_order_encodes_priority_witness :
    (∃ na nb, (ReprioritizeInterrupts exampleConfig examplePending).sort_id 1 = 1 <<< na ∧
      (ReprioritizeInterrupts exampleConfig examplePending).sort_id 2 = 1 <<< nb ∧ na < nb) ∧
    (∃ na nb, (ReprioritizeInterrupts exampleConfig examplePending).sort_id 2 = 1 <<< na ∧
      (ReprioritizeInterrupts exampleConfig examplePending).sort_id 0 = 1 <<< nb ∧ na < nb) ∧
    (ReprioritizeInterrupts exampleConfig examplePending).sort_id 1 = 2 ∧
    (ReprioritizeInterrupts exampleConfig examplePending).sort_id 2 = 4 ∧
    (ReprioritizeInterrupts exampleConfig examplePending).sort_id 0 = 8 :=
  ⟨bit_order_encodes_priority exampleConfig exampleConfig_wf examplePending 1 2
      (by decide) (by decide) (by decide),
   bit_order_encodes_priority exampleConfig exampleConfig_wf examplePending 2 0
      (by decide) (by decide) (by decide),
   by decide, by decide, by decide⟩

/-- C6: from a state satisfying the sort invariant, for every kind `k`: after
`RequestInterrupt(k)` kind `k` is requested, after `UnrequestInterrupt(k)` it is not, the
requested status of every other kind is unchanged, `pending` is recomputed from the new
`requested` mask and the current SR, and nothing else changes.  The interrupt table is
assumed well formed. -/
theorem request_unrequest_effect (cfg : Config) (hwf : cfg.WF) (s : SH4State)
    (hs : SortInv cfg s) (k : Nat) (hk : k < cfg.NUM_INTERRUPTS) :
    (RequestInterrupt s k).requested_interrupts &&& s.sort_id k ≠ 0 ∧
    (UnrequestInterrupt s k).requested_interrupts &&& s.sort_id k = 0 ∧
    (∀ j, j < cfg.NUM_INTERRUPTS → j ≠ k →
      ((RequestInterrupt s k).requested_interrupts &&& s.sort_id j ≠ 0 ↔
        s.requested_interrupts &&& s.sort_id j ≠ 0) ∧
      ((UnrequestInterrupt s k).requested_interrupts &&& s.sort_id j ≠ 0 ↔
        s.requested_interrupts &&& s.sort_id j ≠ 0)) ∧
    (RequestInterrupt s k).pending_interrupts =
      (if s.ctx.sr &&& BL ≠ 0 then 0
       else (RequestInterrupt s k).requested_interrupts &&&
         not64 (s.priority_mask ((s.ctx.sr &&& I) >>> 4))) ∧
    (UnrequestInterrupt s k).pending_interrupts =
      (if s.ctx.sr &&& BL ≠ 0 then 0
       else (UnrequestInterrupt s k).requested_interrupts &&&
         not64 (s.priority_mask ((s.ctx.sr &&& I) >>> 4))) ∧
    ((RequestInterrupt s k).sort_id = s.sort_id ∧
      (RequestInterrupt s k).sorted_interrupts = s.sorted_interrupts ∧
      (RequestInterrupt s k).priority_mask = s.priority_mask ∧
      (RequestInterrupt s k).regs = s.regs ∧ (RequestInterrupt s k).ctx = s.ctx) ∧
    ((UnrequestInterrupt s k).sort_id = s.sort_id ∧
      (UnrequestInterrupt s k).sorted_interrupts = s.sorted_interrupts ∧
      (UnrequestInterrupt s k).priority_mask = s.priority_mask ∧
      (UnrequestInterrupt s k).regs = s.regs ∧ (UnrequestInterrupt s k).ctx = s.ctx) := by
  obtain ⟨n, hn, hsk, hsn⟩ := hs.1 k hk
  have hN := hwf.1
  have hn64 : n < 64 := by omega
  rw [Nat.one_shiftLeft] at hsk
  have hreq : (RequestInterrupt s k).requested_interrupts = s.requested_interrupts ||| 2 ^ n := by
    unfold RequestInterrupt UpdatePendingInterrupts; rw [hsk]
  have hunreq : (UnrequestInterrupt s k).requested_interrupts
      = s.requested_interrupts &&& not64 (2 ^ n) := by
    unfold UnrequestInterrupt UpdatePendingInterrupts; rw [hsk]
  refine ⟨?_, ?_, ?_, ?_, ?_, ⟨rfl, rfl, rfl, rfl, rfl⟩, ⟨rfl, rfl, rfl, rfl, rfl⟩⟩
  · rw [hreq, hsk, and_two_pow_ne_zero, Nat.testBit_or, Nat.testBit_two_pow_self]
    simp
  · rw [hunreq, hsk, and_two_pow_eq_zero, Nat.testBit_and, testBit_not64,
      Nat.testBit_two_pow_self]
    simp
  · intro j hj hjk
    obtain ⟨m, hm, hsj, hsm⟩ := hs.1 j hj
    rw [Nat.one_shiftLeft] at hsj
    have hmn : n ≠ m := by
      intro hc
      rw [hc, hsm] at hsn
      exact hjk hsn
    have hm64 : m < 64 := by omega
    rw [hreq, hunreq, hsj, and_two_pow_ne_zero, and_two_pow_ne_zero, and_two_pow_ne_zero,
      Nat.testBit_or, Nat.testBit_and, testBit_not64, Nat.testBit_two_pow]
    simp [hmn, hm64]
  · exact updatePending_pending _
  · exact updatePending_pending _

theorem request_unrequest_effect_witness :
    (RequestInterrupt examplePending 1).requested_interrupts &&& examplePending.sort_id 1 ≠ 0 ∧
    (UnrequestInterrupt examplePending 2).requested_interrupts &&& examplePending.sort_id 2 = 0 :=
  ⟨(request_unrequest_effect exampleConfig exampleConfig_wf examplePending
      (sortInv_of_sorted _ _
        (canonical_of_reachable _ exampleConfig_wf _ examplePending_reachable).sorted)
      1 (by decide)).1,
   (request_unrequest_effect exampleConfig exampleConfig_wf examplePending
      (sortInv_of_sorted _ _
        (canonical_of_reachable _ exampleConfig_wf _ examplePending_reachable).sorted)
      2 (by decide)).2.1⟩

/-- C7: in a state satisfying the sort invariant (mutual-inverse sort arrays, bit order
following the current priorities, `pending` holding only bits of kinds), when `pending ≠ 0`
`CheckPendingInterrupts` sets `INTEVT` to the event code of a pending kind `k` whose current
priority is at least that of every pending kind, and which has the lowest kind id among the
pending kinds of its priority; when `pending = 0` it changes nothing.  The current priority
of a kind is written out: the nibble `((IPR & 0xffff) >> ipr_shift) & 0xf` of its IPR
register when the kind has one, otherwise its default priority.  The interrupt table is
assumed well formed. -/
theorem check_delivers_highest (cfg : Config) (hwf : cfg.WF) (s : SH4State)
    (hs : SortInv cfg s) (ho : OrderInv cfg s)
    (hp : s.pending_interrupts < 2 ^ cfg.NUM_INTERRUPTS) :
    (s.pending_interrupts = 0 → CheckPendingInterrupts cfg s = s) ∧
    (s.pending_interrupts ≠ 0 →
      ∃ k, k < cfg.NUM_INTERRUPTS ∧
        ((CheckPendingInterrupts cfg s).regs cfg.INTEVT_OFFSET).value = (cfg.intInfo k).intevt ∧
        s.pending_interrupts &&& s.sort_id k ≠ 0 ∧
        ∀ j, j < cfg.NUM_INTERRUPTS → s.pending_interrupts &&& s.sort_id j ≠ 0 →
          (if (cfg.intInfo j).ipr ≠ 0 then
              (((s.regs (cfg.intInfo j).ipr).value &&& 0xffff) >>> (cfg.intInfo j).ipr_shift)
                &&& 0xf
            else (cfg.intInfo j).default_priority) ≤
          (if (cfg.intInfo k).ipr ≠ 0 then
              (((s.regs (cfg.intInfo k).ipr).value &&& 0xffff) >>> (cfg.intInfo k).ipr_shift)
                &&& 0xf
            else (cfg.intInfo k).default_priority) ∧
          ((if (cfg.intInfo j).ipr ≠ 0 then
              (((s.regs (cfg.intInfo j).ipr).value &&& 0xffff) >>> (cfg.intInfo j).ipr_shift)
                &&& 0xf
            else (cfg.intInfo j).default_priority) =
           (if (cfg.intInfo k).ipr ≠ 0 then
               (((s.regs (cfg.intInfo k).ipr).value &&& 0xffff) >>> (cfg.intInfo k).ipr_shift)
                 &&& 0xf
             else (cfg.intInfo k).default_priority) → k ≤ j)) := by
  have key : (s.pending_interrupts = 0 → CheckPendingInterrupts cfg s = s) ∧
    (s.pending_interrupts ≠ 0 →
      ∃ k, k < cfg.NUM_INTERRUPTS ∧
        ((CheckPendingInterrupts cfg s).regs cfg.INTEVT_OFFSET).value = (cfg.intInfo k).intevt ∧
        s.pending_interrupts &&& s.sort_id k ≠ 0 ∧
        ∀ j, j < cfg.NUM_INTERRUPTS → s.pending_interrupts &&& s.sort_id j ≠ 0 →
          currentPriority cfg s.regs j ≤ currentPriority cfg s.regs k ∧
          (currentPriority cfg s.regs j = currentPriority cfg s.regs k → k ≤ j)) := by
    refine ⟨check_of_not_pending cfg s, ?_⟩
    intro hne
    have hN := hwf.1
    have h64 : s.pending_interrupts < 2 ^ 64 :=
      lt_of_lt_of_le hp (Nat.pow_le_pow_right (by norm_num) (by omega))
    obtain ⟨htop, habove⟩ := highest_bit s.pending_interrupts h64 hne
    have hn : 63 - clz s.pending_interrupts < cfg.NUM_INTERRUPTS := by
      by_contra hc
      rw [testBit_of_lt_two_pow _ _ _ hp (by omega)] at htop
      exact Bool.false_ne_true htop
    obtain ⟨hk, hsk⟩ := hs.2 _ hn
    rw [Nat.one_shiftLeft] at hsk
    refine ⟨s.sorted_interrupts (63 - clz s.pending_interrupts), hk, ?_, ?_, ?_⟩
    · rw [check_of_pending cfg s hne, (srUpdated_frame _ _).1, entryState_regs]
      simp [arraySet]
    · rw [hsk, and_two_pow_ne_zero]; exact htop
    · intro j hj hjp
      obtain ⟨m, hm, hsj, _⟩ := hs.1 j hj
      rw [Nat.one_shiftLeft] at hsj
      rw [hsj, and_two_pow_ne_zero] at hjp
      have hmle : m ≤ 63 - clz s.pending_interrupts := by
        by_contra hc
        rw [habove m (by omega)] at hjp
        exact Bool.false_ne_true hjp
      have hle : s.sort_id j ≤ s.sort_id (s.sorted_interrupts (63 - clz s.pending_interrupts)) := by
        rw [hsj, hsk]; exact Nat.pow_le_pow_right (by norm_num) hmle
      constructor
      · by_contra hc
        have := ho _ hk j hj (Or.inl (by omega))
        omega
      · intro he
        by_contra hc
        have := ho _ hk j hj (Or.inr ⟨he.symm, by omega⟩)
        omega
  exact key

/-- The small instance with three kinds pending (`pending = 7`): kind 3 of priority 3 and
kind 2 of priority 6, both from their IPR nibbles, and kind 1 of default priority 6.  The
kind delivered is kind 1 (`INTEVT = 0x320`): its priority is above that of kind 3, and it
has the lower id of the two kinds of priority 6. -/
theorem check_delivers_highest_witness :
    exampleMulti.pending_interrupts = 7 ∧
    ((CheckPendingInterrupts exampleConfig exampleMulti).regs
      exampleConfig.INTEVT_OFFSET).value = 0x320 ∧
    ∃ k, k < exampleConfig.NUM_INTERRUPTS ∧
      ((CheckPendingInterrupts exampleConfig exampleMulti).regs
        exampleConfig.INTEVT_OFFSET).value = (exampleConfig.intInfo k).intevt ∧
      exampleMulti.pending_interrupts &&& exampleMulti.sort_id k ≠ 0 ∧
      ∀ j, j < exampleConfig.NUM_INTERRUPTS →
        exampleMulti.pending_interrupts &&& exampleMulti.sort_id j ≠ 0 →
        (if (exampleConfig.intInfo j).ipr ≠ 0 then
            (((exampleMulti.regs (exampleConfig.intInfo j).ipr).value &&& 0xffff) >>>
              (exampleConfig.intInfo j).ipr_shift) &&& 0xf
          else (exampleConfig.intInfo j).default_priority) ≤
        (if (exampleConfig.intInfo k).ipr ≠ 0 then
            (((exampleMulti.regs (exampleConfig.intInfo k).ipr).value &&& 0xffff) >>>
              (exampleConfig.intInfo k).ipr_shift) &&& 0xf
          else (exampleConfig.intInfo k).default_priority) ∧
        ((if (exampleConfig.intInfo j).ipr ≠ 0 then
            (((exampleMulti.regs (exampleConfig.intInfo j).ipr).value &&& 0xffff) >>>
              (exampleConfig.intInfo j).ipr_shift) &&& 0xf
          else (exampleConfig.intInfo j).default_priority) =
         (if (exampleConfig.intInfo k).ipr ≠ 0 then
             (((exampleMulti.regs (exampleConfig.intInfo k).ipr).value &&& 0xffff) >>>
               (exampleConfig.intInfo k).ipr_shift) &&& 0xf
           else (exampleConfig.intInfo k).default_priority) → k ≤ j) :=
  ⟨by decide, by decide,
   (check_delivers_highest exampleConfig exampleConfig_wf exampleMulti
    (sortInv_of_sorted _ _
      (canonical_of_reachable _ exampleConfig_wf _ exampleMulti_reachable).sorted)
    (orderInv_of_sorted _ _
      (canonical_of_reachable _ exampleConfig_wf _ exampleMulti_reachable).sorted)
    (by decide)).2 (by decide)⟩

/-- C8: exception entry.  In every reachable state with `pending ≠ 0`, `SR.BL` is clear, and
after `CheckPendingInterrupts`: `ssr` is the SR before, `spc` the PC before, `sgr` the `r15`
before, `PC = VBR + 0x600` (mod 2^32), `SR` is the SR before with `BL`, `MD` and `RB` set,
`pending = 0`, and the banks `r[0..7]` and `ralt[0..7]` have been exchanged when `RB` was
clear before (and are untouched when it was set); `r[8..15]` are untouched.  The interrupt
table is assumed well formed. -/
theorem exception_entry (cfg : Config) (hwf : cfg.WF) (s : SH4State)
    (h : Reachable cfg s) (hp : s.pending_interrupts ≠ 0) :
    s.ctx.sr &&& BL = 0 ∧
    (CheckPendingInterrupts cfg s).ctx.ssr = s.ctx.sr ∧
    (CheckPendingInterrupts cfg s).ctx.spc = s.ctx.pc ∧
    (CheckPendingInterrupts cfg s).ctx.sgr = s.ctx.r 15 ∧
    (CheckPendingInterrupts cfg s).ctx.pc = (s.ctx.vbr + 0x600) % 2 ^ 32 ∧
    (CheckPendingInterrupts cfg s).ctx.sr = s.ctx.sr ||| (BL ||| MD ||| RB) ∧
    (CheckPendingInterrupts cfg s).pending_interrupts = 0 ∧
    (s.ctx.sr &&& RB = 0 → ∀ i, i < 8 →
      (CheckPendingInterrupts cfg s).ctx.r i = s.ctx.ralt i ∧
      (CheckPendingInterrupts cfg s).ctx.ralt i = s.ctx.r i) ∧
    (s.ctx.sr &&& RB ≠ 0 →
      (CheckPendingInterrupts cfg s).ctx.r = s.ctx.r ∧
      (CheckPendingInterrupts cfg s).ctx.ralt = s.ctx.ralt) ∧
    (∀ i, 8 ≤ i → (CheckPendingInterrupts cfg s).ctx.r i = s.ctx.r i) := by
  have hc := canonical_of_reachable cfg hwf s h
  have hbl : s.ctx.sr &&& BL = 0 := by
    by_contra hcon
    exact hp (canonical_pending_BL cfg s hc hcon)
  obtain ⟨e1, _, _, _, _, e6⟩ := entryState_frame cfg s
  have hctx : (entryState cfg s).ctx =
      { s.ctx with
        ssr := s.ctx.sr, spc := s.ctx.pc, sgr := s.ctx.r 15,
        sr := s.ctx.sr ||| (BL ||| MD ||| RB), pc := (s.ctx.vbr + 0x600) % 2 ^ 32 } := by
    unfold entryState; rfl
  have hframe := (srUpdated_frame (entryState cfg s) s.ctx.sr).2.2.2.2.2
  have hbanks := srUpdated_banks (entryState cfg s) s.ctx.sr
  have hpend := (srUpdated_pending (entryState cfg s) s.ctx.sr).2
    (Or.inr (by rw [e6, hbl]; exact entry_BL s.ctx.sr))
  rw [e6, if_pos (entry_BL s.ctx.sr)] at hpend
  rw [e6, entry_RB_differs, hctx] at hbanks
  have hbanks2 : s.ctx.sr &&& RB ≠ 0 →
      (SRUpdated (entryState cfg s) s.ctx.sr).ctx.r = s.ctx.r ∧
      (SRUpdated (entryState cfg s) s.ctx.sr).ctx.ralt = s.ctx.ralt := by
    intro hrb
    apply hbanks.2
    by_contra hcon
    exact hrb ((entry_RB_differs s.ctx.sr).mp hcon)
  rw [check_of_pending cfg s hp]
  rw [hctx] at hframe
  refine ⟨hbl, ?_, ?_, ?_, ?_, ?_, hpend, ?_, hbanks2, ?_⟩
  · rw [hframe]
  · rw [hframe]
  · rw [hframe]
  · rw [hframe]
  · rw [hframe]
  · intro hrb i hi
    obtain ⟨h1, h2⟩ := hbanks.1 hrb
    rw [h1, h2]
    simp [hi]
  · intro i hi
    by_cases hrb : s.ctx.sr &&& RB = 0
    · rw [(hbanks.1 hrb).1]
      have : ¬ i < 8 := by omega
      simp [this]
    · rw [(hbanks2 hrb).1]

theorem exception_entry_witness :
    (CheckPendingInterrupts exampleConfig examplePending).ctx.sr
      = examplePending.ctx.sr ||| (BL ||| MD ||| RB) ∧
    (CheckPendingInterrupts exampleConfig examplePending).pending_interrupts = 0 :=
  ⟨(exception_entry exampleConfig exampleConfig_wf examplePending examplePending_reachable
      (by decide)).2.2.2.2.2.1,
   (exception_entry exampleConfig exampleConfig_wf examplePending examplePending_reachable
      (by decide)).2.2.2.2.2.2.1⟩

/-- C9: register-bank swap is an involution: two successive SR writes that each flip only
the `RB` bit, each followed by `SRUpdated` with the previous SR, restore `r` and `ralt`; the
first of them does exchange `r[0..7]` with `ralt[0..7]`; and `SwapRegisterBank` applied twice
is the identity. -/
theorem bank_swap_involution (s : SH4State) :
    (SRUpdated
      { SRUpdated { s with ctx := { s.ctx with sr := s.ctx.sr ^^^ RB } } s.ctx.sr with
        ctx := { (SRUpdated { s with ctx := { s.ctx with sr := s.ctx.sr ^^^ RB } } s.ctx.sr).ctx
          with sr := (s.ctx.sr ^^^ RB) ^^^ RB } }
      (s.ctx.sr ^^^ RB)).ctx.r = s.ctx.r ∧
    (SRUpdated
      { SRUpdated { s with ctx := { s.ctx with sr := s.ctx.sr ^^^ RB } } s.ctx.sr with
        ctx := { (SRUpdated { s with ctx := { s.ctx with sr := s.ctx.sr ^^^ RB } } s.ctx.sr).ctx
          with sr := (s.ctx.sr ^^^ RB) ^^^ RB } }
      (s.ctx.sr ^^^ RB)).ctx.ralt = s.ctx.ralt ∧
    (∀ i, i < 8 →
      (SRUpdated { s with ctx := { s.ctx with sr := s.ctx.sr ^^^ RB } } s.ctx.sr).ctx.r i
        = s.ctx.ralt i ∧
      (SRUpdated { s with ctx := { s.ctx with sr := s.ctx.sr ^^^ RB } } s.ctx.sr).ctx.ralt i
        = s.ctx.r i) ∧
    SwapRegisterBank (SwapRegisterBank s) = s := by
  have hflip : ∀ x : Nat, (x ^^^ RB) &&& RB ≠ x &&& RB := by
    intro x
    rw [RB_eq, Ne, and_two_pow_eq_iff, Nat.testBit_xor, Nat.testBit_two_pow_self]
    cases x.testBit 29 <;> simp
  have h1 := (srUpdated_banks { s with ctx := { s.ctx with sr := s.ctx.sr ^^^ RB } } s.ctx.sr).1
    (hflip s.ctx.sr)
  have h2 := (srUpdated_banks
      { SRUpdated { s with ctx := { s.ctx with sr := s.ctx.sr ^^^ RB } } s.ctx.sr with
        ctx := { (SRUpdated { s with ctx := { s.ctx with sr := s.ctx.sr ^^^ RB } } s.ctx.sr).ctx
          with sr := (s.ctx.sr ^^^ RB) ^^^ RB } }
      (s.ctx.sr ^^^ RB)).1 (hflip (s.ctx.sr ^^^ RB))
  refine ⟨?_, ?_, ?_, ?_⟩
  · rw [h2.1]
    funext i
    simp only [h1.1, h1.2]
    by_cases hi : i < 8 <;> simp [hi]
  · rw [h2.2]
    funext i
    simp only [h1.1, h1.2]
    by_cases hi : i < 8 <;> simp [hi]
  · intro i hi
    rw [h1.1, h1.2]
    simp [hi]
  · rw [swapRegisterBank_eq, swapRegisterBank_eq]
    have hr : (fun i => if i < 8 then (if i < 8 then s.ctx.r i else s.ctx.ralt i)
        else (if i < 8 then s.ctx.ralt i else s.ctx.r i)) = s.ctx.r := by
      funext i; by_cases hi : i < 8 <;> simp [hi]
    have hralt : (fun i => if i < 8 then (if i < 8 then s.ctx.ralt i else s.ctx.r i)
        else (if i < 8 then s.ctx.r i else s.ctx.ralt i)) = s.ctx.ralt := by
      funext i; by_cases hi : i < 8 <;> simp [hi]
    simp only [hr, hralt]

/-- C10: for every state and every `old_sr`, `SRUpdated(old_sr)` exchanges `r[0..7]` with
`ralt[0..7]` when the `RB` bit of the current SR differs from that of `old_sr` and leaves both
banks alone when it does not; it never changes `r[8..15]`, SR, any other context field, the
registers, `requested` or the sort arrays; if neither the `I` field nor the `BL` bit differs,
`pending` is unchanged, otherwise `pending` is recomputed from `requested` and the current
SR. -/
theorem srUpdated_effect (s : SH4State) (old_sr : Nat) :
    (s.ctx.sr &&& RB ≠ old_sr &&& RB → ∀ i, i < 8 →
      (SRUpdated s old_sr).ctx.r i = s.ctx.ralt i ∧
      (SRUpdated s old_sr).ctx.ralt i = s.ctx.r i) ∧
    (s.ctx.sr &&& RB = old_sr &&& RB →
      (SRUpdated s old_sr).ctx.r = s.ctx.r ∧ (SRUpdated s old_sr).ctx.ralt = s.ctx.ralt) ∧
    (∀ i, 8 ≤ i → (SRUpdated s old_sr).ctx.r i = s.ctx.r i ∧
      (SRUpdated s old_sr).ctx.ralt i = s.ctx.ralt i) ∧
    (SRUpdated s old_sr).ctx =
      { s.ctx with r := (SRUpdated s old_sr).ctx.r, ralt := (SRUpdated s old_sr).ctx.ralt } ∧
    (SRUpdated s old_sr).ctx.sr = s.ctx.sr ∧
    (SRUpdated s old_sr).regs = s.regs ∧
    (SRUpdated s old_sr).requested_interrupts = s.requested_interrupts ∧
    (SRUpdated s old_sr).sort_id = s.sort_id ∧
    (SRUpdated s old_sr).sorted_interrupts = s.sorted_interrupts ∧
    (SRUpdated s old_sr).priority_mask = s.priority_mask ∧
    (s.ctx.sr &&& I = old_sr &&& I ∧ s.ctx.sr &&& BL = old_sr &&& BL →
      (SRUpdated s old_sr).pending_interrupts = s.pending_interrupts) ∧
    (s.ctx.sr &&& I ≠ old_sr &&& I ∨ s.ctx.sr &&& BL ≠ old_sr &&& BL →
      (SRUpdated s old_sr).pending_interrupts =
        if s.ctx.sr &&& BL ≠ 0 then 0
        else s.requested_interrupts &&& not64 (s.priority_mask ((s.ctx.sr &&& I) >>> 4))) := by
  obtain ⟨f1, f2, f3, f4, f5, f6⟩ := srUpdated_frame s old_sr
  obtain ⟨b1, b2⟩ := srUpdated_banks s old_sr
  obtain ⟨p1, p2⟩ := srUpdated_pending s old_sr
  refine ⟨?_, b2, ?_, f6, ?_, f1, f2, f3, f4, f5, p1, p2⟩
  · intro hrb i hi
    rw [(b1 hrb).1, (b1 hrb).2]
    simp [hi]
  · intro i hi
    have hi8 : ¬ i < 8 := by omega
    by_cases hrb : s.ctx.sr &&& RB = old_sr &&& RB
    · rw [(b2 hrb).1, (b2 hrb).2]; exact ⟨rfl, rfl⟩
    · rw [(b1 hrb).1, (b1 hrb).2]; simp [hi8]
  · rw [f6]

/-- C11: control-register access is gated by the register's flags, for every address and
every access width: a read of a register whose flags lack `R` returns 0 whatever read
delegates are installed, and a write to a register whose flags lack `W` leaves the whole
object as it was whatever write delegates are installed (so no delegate runs). -/
theorem register_access_gated (lay : Layout) (rd : Nat → Option ReadDelegate)
    (wd : Nat → Option WriteDelegate) (width : Nat) (m : Machine) (addr value : Nat) :
    ((m.sh4.regs (lay.SH4_REG_OFFSET addr)).flags &&& lay.R = 0 →
      ReadRegister lay rd width m addr = 0) ∧
    ((m.sh4.regs (lay.SH4_REG_OFFSET addr)).flags &&& lay.W = 0 →
      WriteRegister lay wd width m addr value = some m) := by
  constructor
  · intro h
    unfold ReadRegister
    simp only [h, if_true]
  · intro h
    unfold WriteRegister
    simp only [h, if_true]

/-- C12: the read delegate of `PDTRA` is a function of the stored `PCTRA` and `PDTRA` values
alone: it returns 3 if `(pctra & 0xF) = 0x8`, or `(pctra & 0xF) = 0xB` and
`(pdtra & 0xF) != 0x2`, or `(pctra & 0xF) = 0xC` and `(pdtra & 0xF) = 0x2`, and 0 otherwise;
and a 32-bit read of a readable `PDTRA` through `ReadRegister` returns that value. -/
theorem pdtra_read_override (lay : Layout) (hl : lay.WF) (m : Machine) (addr : Nat)
    (hoff : lay.SH4_REG_OFFSET addr = lay.PDTRA_OFFSET)
    (hr : (m.sh4.regs lay.PDTRA_OFFSET).flags &&& lay.R ≠ 0) :
    PDTRA_r lay m = pdtraSpec (m.regValue lay.PCTRA_OFFSET) (m.regValue lay.PDTRA_OFFSET) ∧
    ReadRegister lay (readDelegates lay) 32 m addr
      = pdtraSpec (m.regValue lay.PCTRA_OFFSET) (m.regValue lay.PDTRA_OFFSET) := by
  have hspec : PDTRA_r lay m
      = pdtraSpec (m.regValue lay.PCTRA_OFFSET) (m.regValue lay.PDTRA_OFFSET) := by
    unfold PDTRA_r pdtraSpec
    simp only
    split_ifs <;> first | rfl | omega
  have hle : pdtraSpec (m.regValue lay.PCTRA_OFFSET) (m.regValue lay.PDTRA_OFFSET) ≤ 3 := by
    unfold pdtraSpec
    split_ifs <;> omega
  have h0 : lay.PDTRA_OFFSET ≠ lay.TCNT0_OFFSET := layout_offsets_ne lay hl 1 30
    (by omega) (by omega) (by omega)
  have h1 : lay.PDTRA_OFFSET ≠ lay.TCNT1_OFFSET := layout_offsets_ne lay hl 1 31
    (by omega) (by omega) (by omega)
  have h2 : lay.PDTRA_OFFSET ≠ lay.TCNT2_OFFSET := layout_offsets_ne lay hl 1 32
    (by omega) (by omega) (by omega)
  refine ⟨hspec, ?_⟩
  unfold ReadRegister readDelegates
  simp only [hoff, hr, h0, h1, h2, if_false, if_true]
  rw [hspec]
  exact Nat.mod_eq_of_lt (by omega)

theorem pdtra_read_override_witness :
    PDTRA_r exampleLayout (exampleMachine.setRegValue exampleLayout.PCTRA_OFFSET 0x8)
      = pdtraSpec 0x8 0 ∧
    ReadRegister exampleLayout (readDelegates exampleLayout) 32
      (exampleMachine.setRegValue exampleLayout.PCTRA_OFFSET 0x8) 1 = pdtraSpec 0x8 0 :=
  pdtra_read_override exampleLayout (by decide)
    (exampleMachine.setRegValue exampleLayout.PCTRA_OFFSET 0x8) 1 (by decide) (by decide)

/-- C13: store-queue prefetch.  For an address `a` in `[0xe0000000, 0xe3ffffff]`, with `sqi`
its bit 5, `Prefetch(a)` issues exactly 8 32-bit bus writes, the `i`-th writing
`ctx.sq[sqi][i]` to `dest + 4*i`, where
`dest = (a & 0x03ffffe0) | (((sqi ? QACR1 : QACR0) & 0x1c) << 24)`, and changes nothing but
the memory bus; for an address outside that range it changes nothing at all. -/
theorem prefetch_store_queue (lay : Layout) (m : Machine) (a : Nat) :
    (0xe0000000 ≤ a ∧ a ≤ 0xe3ffffff →
      (Prefetch lay m a).memory.log = m.memory.log ++ (List.range 8).map (fun i =>
        BusOp.W32
          (((a &&& 0x03ffffe0) |||
            ((if (a >>> 5) % 2 = 1 then m.regValue lay.QACR1_OFFSET
              else m.regValue lay.QACR0_OFFSET) &&& 0x1c) <<< 24) + 4 * i)
          (m.sh4.ctx.sq ((a >>> 5) % 2) i)) ∧
      Prefetch lay m a = { m with memory := (Prefetch lay m a).memory }) ∧
    (a % 2 ^ 32 < 0xe0000000 ∨ 0xe3ffffff < a % 2 ^ 32 → Prefetch lay m a = m) :=
  ⟨fun h => prefetch_in_range lay m a h.1 h.2, prefetch_out_of_range lay m a⟩

/-- C14, as the specification states it, fails: in scenario S5 the eight writes of
`Prefetch(0xe0000020)` do not go to `0x1C000000 .. 0x1C00001C`. -/
theorem prefetch_scenario_S5_refuted :
    (Prefetch exampleLayout exampleS5 0xe0000020).memory.log ≠
      [BusOp.W32 0x1C000000 1, BusOp.W32 0x1C000004 2, BusOp.W32 0x1C000008 3,
       BusOp.W32 0x1C00000C 4, BusOp.W32 0x1C000010 5, BusOp.W32 0x1C000014 6,
       BusOp.W32 0x1C000018 7, BusOp.W32 0x1C00001C 8] := by
  decide

/-- C14, amended: with `ctx.sq[1] = {1,2,3,4,5,6,7,8}` and `QACR1 = 0x1C`,
`Prefetch(0xe0000020)` performs 8 32-bit bus writes of the words 1..8, in order, to the
addresses `0x1C000020, 0x1C000024, ..., 0x1C00003C`: bit 5 of the address, which selects
store queue 1, stays in the destination. -/
theorem prefetch_scenario_S5 (lay : Layout) (m : Machine)
    (hq : m.regValue lay.QACR1_OFFSET = 0x1C)
    (hsq : ∀ i, i < 8 → m.sh4.ctx.sq 1 i = i + 1) :
    (Prefetch lay m 0xe0000020).memory.log = m.memory.log ++
      [BusOp.W32 0x1C000020 1, BusOp.W32 0x1C000024 2, BusOp.W32 0x1C000028 3,
       BusOp.W32 0x1C00002C 4, BusOp.W32 0x1C000030 5, BusOp.W32 0x1C000034 6,
       BusOp.W32 0x1C000038 7, BusOp.W32 0x1C00003C 8] := by
  rw [(prefetch_in_range lay m 0xe0000020 (by norm_num) (by norm_num)).1]
  have h5 : (0xe0000020 >>> 5) % 2 = 1 := by decide
  simp only [h5, if_true, hq]
  congr 1
  simp only [List.range, List.range.loop, List.map_cons, List.map_nil]
  rw [hsq 0 (by omega), hsq 1 (by omega), hsq 2 (by omega), hsq 3 (by omega),
    hsq 4 (by omega), hsq 5 (by omega), hsq 6 (by omega), hsq 7 (by omega)]
  decide

theorem prefetch_scenario_S5_witness :
    (Prefetch exampleLayout exampleS5 0xe0000020).memory.log = exampleS5.memory.log ++
      [BusOp.W32 0x1C000020 1, BusOp.W32 0x1C000024 2, BusOp.W32 0x1C000028 3,
       BusOp.W32 0x1C00002C 4, BusOp.W32 0x1C000030 5, BusOp.W32 0x1C000034 6,
       BusOp.W32 0x1C000038 7, BusOp.W32 0x1C00003C 8] :=
  prefetch_scenario_S5 exampleLayout exampleS5 (by decide) (by decide)

/-- C16: timer expiration.  For each timer `n` in {0,1,2}, with `TCR_n`, `TCNT_n`, `TCOR_n`
and `TUNI_n` its own registers and interrupt kind (named in the table of the hypothesis),
and every register state: `ExpireTimer<n>` sets bit `0x100` of `TCR_n` leaving its other
bits unchanged, sets `TCNT_n` to `TCOR_n`, leaves `TCOR_n`, the registers of the other two
timers and every other register unchanged, requests `TUNI_n` if bit `0x20` of `TCR_n` is
set and otherwise leaves the requested and pending masks unchanged, and reschedules timer
`n` exactly once, with the reloaded count and the updated `TCR_n` (tick rate
`50000000 >> scale[TCR_n & 7]`), after cancelling the handle it held.  The layout is
assumed well formed. -/
theorem expire_timer_effect (lay : Layout) (hl : lay.WF) (m : Machine)
    (n tcr tcnt tcor tuni : Nat)
    (hsel : (n, tcr, tcnt, tcor, tuni) ∈
      [(0, lay.TCR0_OFFSET, lay.TCNT0_OFFSET, lay.TCOR0_OFFSET, lay.SH4_INTC_TUNI0),
       (1, lay.TCR1_OFFSET, lay.TCNT1_OFFSET, lay.TCOR1_OFFSET, lay.SH4_INTC_TUNI1),
       (2, lay.TCR2_OFFSET, lay.TCNT2_OFFSET, lay.TCOR2_OFFSET, lay.SH4_INTC_TUNI2)]) :
    (ExpireTimer lay m n).regValue tcr = m.regValue tcr ||| 0x100 ∧
    (ExpireTimer lay m n).regValue tcnt = m.regValue tcor ∧
    (ExpireTimer lay m n).regValue tcor = m.regValue tcor ∧
    (∀ o, o ≠ tcr → o ≠ tcnt → (ExpireTimer lay m n).sh4.regs o = m.sh4.regs o) ∧
    (∀ k r c o u, (k, r, c, o, u) ∈
      [(0, lay.TCR0_OFFSET, lay.TCNT0_OFFSET, lay.TCOR0_OFFSET, lay.SH4_INTC_TUNI0),
       (1, lay.TCR1_OFFSET, lay.TCNT1_OFFSET, lay.TCOR1_OFFSET, lay.SH4_INTC_TUNI1),
       (2, lay.TCR2_OFFSET, lay.TCNT2_OFFSET, lay.TCOR2_OFFSET, lay.SH4_INTC_TUNI2)] →
      k ≠ n →
      (ExpireTimer lay m n).regValue r = m.regValue r ∧
      (ExpireTimer lay m n).regValue c = m.regValue c ∧
      (ExpireTimer lay m n).regValue o = m.regValue o) ∧
    (m.regValue tcr &&& 0x20 ≠ 0 →
      (ExpireTimer lay m n).sh4.requested_interrupts =
        m.sh4.requested_interrupts ||| m.sh4.sort_id tuni ∧
      (ExpireTimer lay m n).sh4.requested_interrupts &&& m.sh4.sort_id tuni
        = m.sh4.sort_id tuni) ∧
    (m.regValue tcr &&& 0x20 = 0 →
      (ExpireTimer lay m n).sh4.requested_interrupts = m.sh4.requested_interrupts ∧
      (ExpireTimer lay m n).sh4.pending_interrupts = m.sh4.pending_interrupts) ∧
    (ExpireTimer lay m n).scheduler.log =
      m.scheduler.log ++
        (if m.tmu_timers n ≠ 0 then [SchedulerOp.cancel (m.tmu_timers n)] else []) ++
        [SchedulerOp.schedule n
          (CYCLES_TO_NANO (m.regValue tcor)
            ((50000000 >>> [2, 4, 6, 8, 10, 0, 0, 0].getD ((m.regValue tcr ||| 0x100) &&& 7) 0
              : Nat) : Int))] ∧
    (ExpireTimer lay m n).tmu_timers n ≠ 0 ∧
    (∀ k, k ≠ n → (ExpireTimer lay m n).tmu_timers k = m.tmu_timers k) := by
  simp only [List.mem_cons, List.mem_singleton, Prod.mk.injEq, List.not_mem_nil,
    or_false] at hsel
  rcases hsel with ⟨rfl, rfl, rfl, rfl, rfl⟩ | ⟨rfl, rfl, rfl, rfl, rfl⟩ |
    ⟨rfl, rfl, rfl, rfl, rfl⟩
  · obtain ⟨h1, h2, h3, h4, h5, h6, h7, h8, h9, h10⟩ :=
      expireTimer_effect lay hl m 0 (by omega)
    refine ⟨h1, h2, h3, h5, ?_, h6, h7, ?_, h9, h10⟩
    · intro k r c o u hk hne
      simp only [List.mem_cons, List.mem_singleton, Prod.mk.injEq, List.not_mem_nil,
        or_false] at hk
      rcases hk with ⟨rfl, rfl, rfl, rfl, rfl⟩ | ⟨rfl, rfl, rfl, rfl, rfl⟩ |
        ⟨rfl, rfl, rfl, rfl, rfl⟩
      · exact absurd rfl hne
      · exact h4 1 (by omega) (by omega)
      · exact h4 2 (by omega) (by omega)
    · rw [h8, timerFreq_eq]
      rfl
  · obtain ⟨h1, h2, h3, h4, h5, h6, h7, h8, h9, h10⟩ :=
      expireTimer_effect lay hl m 1 (by omega)
    refine ⟨h1, h2, h3, h5, ?_, h6, h7, ?_, h9, h10⟩
    · intro k r c o u hk hne
      simp only [List.mem_cons, List.mem_singleton, Prod.mk.injEq, List.not_mem_nil,
        or_false] at hk
      rcases hk with ⟨rfl, rfl, rfl, rfl, rfl⟩ | ⟨rfl, rfl, rfl, rfl, rfl⟩ |
        ⟨rfl, rfl, rfl, rfl, rfl⟩
      · exact h4 0 (by omega) (by omega)
      · exact absurd rfl hne
      · exact h4 2 (by omega) (by omega)
    · rw [h8, timerFreq_eq]
      rfl
  · obtain ⟨h1, h2, h3, h4, h5, h6, h7, h8, h9, h10⟩ :=
      expireTimer_effect lay hl m 2 (by omega)
    refine ⟨h1, h2, h3, h5, ?_, h6, h7, ?_, h9, h10⟩
    · intro k r c o u hk hne
      simp only [List.mem_cons, List.mem_singleton, Prod.mk.injEq, List.not_mem_nil,
        or_false] at hk
      rcases hk with ⟨rfl, rfl, rfl, rfl, rfl⟩ | ⟨rfl, rfl, rfl, rfl, rfl⟩ |
        ⟨rfl, rfl, rfl, rfl, rfl⟩
      · exact h4 0 (by omega) (by omega)
      · exact h4 1 (by omega) (by omega)
      · exact absurd rfl hne
    · rw [h8, timerFreq_eq]
      rfl

/-- Timer 1 of the second instance expires while under way with `TCR1 = 0x21` (underflow
interrupt enabled), `TCNT1 = 7` and `TCOR1 = 1000`: `TCR1` becomes `0x121`, `TCNT1` is
reloaded with 1000, `TUNI1` (kind 6, bit 1) is requested, and the scheduler is asked to
cancel the handle the timer held and to schedule it again. -/
theorem expire_timer_effect_witness :
    exampleExpiring.regValue exampleLayout.TCNT1_OFFSET = 7 ∧
    exampleExpiring.sh4.requested_interrupts = 0 ∧
    exampleExpiring.tmu_timers 1 = 1 ∧
    (ExpireTimer exampleLayout exampleExpiring 1).regValue exampleLayout.TCR1_OFFSET = 0x121 ∧
    (ExpireTimer exampleLayout exampleExpiring 1).regValue exampleLayout.TCNT1_OFFSET = 1000 ∧
    (ExpireTimer exampleLayout exampleExpiring 1).sh4.requested_interrupts = 2 ∧
    exampleExpiring.sh4.sort_id exampleLayout.SH4_INTC_TUNI1 = 2 ∧
    (ExpireTimer exampleLayout exampleExpiring 1).scheduler.log =
      [SchedulerOp.schedule 1 2240, SchedulerOp.cancel 1, SchedulerOp.schedule 1 320000] :=
  ⟨by decide, by decide, by decide,
   (expire_timer_effect exampleLayout (by decide) exampleExpiring 1
      exampleLayout.TCR1_OFFSET exampleLayout.TCNT1_OFFSET exampleLayout.TCOR1_OFFSET
      exampleLayout.SH4_INTC_TUNI1 (by decide)).1.trans (by decide),
   (expire_timer_effect exampleLayout (by decide) exampleExpiring 1
      exampleLayout.TCR1_OFFSET exampleLayout.TCNT1_OFFSET exampleLayout.TCOR1_OFFSET
      exampleLayout.SH4_INTC_TUNI1 (by decide)).2.1.trans (by decide),
   ((expire_timer_effect exampleLayout (by decide) exampleExpiring 1
      exampleLayout.TCR1_OFFSET exampleLayout.TCNT1_OFFSET exampleLayout.TCOR1_OFFSET
      exampleLayout.SH4_INTC_TUNI1 (by decide)).2.2.2.2.2.1 (by decide)).1.trans (by decide),
   by decide,
   (expire_timer_effect exampleLayout (by decide) exampleExpiring 1
      exampleLayout.TCR1_OFFSET exampleLayout.TCNT1_OFFSET exampleLayout.TCOR1_OFFSET
      exampleLayout.SH4_INTC_TUNI1 (by decide)).2.2.2.2.2.2.2.1.trans (by decide)⟩

/-- C17: timer run-state invariant.  The scheduler returns a non-null handle for every timer it
schedules.  In every state reached from one with all three handles null and `TSTR = 0` by
register writes (to `TSTR`, `TCR_n`, `TCNT_n` or any other register) and by expirations of
scheduled timers, timer `n` holds a handle if and only if bit `n` of `TSTR` is set.  A
write to `TSTR` stores the value and asks the scheduler, for the timers 0, 1, 2 in this
order, to schedule the timer (with its `TCNT_n` and `TCR_n`) when its bit in the new value
is set and it had no handle, to cancel its handle when its bit is clear and it had one,
and nothing otherwise.  The layout is assumed well formed. -/
theorem timer_run_state (lay : Layout) (hl : lay.WF) (cfg : Config) (m : Machine)
    (h : TimerReachable lay cfg m) :
    TimerInv lay m ∧
    ∀ width addr value, lay.SH4_REG_OFFSET addr = lay.TSTR_OFFSET →
      (m.sh4.regs lay.TSTR_OFFSET).flags &&& lay.W ≠ 0 →
      ∃ m2, WriteRegister lay (writeDelegates lay cfg) width m addr value = some m2 ∧
        m2.regValue lay.TSTR_OFFSET = value % 2 ^ width ∧
        TimerInv lay m2 ∧
        m2.scheduler.log = m.scheduler.log ++
          timerStartOps (value % 2 ^ width) (m.tmu_timers 0) 0 (TCNT lay m 0) (TCR lay m 0) ++
          timerStartOps (value % 2 ^ width) (m.tmu_timers 1) 1 (TCNT lay m 1) (TCR lay m 1) ++
          timerStartOps (value % 2 ^ width) (m.tmu_timers 2) 2 (TCNT lay m 2) (TCR lay m 2) := by
  refine ⟨timerReachable_inv lay hl cfg m h, ?_⟩
  intro width addr value ha hw
  obtain ⟨e1, e2, e3⟩ :=
    updateTimerStart_effect lay (m.setRegValue lay.TSTR_OFFSET (value % 2 ^ width))
  obtain ⟨a0, b0⟩ := timer_regs_setTSTR lay hl m (value % 2 ^ width) 0 (by omega)
  obtain ⟨a1, b1⟩ := timer_regs_setTSTR lay hl m (value % 2 ^ width) 1 (by omega)
  obtain ⟨a2, b2⟩ := timer_regs_setTSTR lay hl m (value % 2 ^ width) 2 (by omega)
  refine ⟨_, write_tstr lay hl cfg width m addr value ha hw, ?_, e2, ?_⟩
  · unfold Machine.regValue
    rw [e1]
    exact regValue_setRegValue_same m _ _
  · rw [e3, a0, b0, a1, b1, a2, b2, regValue_setRegValue_same]
    rfl

/-- The second instance after a write of 1 to `TSTR`: timer 0 alone holds a handle. -/
theorem timer_run_state_witness :
    TimerInv exampleLayout
      (UpdateTimerStart exampleLayout (exampleMachine.setRegValue exampleLayout.TSTR_OFFSET 1)) :=
  (timer_run_state exampleLayout (by decide) exampleTable _
    (TimerReachable.write exampleMachine _ 32 26 1
      (TimerReachable.init _ (by decide) (by decide)) rfl)).1

/-- C18: timer projection round-trip.  For each timer `n` in {0,1,2} whose bit of `TSTR` is
set, every `TCR_n` with prescaler code `TCR_n & 7` in 0..4 and every 32-bit `v`: the
32-bit write of `v` to `TCNT_n` schedules the timer with the deadline
`floor(v * 10^9 / f)` nanoseconds, `f = 50000000 >> scale[TCR_n & 7]` with
`scale = {2,4,6,8,10}`; the 32-bit read of `TCNT_n` that follows, with no scheduler time
elapsed, converts the deadline back as `floor(ns * f / 10^9)` and returns `r` with
`v - 1 ≤ r ≤ v`.  The layout is assumed well formed and `TCNT_n` readable and writable. -/
theorem timer_roundtrip (lay : Layout) (hl : lay.WF) (cfg : Config) (m : Machine)
    (n v addr : Nat) (hn : n < 3) (hs : TSTR lay m n ≠ 0) (hc : TCR lay m n &&& 7 ≤ 4)
    (hv : v < 2 ^ 32) (ha : lay.SH4_REG_OFFSET addr = TCNT_OFFSET lay n)
    (hr : (m.sh4.regs (TCNT_OFFSET lay n)).flags &&& lay.R ≠ 0)
    (hw : (m.sh4.regs (TCNT_OFFSET lay n)).flags &&& lay.W ≠ 0) :
    ∃ m2, WriteRegister lay (writeDelegates lay cfg) 32 m addr v = some m2 ∧
      m2.scheduler.RemainingTime (m2.tmu_timers n) =
        (v : Int) * 1000000000 /
          ((50000000 >>> [2, 4, 6, 8, 10].getD (TCR lay m n &&& 7) 0 : Nat) : Int) ∧
      (ReadRegister lay (readDelegates lay) 32 m2 addr : Int) =
        m2.scheduler.RemainingTime (m2.tmu_timers n) *
          ((50000000 >>> [2, 4, 6, 8, 10].getD (TCR lay m n &&& 7) 0 : Nat) : Int) /
            1000000000 ∧
      v ≤ ReadRegister lay (readDelegates lay) 32 m2 addr + 1 ∧
      ReadRegister lay (readDelegates lay) 32 m2 addr ≤ v := by
  obtain ⟨dw, hdw, hdw2⟩ := writeDelegates_tcnt lay hl cfg n hn
  obtain ⟨dr, hdr, hdr2⟩ := readDelegates_tcnt lay hl n hn
  obtain ⟨t1, t2⟩ := timerCount_after_write lay hl m n v hn hs
  obtain ⟨f1, f2⟩ := timerFreq_cases (TCR lay m n) hc
  obtain ⟨k, q0, q1, q2⟩ := roundtrip_arith (timerFreq (TCR lay m n)) v f2
  have hk : ((k : Int) % 2 ^ 32).toNat % 2 ^ 32 = k := by omega
  have hw2 : WriteRegister lay (writeDelegates lay cfg) 32 m addr v
      = some (UpdateTimerCount lay (m.setRegValue (TCNT_OFFSET lay n) v) n) := by
    unfold WriteRegister
    simp only
    rw [ha, if_neg hw, hdw, Nat.mod_eq_of_lt hv]
    exact hdw2 _ _
  have hfl : ((UpdateTimerCount lay (m.setRegValue (TCNT_OFFSET lay n) v) n).sh4.regs
      (TCNT_OFFSET lay n)).flags = (m.sh4.regs (TCNT_OFFSET lay n)).flags := by
    unfold UpdateTimerCount
    split_ifs
    · rw [(reschedule_effect _ _ _ _).1]
      exact flags_setRegValue m _ _ _
    · exact flags_setRegValue m _ _ _
  have hr2 : ReadRegister lay (readDelegates lay) 32
      (UpdateTimerCount lay (m.setRegValue (TCNT_OFFSET lay n) v) n) addr
      = TimerCount lay (UpdateTimerCount lay (m.setRegValue (TCNT_OFFSET lay n) v) n) n
          % 2 ^ 32 := by
    unfold ReadRegister
    simp only
    rw [ha, hfl, if_neg hr, hdr]
    simp only [hdr2]
  refine ⟨_, hw2, ?_, ?_, ?_, ?_⟩
  · rw [t1, ← f1]
    rfl
  · rw [hr2, t2, t1, ← f1, q0, hk]
    exact q0.symm
  · rw [hr2, t2, q0, hk]
    exact q1
  · rw [hr2, t2, q0, hk]
    exact q2

/-- The second instance with timer 0 under way: a write of 1000 to `TCNT0` and the read
after it. -/
theorem timer_roundtrip_witness :
    ∃ m2, WriteRegister exampleLayout (writeDelegates exampleLayout exampleTable) 32
        exampleRunning 30 1000 = some m2 ∧
      m2.scheduler.RemainingTime (m2.tmu_timers 0) =
        (1000 : Int) * 1000000000 /
          ((50000000 >>> [2, 4, 6, 8, 10].getD (TCR exampleLayout exampleRunning 0 &&& 7) 0
            : Nat) : Int) ∧
      (ReadRegister exampleLayout (readDelegates exampleLayout) 32 m2 30 : Int) =
        m2.scheduler.RemainingTime (m2.tmu_timers 0) *
          ((50000000 >>> [2, 4, 6, 8, 10].getD (TCR exampleLayout exampleRunning 0 &&& 7) 0
            : Nat) : Int) / 1000000000 ∧
      1000 ≤ ReadRegister exampleLayout (readDelegates exampleLayout) 32 m2 30 + 1 ∧
      ReadRegister exampleLayout (readDelegates exampleLayout) 32 m2 30 ≤ 1000 :=
  timer_roundtrip exampleLayout (by decide) exampleTable exampleRunning 0 1000 30
    (by decide) (by decide) (by decide) (by decide) (by decide) (by decide) (by decide)

/-- C19: breakpoint round-trip.  For every guest address `a` with no breakpoint
installed and every memory state: after `AddBreakpoint(a)` the 16-bit word at `a` reads 0,
the breakpoint table maps `a` to the original word, and the code cache has been asked to
remove the blocks at `a`; the `RemoveBreakpoint(a)` that follows passes its check, after
it the 16-bit word at `a` reads its value from before `AddBreakpoint`, every byte of
memory reads as before (those off the word are untouched), `a` is no longer in the
breakpoint table, the other entries of the table are as before, and the code cache has
been asked a second time to remove the blocks at `a`. -/
theorem breakpoint_roundtrip (m : Machine) (a : Nat) (hb : m.breakpoints a = none) :
    (AddBreakpoint m a).memory.R16 a = 0 ∧
    (AddBreakpoint m a).breakpoints a = some (m.memory.R16 a) ∧
    (AddBreakpoint m a).code_cache = m.code_cache ++ [CacheOp.RemoveBlocks a] ∧
    ∃ m2, RemoveBreakpoint (AddBreakpoint m a) a = some m2 ∧
      m2.memory.R16 a = m.memory.R16 a ∧
      (∀ b, m2.memory.bytes b % 256 = m.memory.bytes b % 256) ∧
      (∀ b, b ≠ a → b ≠ (a + 1) % 2 ^ 32 → m2.memory.bytes b = m.memory.bytes b) ∧
      m2.breakpoints a = none ∧
      (∀ b, b ≠ a → m2.breakpoints b = m.breakpoints b) ∧
      m2.code_cache = m.code_cache ++ [CacheOp.RemoveBlocks a, CacheOp.RemoveBlocks a] := by
  have hadd : AddBreakpoint m a =
      { m with
        breakpoints := arraySet m.breakpoints a (some (m.memory.R16 a))
        memory := m.memory.W16 a 0
        code_cache := m.code_cache ++ [CacheOp.RemoveBlocks a] } := by
    unfold AddBreakpoint
    simp only [hb]
  have hrem : RemoveBreakpoint (AddBreakpoint m a) a =
      some { m with
        breakpoints := arraySet (arraySet m.breakpoints a (some (m.memory.R16 a))) a none
        memory := (m.memory.W16 a 0).W16 a (m.memory.R16 a)
        code_cache := (m.code_cache ++ [CacheOp.RemoveBlocks a]) ++ [CacheOp.RemoveBlocks a] } := by
    rw [hadd]
    unfold RemoveBreakpoint
    simp [arraySet]
  refine ⟨?_, ?_, ?_, _, hrem, ?_, ?_, ?_, ?_, ?_, ?_⟩
  · rw [hadd]
    exact r16_w16 m.memory a 0 (by decide)
  · rw [hadd]
    simp [arraySet]
  · rw [hadd]
  · exact r16_w16 _ a _ (r16_lt m.memory a)
  · intro b
    simp only
    rw [w16_w16_bytes m.memory a 0 b]
    split_ifs
    · exact Nat.mod_mod _ _
    · rfl
  · intro b h1 h2
    simp only
    rw [w16_w16_bytes m.memory a 0 b, if_neg (by tauto)]
  · simp [arraySet]
  · intro b h1
    simp [arraySet, h1]
  · simp

/-- Scenario S6: the word `0x6003` at `0x8C010000` reads 0 after `AddBreakpoint` and
`0x6003` again after `RemoveBreakpoint`. -/
theorem breakpoint_roundtrip_witness :
    exampleS6.memory.R16 0x8C010000 = 0x6003 ∧
    (AddBreakpoint exampleS6 0x8C010000).memory.R16 0x8C010000 = 0 ∧
    (AddBreakpoint exampleS6 0x8C010000).breakpoints 0x8C010000
      = some (exampleS6.memory.R16 0x8C010000) ∧
    ∃ m2, RemoveBreakpoint (AddBreakpoint exampleS6 0x8C010000) 0x8C010000 = some m2 ∧
      m2.memory.R16 0x8C010000 = exampleS6.memory.R16 0x8C010000 :=
  ⟨by decide,
   (breakpoint_roundtrip exampleS6 0x8C010000 (by decide)).1,
   (breakpoint_roundtrip exampleS6 0x8C010000 (by decide)).2.1,
   (breakpoint_roundtrip exampleS6 0x8C010000 (by decide)).2.2.2.imp
     (fun _ h => ⟨h.1, h.2.1⟩)⟩

/-- C20: the cycle budget of `Run`.  For a slice of 15 seconds (`delta = 15000000000` ns) the
budget `max(1, floor(delta * 200000000 / 1000000000))` is 3000000000, the conversion to
`int` stores `-1294967296` in `ctx.num_cycles`, and `Run` ends its loop without fetching a
block, whatever the blocks do.  For every `delta` from 0 up to 10737418239 ns the stored
budget is `max(1, floor(delta * 200000000 / 1000000000))`, a value greater than 0, and the
loop does not end before a block has run. -/
theorem run_cycles_overflow :
    (∀ (cfg : Config) (run : Machine → Machine × Nat) (fuel : Nat) (m : Machine),
      max (NANO_TO_CYCLES 15000000000 SH4_CLOCK_FREQ) 1 = 3000000000 ∧
      Run cfg run fuel m 15000000000 =
        some ({ m with sh4 := { m.sh4 with ctx := { m.sh4.ctx with
          num_cycles := -1294967296 } } }, 0)) ∧
    (∀ (delta : Int), 0 ≤ delta → delta < 10737418240 →
      runCycles delta = max (delta * 200000000 / 1000000000) 1 ∧ 0 < runCycles delta ∧
      ∀ (cfg : Config) (run : Machine → Machine × Nat) (m : Machine),
        Run cfg run 0 m delta = none ∧
        ∀ fuel r, Run cfg run (fuel + 1) m delta = some r → 0 < r.2) := by
  constructor
  · intro cfg run fuel m
    refine ⟨by decide, ?_⟩
    have h : runCycles 15000000000 = -1294967296 := by decide
    unfold Run
    rw [h]
    cases fuel with
    | zero => rfl
    | succ k => rfl
  · intro delta h0 h1
    have hc : runCycles delta = max (delta * 200000000 / 1000000000) 1 := by
      unfold runCycles toInt32 NANO_TO_CYCLES NS_PER_SEC SH4_CLOCK_FREQ
      simp only [Nat.cast_ofNat]
      omega
    have hp : 0 < runCycles delta := by
      rw [hc]
      omega
    refine ⟨hc, hp, ?_⟩
    intro cfg run m
    constructor
    · unfold Run runLoop
      simp only [gt_iff_lt, hp, if_true]
    · intro fuel r hr
      unfold Run runLoop at hr
      simp only [gt_iff_lt, hp, if_true] at hr
      exact runLoop_blocks cfg run fuel _ _ r hr

/-- C21: store-queue 32-bit access.  For every address `a` and 32-bit value `v`,
`WriteSQ<uint32_t>(a, v)` sets `ctx.sq[(a >> 5) & 1][(a >> 2) & 7]` to `v`, leaves every
other store-queue word and the rest of the object unchanged, and a following
`ReadSQ<uint32_t>(a2)` returns `v` for every `a2` with the same bits 2..5 as `a`
(`a2 & 0x3c = a & 0x3c`). -/
theorem sq_write_read32 (m : Machine) (a v : Nat) (hv : v < 2 ^ 32) :
    (WriteSQ 32 m a v).sh4.ctx.sq ((a >>> 5) &&& 1) ((a >>> 2) &&& 7) = v ∧
    (∀ i j, ¬ (i = (a >>> 5) &&& 1 ∧ j = (a >>> 2) &&& 7) →
      (WriteSQ 32 m a v).sh4.ctx.sq i j = m.sh4.ctx.sq i j) ∧
    WriteSQ 32 m a v =
      { m with sh4 := { m.sh4 with ctx := { m.sh4.ctx with
          sq := (WriteSQ 32 m a v).sh4.ctx.sq } } } ∧
    ∀ a2, a2 &&& 0x3c = a &&& 0x3c → ReadSQ 32 (WriteSQ 32 m a v) a2 = v := by
  obtain ⟨e1, e2⟩ := sq_index a
  have hv2 : v % 2 ^ 32 % 2 ^ 32 = v := by
    rw [Nat.mod_mod, Nat.mod_eq_of_lt hv]
  refine ⟨?_, ?_, rfl, ?_⟩
  · rw [writeSQ_sq, e1, e2, if_pos ⟨rfl, rfl⟩, hv2]
  · intro i j hij
    rw [writeSQ_sq, e1, e2, if_neg hij]
  · intro a2 h
    obtain ⟨c1, c2⟩ := sq_index_congr a a2 h
    unfold ReadSQ
    simp only
    rw [writeSQ_sq, c1, c2, if_pos ⟨rfl, rfl⟩, hv2, Nat.mod_eq_of_lt hv]

/-- A 32-bit write to `0xe0000024` lands in `ctx.sq[1][1]` and is read back at
`0xe3ffff24`. -/
theorem sq_write_read32_witness :
    (WriteSQ 32 exampleS5 0xe0000024 0xdeadbeef).sh4.ctx.sq 1 1 = 0xdeadbeef ∧
    ReadSQ 32 (WriteSQ 32 exampleS5 0xe0000024 0xdeadbeef) 0xe3ffff24 = 0xdeadbeef :=
  ⟨(sq_write_read32 exampleS5 0xe0000024 0xdeadbeef (by decide)).1,
   (sq_write_read32 exampleS5 0xe0000024 0xdeadbeef (by decide)).2.2.2 0xe3ffff24
     (by decide)⟩

/-- C22, as the specification states it, fails: an 8-bit `WriteSQ` of `0xAB` to the word
`0x12345678` of `ctx.sq[0][0]` does not leave the upper 24 bits of the word as they
were. -/
theorem sq_narrow_write_refuted :
    ¬ ((WriteSQ 8 exampleSQ 0xe0000000 0xAB).sh4.ctx.sq 0 0 % 2 ^ 8 = 0xAB ∧
      (WriteSQ 8 exampleSQ 0xe0000000 0xAB).sh4.ctx.sq 0 0 / 2 ^ 8 =
        exampleSQ.sh4.ctx.sq 0 0 / 2 ^ 8) := by
  decide

/-- C22, amended: for every address `a`, an 8-bit (16-bit) `ReadSQ` returns the low 8 (16)
bits of the addressed 32-bit store-queue word, and an 8-bit (16-bit) `WriteSQ` of `w`
replaces the whole word by `w` zero-extended: afterwards its low 8 (16) bits equal `w` and
its remaining upper bits are 0; every other store-queue word and the rest of the object
are unchanged. -/
theorem sq_narrow_access (width : Nat) (m : Machine) (a w : Nat)
    (hwidth : width = 8 ∨ width = 16) (hw : w < 2 ^ width) :
    ReadSQ width m a = m.sh4.ctx.sq ((a >>> 5) &&& 1) ((a >>> 2) &&& 7) % 2 ^ width ∧
    (WriteSQ width m a w).sh4.ctx.sq ((a >>> 5) &&& 1) ((a >>> 2) &&& 7) = w ∧
    (WriteSQ width m a w).sh4.ctx.sq ((a >>> 5) &&& 1) ((a >>> 2) &&& 7) % 2 ^ width = w ∧
    (WriteSQ width m a w).sh4.ctx.sq ((a >>> 5) &&& 1) ((a >>> 2) &&& 7) / 2 ^ width = 0 ∧
    (∀ i j, ¬ (i = (a >>> 5) &&& 1 ∧ j = (a >>> 2) &&& 7) →
      (WriteSQ width m a w).sh4.ctx.sq i j = m.sh4.ctx.sq i j) ∧
    WriteSQ width m a w =
      { m with sh4 := { m.sh4 with ctx := { m.sh4.ctx with
          sq := (WriteSQ width m a w).sh4.ctx.sq } } } := by
  obtain ⟨e1, e2⟩ := sq_index a
  have h32 : w < 2 ^ 32 := by
    rcases hwidth with h | h <;> subst h <;> omega
  have hw2 : w % 2 ^ width % 2 ^ 32 = w := by
    rw [Nat.mod_eq_of_lt hw, Nat.mod_eq_of_lt h32]
  have hword : (WriteSQ width m a w).sh4.ctx.sq ((a >>> 5) &&& 1) ((a >>> 2) &&& 7) = w := by
    rw [writeSQ_sq, e1, e2, if_pos ⟨rfl, rfl⟩, hw2]
  refine ⟨?_, hword, ?_, ?_, ?_, rfl⟩
  · unfold ReadSQ
    simp only
    rw [e1, e2]
  · rw [hword]
    exact Nat.mod_eq_of_lt hw
  · rw [hword]
    exact Nat.div_eq_of_lt hw
  · intro i j hij
    rw [writeSQ_sq, e1, e2, if_neg hij]

/-- An 8-bit write of `0xAB` over the word `0x12345678` of `ctx.sq[0][0]` leaves the word
`0xAB`. -/
theorem sq_narrow_access_witness :
    ReadSQ 8 exampleSQ 0xe0000000 = 0x78 ∧
    (WriteSQ 8 exampleSQ 0xe0000000 0xAB).sh4.ctx.sq ((0xe0000000 >>> 5) &&& 1)
      ((0xe0000000 >>> 2) &&& 7) = 0xAB :=
  ⟨(sq_narrow_access 8 exampleSQ 0xe0000000 0xAB (Or.inl rfl) (by decide)).1,
   (sq_narrow_access 8 exampleSQ 0xe0000000 0xAB (Or.inl rfl) (by decide)).2.1⟩

/-- C23: the `PDTRA` read delegate passes the probe sequence of the boot ROM quoted in its
comment.  For every initial `PCTRA` whose low nibble is 0 and every initial `PDTRA`, with
`PCTRA` writable and `PDTRA` readable and writable, accesses of at least 4 bits and a well
formed layout: performing in order `PCTRA := old|0x8`; `PDTRA := read(PDTRA)|0x3`; probe;
`PCTRA := old|0xB`; probe; `PDTRA := read(PDTRA)&0xfffe`; probe; `PCTRA := old|0x8`; probe;
`PCTRA := old|0xC`; probe; `PDTRA := read(PDTRA)&0xfffd`; probe, through `WriteRegister` and
`ReadRegister` with the installed delegates, every write succeeds and the six probes
`read(PDTRA) & 3` yield 3, 3, 0, 3, 3, 0. -/
theorem pdtra_boot_probe (lay : Layout) (hl : lay.WF) (cfg : Config) (width : Nat)
    (hw : 4 ≤ width) (m : Machine) (pctra pdtra : Nat)
    (hpc : lay.SH4_REG_OFFSET pctra = lay.PCTRA_OFFSET)
    (hpd : lay.SH4_REG_OFFSET pdtra = lay.PDTRA_OFFSET)
    (fW0 : (m.sh4.regs lay.PCTRA_OFFSET).flags &&& lay.W ≠ 0)
    (fW1 : (m.sh4.regs lay.PDTRA_OFFSET).flags &&& lay.W ≠ 0)
    (fR1 : (m.sh4.regs lay.PDTRA_OFFSET).flags &&& lay.R ≠ 0)
    (h0 : m.regValue lay.PCTRA_OFFSET &&& 0xf = 0) :
    bootProbe lay cfg width m pctra pdtra (m.regValue lay.PCTRA_OFFSET)
      = some [3, 3, 0, 3, 3, 0] := by
  have n8 := nibble_or (m.regValue lay.PCTRA_OFFSET) 0x8 width h0 (by norm_num) hw
  have nb := nibble_or (m.regValue lay.PCTRA_OFFSET) 0xB width h0 (by norm_num) hw
  have nc := nibble_or (m.regValue lay.PCTRA_OFFSET) 0xC width h0 (by norm_num) hw
  have k3 : (3 : Nat) % 2 ^ width = 3 := small_mod 3 width (by norm_num) hw
  have k2 : (2 : Nat) % 2 ^ width = 2 := small_mod 2 width (by norm_num) hw
  have k1 : (1 : Nat) % 2 ^ width = 1 := small_mod 1 width (by norm_num) hw
  -- PCTRA := old | 0x8
  obtain ⟨m1, w1, p1, d1, f1⟩ := probe_write lay hl cfg width m 0 pctra
    (m.regValue lay.PCTRA_OFFSET ||| 0x8) (by omega) hpc fW0
  have c1 : m1.regValue lay.PCTRA_OFFSET &&& 0xf = 0x8 := by
    rw [show m1.regValue lay.PCTRA_OFFSET = _ from p1]
    exact n8
  have r1 := (probe_read lay hl width hw m1 pdtra hpd (by rw [f1]; exact fR1)).1 c1
  -- PDTRA := read(PDTRA) | 0x3
  obtain ⟨m2, w2, p2, d2, f2⟩ := probe_write lay hl cfg width m1 1 pdtra
    (ReadRegister lay (readDelegates lay) width m1 pdtra ||| 0x3) (by omega) hpd
    (by rw [f1]; exact fW1)
  have c2 : m2.regValue lay.PCTRA_OFFSET &&& 0xf = 0x8 := by
    rw [show m2.regValue lay.PCTRA_OFFSET = _ from d2 0 (by omega) (by omega)]
    exact c1
  have e2 : m2.regValue lay.PDTRA_OFFSET = 3 := by
    rw [show m2.regValue lay.PDTRA_OFFSET = _ from p2, r1]
    exact k3
  have r2 := (probe_read lay hl width hw m2 pdtra hpd (by rw [f2, f1]; exact fR1)).1 c2
  -- PCTRA := old | 0xB
  obtain ⟨m3, w3, p3, d3, f3⟩ := probe_write lay hl cfg width m2 0 pctra
    (m.regValue lay.PCTRA_OFFSET ||| 0xB) (by omega) hpc (by rw [f2, f1]; exact fW0)
  have c3 : m3.regValue lay.PCTRA_OFFSET &&& 0xf = 0xb := by
    rw [show m3.regValue lay.PCTRA_OFFSET = _ from p3]
    exact nb
  have e3 : m3.regValue lay.PDTRA_OFFSET = 3 := by
    rw [show m3.regValue lay.PDTRA_OFFSET = _ from d3 1 (by omega) (by omega)]
    exact e2
  have r3 := ((probe_read lay hl width hw m3 pdtra hpd
    (by rw [f3, f2, f1]; exact fR1)).2.1 c3).1 (by rw [e3]; decide)
  -- PDTRA := read(PDTRA) & 0xfffe
  obtain ⟨m4, w4, p4, d4, f4⟩ := probe_write lay hl cfg width m3 1 pdtra
    (ReadRegister lay (readDelegates lay) width m3 pdtra &&& 0xfffe) (by omega) hpd
    (by rw [f3, f2, f1]; exact fW1)
  have c4 : m4.regValue lay.PCTRA_OFFSET &&& 0xf = 0xb := by
    rw [show m4.regValue lay.PCTRA_OFFSET = _ from d4 0 (by omega) (by omega)]
    exact c3
  have e4 : m4.regValue lay.PDTRA_OFFSET = 2 := by
    rw [show m4.regValue lay.PDTRA_OFFSET = _ from p4, r3]
    exact k2
  have r4 := ((probe_read lay hl width hw m4 pdtra hpd
    (by rw [f4, f3, f2, f1]; exact fR1)).2.1 c4).2 (by rw [e4]; decide)
  -- PCTRA := old | 0x8
  obtain ⟨m5, w5, p5, d5, f5⟩ := probe_write lay hl cfg width m4 0 pctra
    (m.regValue lay.PCTRA_OFFSET ||| 0x8) (by omega) hpc
    (by rw [f4, f3, f2, f1]; exact fW0)
  have c5 : m5.regValue lay.PCTRA_OFFSET &&& 0xf = 0x8 := by
    rw [show m5.regValue lay.PCTRA_OFFSET = _ from p5]
    exact n8
  have e5 : m5.regValue lay.PDTRA_OFFSET = 2 := by
    rw [show m5.regValue lay.PDTRA_OFFSET = _ from d5 1 (by omega) (by omega)]
    exact e4
  have r5 := (probe_read lay hl width hw m5 pdtra hpd
    (by rw [f5, f4, f3, f2, f1]; exact fR1)).1 c5
  -- PCTRA := old | 0xC
  obtain ⟨m6, w6, p6, d6, f6⟩ := probe_write lay hl cfg width m5 0 pctra
    (m.regValue lay.PCTRA_OFFSET ||| 0xC) (by omega) hpc
    (by rw [f5, f4, f3, f2, f1]; exact fW0)
  have c6 : m6.regValue lay.PCTRA_OFFSET &&& 0xf = 0xc := by
    rw [show m6.regValue lay.PCTRA_OFFSET = _ from p6]
    exact nc
  have e6 : m6.regValue lay.PDTRA_OFFSET = 2 := by
    rw [show m6.regValue lay.PDTRA_OFFSET = _ from d6 1 (by omega) (by omega)]
    exact e5
  have r6 := ((probe_read lay hl width hw m6 pdtra hpd
    (by rw [f6, f5, f4, f3, f2, f1]; exact fR1)).2.2 c6).1 (by rw [e6]; decide)
  -- PDTRA := read(PDTRA) & 0xfffd
  obtain ⟨m7, w7, p7, d7, f7⟩ := probe_write lay hl cfg width m6 1 pdtra
    (ReadRegister lay (readDelegates lay) width m6 pdtra &&& 0xfffd) (by omega) hpd
    (by rw [f6, f5, f4, f3, f2, f1]; exact fW1)
  have c7 : m7.regValue lay.PCTRA_OFFSET &&& 0xf = 0xc := by
    rw [show m7.regValue lay.PCTRA_OFFSET = _ from d7 0 (by omega) (by omega)]
    exact c6
  have e7 : m7.regValue lay.PDTRA_OFFSET = 1 := by
    rw [show m7.regValue lay.PDTRA_OFFSET = _ from p7, r6]
    exact k1
  have r7 := ((probe_read lay hl width hw m7 pdtra hpd
    (by rw [f7, f6, f5, f4, f3, f2, f1]; exact fR1)).2.2 c7).2 (by rw [e7]; decide)
  unfold bootProbe
  simp only
  rw [w1, Option.some_bind, w2, Option.some_bind, w3, Option.some_bind, w4, Option.some_bind,
    w5, Option.some_bind, w6, Option.some_bind, w7, Option.some_bind, r2, r3, r4, r5, r6, r7]
  rfl

/-- The probe sequence on the second instance, with 32-bit accesses at the addresses 0 and
1 of `PCTRA` and `PDTRA`. -/
theorem pdtra_boot_probe_witness :
    bootProbe exampleLayout exampleTable 32 exampleMachine 0 1
      (exampleMachine.regValue exampleLayout.PCTRA_OFFSET) = some [3, 3, 0, 3, 3, 0] :=
  pdtra_boot_probe exampleLayout (by decide) exampleTable 32 (by decide) exampleMachine 0 1
    (by decide) (by decide) (by decide) (by decide) (by decide) (by decide)

/-- C24: cache-RAM indexing stays inside the 8 KiB buffer.  For every address and either
value of `CCR.OIX`, the offset `CACHE_OFFSET` computes equals
`((addr & 0x2000000) >> 13) | (addr & 0xfff)` when `OIX` is set and
`((addr & 0x2000) >> 1) | (addr & 0xfff)` otherwise, and is below 8192; for every access
width `w` in {1,2,4,8} bytes and every `w`-aligned address, `offset + w ≤ 8192`, so that
with `CCR.ORA = 1` `ReadCache` and `WriteCache` pass their check and do not index outside
`cache_`. -/
theorem cache_offset_in_bounds (lay : Layout) (m : Machine) (addr w value : Nat)
    (hw : w = 1 ∨ w = 2 ∨ w = 4 ∨ w = 8) (ha : addr % w = 0) :
    (∀ OIX, OIX ≠ 0 →
      CACHE_OFFSET addr OIX = ((addr &&& 0x2000000) >>> 13) ||| (addr &&& 0xfff)) ∧
    CACHE_OFFSET addr 0 = ((addr &&& 0x2000) >>> 1) ||| (addr &&& 0xfff) ∧
    (∀ OIX, CACHE_OFFSET addr OIX < 8192 ∧ CACHE_OFFSET addr OIX + w ≤ CACHE_SIZE) ∧
    ((m.regValue lay.CCR_OFFSET >>> lay.CCR_ORA_BIT) % 2 = 1 →
      (∃ r, ReadCache lay w m addr = some r) ∧
      ∃ m2, WriteCache lay w m addr value = some m2) := by
  have hb : ∀ OIX, CACHE_OFFSET addr OIX < 8192 ∧ CACHE_OFFSET addr OIX + w ≤ CACHE_SIZE := by
    intro OIX
    unfold CACHE_SIZE
    rcases cache_offset_eq addr OIX with h | h <;> rw [h] <;>
      rcases hw with h1 | h1 | h1 | h1 <;> subst h1 <;> omega
  refine ⟨?_, ?_, hb, ?_⟩
  · intro OIX h
    unfold CACHE_OFFSET
    rw [if_pos h]
  · unfold CACHE_OFFSET
    rw [if_neg (by simp)]
  · intro hora
    constructor
    · unfold ReadCache load
      simp only
      rw [if_neg (by rw [hora]; simp), if_pos (hb _).2]
      exact ⟨_, rfl⟩
    · unfold WriteCache store
      simp only
      rw [if_neg (by rw [hora]; simp), if_pos (hb _).2]
      exact ⟨_, rfl⟩

/-- A 4-byte access at `0x7e001ffc` with `CCR.OIX = 1` and bit 25 of the address set: the
offset is `0x1ffc`, the last aligned one of the buffer. -/
theorem cache_offset_in_bounds_witness :
    CACHE_OFFSET 0x7e001ffc 1 < 8192 ∧ CACHE_OFFSET 0x7e001ffc 1 + 4 ≤ CACHE_SIZE ∧
    ∃ r, ReadCache exampleLayout 4 exampleCacheRAM 0x7e001ffc = some r :=
  ⟨((cache_offset_in_bounds exampleLayout exampleCacheRAM 0x7e001ffc 4 0
      (Or.inr (Or.inr (Or.inl rfl))) (by decide)).2.2.1 1).1,
   ((cache_offset_in_bounds exampleLayout exampleCacheRAM 0x7e001ffc 4 0
      (Or.inr (Or.inr (Or.inl rfl))) (by decide)).2.2.1 1).2,
   ((cache_offset_in_bounds exampleLayout exampleCacheRAM 0x7e001ffc 4 0
      (Or.inr (Or.inr (Or.inl rfl))) (by decide)).2.2.2 (by decide)).1⟩

end SH4
